import Mathlib

/-!
# Invoice system: payment recording, invoice creation, analytics and gateway routing

A shallow embedding of the Go sources of the invoicing back end.

* Monetary amounts are `float64` in the source. They are embedded twice. In the
  first part of the file they are exact rationals; that reading carries the
  properties that do not depend on rounding: which rows are written, which
  status, which answer, which keys. In the part "Amounts as `float64`" the type
  `float64` is IEEE 754 binary64 with round to nearest, ties to even, every
  operation rounded on its own (no fused multiply-add); the definitions under
  `fp` translate the same source functions with every amount a `float64`, and
  the properties about sums, products, comparisons and renderings of amounts
  are stated on them. `json.Marshal` refuses an infinity or a NaN, so a write
  of such an amount fails before it reaches the store.
* The remote table store is embedded as lists of rows (`Store`, `fp.Store`); one
  handler run sees the store through a `Remote` record that says which remote
  calls fail and which id / timestamp the store assigns to an inserted row.
* Handlers return their HTTP answer together with the store they leave behind.
* Go strings are embedded as Lean strings; `strings.HasPrefix` and SQL `LIKE`
  are read on their character lists (all patterns in the sources are ASCII).
  Where the source measures or slices a string (`len(s)`, `s[i:j]`), the UTF-8
  bytes of the string are used (`goBytes`).
* A run-time panic is an outcome of its own (`Run.panicked`), apart from the
  errors a function returns.
* The PDF page is embedded as the list of text cells drawn on it, in order.
* Calls into libraries outside the repository (`time`, `fmt.Sscanf`, the PDF
  renderer, the order of a `range` over a map, the order of the rows of a
  select) are parameters of the translated functions; `fmt.Sprintf` with `%d`,
  `%04d` and `%.2f` and the English `message.Printer` with `%.0f` / `%.2f` are
  given as functions on integers and on `float64`.
-/

namespace InvoiceSys

/-! ## Data model (`services/shared/pkg/types`, `internal/db`) -/

/-- Line item of `types.Item`. -/
structure Item where
  Description : String
  Quantity : Int
  UnitPrice : ℚ
  Total : ℚ
  deriving DecidableEq, Repr

/-- One row of the `invoices` table; `types.Invoice` and `db.Invoice` are both
read from these columns. -/
structure Invoice where
  ID : String
  CustomerID : String
  InvoiceNumber : String
  DueDate : String
  Status : String
  PaymentStatus : String
  Subtotal : ℚ
  Tax : ℚ
  Discount : ℚ
  Total : ℚ
  PaidAmount : ℚ
  Currency : String
  Notes : String
  Items : List Item
  PaymentDate : String
  CreatedAt : String
  deriving DecidableEq, Repr

/-- Row of the `customers` table (`types.Customer`). -/
structure Customer where
  ID : String
  Name : String
  Email : String
  Phone : String := ""
  Address : String := ""
  CreatedAt : String := ""
  deriving DecidableEq, Repr

/-- Row of the `payments` table (`types.Payment`). -/
structure Payment where
  ID : String
  InvoiceID : String
  Amount : ℚ
  PaymentMethod : String
  PaymentDate : String
  ReferenceNumber : String
  Notes : String
  CreatedAt : String
  CreatedBy : String
  deriving DecidableEq, Repr

/-- Request body of a payment (`types.PaymentCreate`, `db.PaymentCreate`). -/
structure PaymentCreate where
  InvoiceID : String
  Amount : ℚ
  PaymentMethod : String
  PaymentDate : String
  ReferenceNumber : String
  Notes : String
  CreatedBy : String
  deriving DecidableEq, Repr

/-- Row of the `currency_rates` table (`db.CurrencyRate`). -/
structure CurrencyRate where
  ID : String
  FromCurrency : String
  ToCurrency : String
  Rate : ℚ
  UpdatedAt : String
  deriving DecidableEq, Repr

/-- Contents of the remote table store. -/
structure Store where
  invoices : List Invoice
  payments : List Payment
  customers : List Customer
  currency_rates : List CurrencyRate
  invoice_items : List (String × Item) := []
  deriving DecidableEq, Repr

/-- Behaviour of the remote store during one handler run: which calls fail,
the error text it reports, the id and timestamp given to an inserted row, and
the order in which it returns rows for `Order("created_at", nil)` (the query
builder's default options; newest first unless stated otherwise). -/
structure Remote where
  selectFails : Bool
  insertFails : Bool
  updateFails : Bool
  customerLookupFails : String → Bool
  errMsg : String
  newID : String
  now : String
  deleteFails : Bool := false
  deleteItemsFails : Bool := false
  orderByCreatedAt : List Invoice → List Invoice :=
    fun rows => rows.insertionSort (fun a b => b.CreatedAt.toList ≤ a.CreatedAt.toList)

/-- A remote store on which every call succeeds. -/
def Remote.healthy (newID now : String) : Remote :=
  { selectFails := false, insertFails := false, updateFails := false,
    customerLookupFails := fun _ => false, errMsg := "", newID := newID, now := now }

/-! ## Response envelope (`services/shared/pkg/utils/response.go`) -/

/-- The envelope of `utils.Response` together with the HTTP status code. -/
structure Response (α : Type) where
  StatusCode : Nat
  Success : Bool
  Data : Option α
  Error : String
  deriving DecidableEq, Repr

/-- Translation of `utils.Success`. -/
def utils.Success {α : Type} (data : α) : Response α :=
  { StatusCode := 200, Success := true, Data := some data, Error := "" }

/-- Translation of `utils.Created`. -/
def utils.Created {α : Type} (data : α) : Response α :=
  { StatusCode := 201, Success := true, Data := some data, Error := "" }

/-- Translation of `utils.Error`. -/
def utils.Error {α : Type} (statusCode : Nat) (message : String) : Response α :=
  { StatusCode := statusCode, Success := false, Data := none, Error := message }

/-- Translation of `utils.BadRequest`. -/
def utils.BadRequest {α : Type} (message : String) : Response α :=
  utils.Error 400 message

/-- Translation of `utils.InternalError`. -/
def utils.InternalError {α : Type} (message : String) : Response α :=
  utils.Error 500 message

/-- Translation of `utils.NotFound`. -/
def utils.NotFound {α : Type} (message : String) : Response α :=
  utils.Error 404 message

/-! ## Payment service (`payment-service/internal/repository`, `.../handler`) -/

/-- Translation of `PaymentRepository.GetInvoice`: select by id, first row. -/
def PaymentRepository.GetInvoice (rt : Remote) (s : Store) (id : String) :
    Except String Invoice :=
  if rt.selectFails then .error rt.errMsg
  else
    match s.invoices.filter (fun r => r.ID = id) with
    | [] => .error "invoice not found"
    | r :: _ => .ok r

/-- The row the store builds from an inserted payment. -/
def paymentRow (rt : Remote) (p : PaymentCreate) : Payment :=
  { ID := rt.newID, InvoiceID := p.InvoiceID, Amount := p.Amount,
    PaymentMethod := p.PaymentMethod, PaymentDate := p.PaymentDate,
    ReferenceNumber := p.ReferenceNumber, Notes := p.Notes,
    CreatedAt := rt.now, CreatedBy := p.CreatedBy }

/-- Translation of `PaymentRepository.Create`: insert into `payments`. -/
def PaymentRepository.Create (rt : Remote) (s : Store) (payment : PaymentCreate) :
    Except String Payment × Store :=
  if rt.insertFails then (.error rt.errMsg, s)
  else
    (.ok (paymentRow rt payment),
      { s with payments := s.payments ++ [paymentRow rt payment] })

/-- The update-by-id of `paid_amount`, `payment_status` and `payment_date`. -/
def setPaymentFields (id : String) (paidAmount : ℚ) (paymentStatus paymentDate : String)
    (r : Invoice) : Invoice :=
  if r.ID = id then
    { r with PaidAmount := paidAmount, PaymentStatus := paymentStatus,
             PaymentDate := paymentDate }
  else r

/-- Translation of `PaymentRepository.UpdateInvoice`. -/
def PaymentRepository.UpdateInvoice (rt : Remote) (s : Store) (id : String)
    (paidAmount : ℚ) (paymentStatus paymentDate : String) : Except String Unit × Store :=
  if rt.updateFails then (.error rt.errMsg, s)
  else
    let rows := s.invoices.map (setPaymentFields id paidAmount paymentStatus paymentDate)
    (.ok (), { s with invoices := rows })

/-- Translation of `PaymentHandler.Create` (POST /payments); `none` is a body
that does not decode. -/
def PaymentHandler.Create (rt : Remote) (s : Store) (body : Option PaymentCreate) :
    Response Payment × Store :=
  match body with
  | none => (utils.BadRequest "Invalid JSON", s)
  | some req =>
    if req.InvoiceID = "" ∨ req.Amount ≤ 0 ∨ req.PaymentMethod = "" then
      (utils.BadRequest "invoice_id, amount, and payment_method required", s)
    else
      match PaymentRepository.GetInvoice rt s req.InvoiceID with
      | .error _ => (utils.NotFound "Invoice not found", s)
      | .ok invoice =>
        match PaymentRepository.Create rt s req with
        | (.error e, s1) => (utils.InternalError e, s1)
        | (.ok payment, s1) =>
          let newPaidAmount := invoice.PaidAmount + req.Amount
          let paymentStatus :=
            if newPaidAmount ≥ invoice.Total then "paid" else "partially_paid"
          let newPaidAmount :=
            if newPaidAmount ≥ invoice.Total then invoice.Total else newPaidAmount
          match PaymentRepository.UpdateInvoice rt s1 req.InvoiceID newPaidAmount
              paymentStatus req.PaymentDate with
          | (.error e, s2) =>
            (utils.InternalError ("Failed to update invoice: " ++ e), s2)
          | (.ok _, s2) => (utils.Created payment, s2)

/-! ## Monolith payment recording (`internal/db/db.go`) -/

/-- Translation of `db.Client.GetInvoice`: select by id with `Single()`, which
fails unless exactly one row matches. -/
def db.Client.GetInvoice (rt : Remote) (s : Store) (id : String) : Except String Invoice :=
  if rt.selectFails then .error rt.errMsg
  else
    match s.invoices.filter (fun r => r.ID = id) with
    | [r] => .ok r
    | _ => .error "no single row"

/-- Translation of `db.Client.RecordPayment`: insert, then fetch, then update. -/
def db.Client.RecordPayment (rt : Remote) (s : Store) (payment : PaymentCreate) :
    Except String Payment × Store :=
  if rt.insertFails then (.error rt.errMsg, s)
  else
    let s1 : Store := { s with payments := s.payments ++ [paymentRow rt payment] }
    match db.Client.GetInvoice rt s1 payment.InvoiceID with
    | .error e => (.error e, s1)
    | .ok invoice =>
      let newPaidAmount := invoice.PaidAmount + payment.Amount
      let paymentStatus :=
        if newPaidAmount ≥ invoice.Total then "paid" else "partially_paid"
      let newPaidAmount :=
        if newPaidAmount ≥ invoice.Total then invoice.Total else newPaidAmount
      if rt.updateFails then
        (.error ("failed to update invoice: " ++ rt.errMsg), s1)
      else
        let rows := s1.invoices.map
          (setPaymentFields payment.InvoiceID newPaidAmount paymentStatus payment.PaymentDate)
        (.ok (paymentRow rt payment), { s1 with invoices := rows })

/-! ## Formatting and pattern helpers (`fmt.Sprintf`, SQL `LIKE`) -/

/-- The verb `%d` of `fmt.Sprintf` on an `int`. -/
def sprintfD (i : Int) : String :=
  match i with
  | Int.ofNat n => Nat.repr n
  | Int.negSucc n => "-" ++ Nat.repr (n + 1)

/-- The verb `%04d` of `fmt.Sprintf` on an `int`: zero padding to width 4, the
sign counting towards the width. -/
def sprintf04d (i : Int) : String :=
  match i with
  | Int.ofNat n => String.mk (List.leftpad 4 '0' (Nat.repr n).toList)
  | Int.negSucc n => "-" ++ String.mk (List.leftpad 3 '0' (Nat.repr (n + 1)).toList)

/-- Whether some suffix of the string satisfies `f`: what a `%` of a `LIKE`
pattern leaves to the rest of the pattern. -/
def anySuffix (f : List Char → Bool) : List Char → Bool
  | [] => f []
  | c :: cs => f (c :: cs) || anySuffix f cs

/-- SQL `LIKE` on character lists: `%` matches any run of characters, `_` any
single character, every other pattern character itself. -/
def likeMatch : List Char → List Char → Bool
  | [], s => s.isEmpty
  | p :: ps, s =>
    if p = '%' then anySuffix (likeMatch ps) s
    else
      match s with
      | [] => false
      | c :: cs => (p = '_' || p = c) && likeMatch ps cs

/-- The filter `Like(column, pattern)` of the store's query builder. -/
def Like (pattern value : String) : Bool :=
  likeMatch pattern.toList value.toList

/-- Translation of `strings.HasPrefix`. -/
def HasPrefix (s pre : String) : Bool :=
  pre.toList.isPrefixOf s.toList

/-! ## Invoice service (`invoice-service/internal/repository`, `.../handler`) -/

/-- The readings of `time.Now()` a handler run makes: the current year and the
date thirty days ahead in the layout `2006-01-02`. -/
structure Clock where
  Year : Int
  In30Days : String

/-- Translation of `InvoiceRepository.generateInvoiceNumber`. -/
def InvoiceRepository.generateInvoiceNumber (clk : Clock) (rt : Remote) (s : Store) :
    Except String String :=
  let year := clk.Year
  if rt.selectFails then .error rt.errMsg
  else
    let invoices := s.invoices.filter
      (fun r => Like ("INV-" ++ sprintfD year ++ "-%") r.InvoiceNumber)
    let nextNumber : Int := invoices.length + 1
    .ok ("INV-" ++ sprintfD year ++ "-" ++ sprintf04d nextNumber)

/-- One turn of the subtotal loop of `InvoiceRepository.Create`: the line total is
set on the loop's copy of the item and added to the running subtotal. -/
def subtotalStep (subtotal : ℚ) (item : Item) : ℚ :=
  let item : Item := { item with Total := (item.Quantity : ℚ) * item.UnitPrice }
  subtotal + item.Total

/-- Translation of `InvoiceRepository.Create`. -/
def InvoiceRepository.Create (clk : Clock) (rt : Remote) (s : Store) (customerID : String)
    (items : List Item) (tax discount : ℚ) (status notes dueDate currency : String) :
    Except String Invoice × Store :=
  let subtotal := items.foldl subtotalStep 0
  let taxAmount := subtotal * (tax / 100)
  let total := subtotal + taxAmount - discount
  match InvoiceRepository.generateInvoiceNumber clk rt s with
  | .error e => (.error e, s)
  | .ok invoiceNumber =>
    let status := if status = "" then "pending" else status
    let currency := if currency = "" then "USD" else currency
    let dueDate := if dueDate = "" then clk.In30Days else dueDate
    if rt.insertFails then (.error rt.errMsg, s)
    else
      let row : Invoice :=
        { ID := rt.newID, CustomerID := customerID, InvoiceNumber := invoiceNumber,
          DueDate := dueDate, Status := status, PaymentStatus := "unpaid",
          Subtotal := subtotal, Tax := tax, Discount := discount, Total := total,
          PaidAmount := 0, Currency := currency, Notes := notes, Items := items,
          PaymentDate := "", CreatedAt := rt.now }
      (.ok row, { s with invoices := s.invoices ++ [row] })

/-- Request body of POST /invoices in the invoice service. -/
structure InvoiceCreateRequest where
  CustomerID : String
  Items : List Item
  Tax : ℚ
  Discount : ℚ
  Status : String
  Notes : String
  DueDate : String
  Currency : String
  deriving DecidableEq, Repr

/-- Translation of `InvoiceHandler.Create` (POST /invoices); `none` is a body
that does not decode. -/
def InvoiceHandler.Create (clk : Clock) (rt : Remote) (s : Store)
    (body : Option InvoiceCreateRequest) : Response Invoice × Store :=
  match body with
  | none => (utils.BadRequest "Invalid JSON", s)
  | some req =>
    if req.CustomerID = "" ∨ req.Items.length = 0 then
      (utils.BadRequest "customer_id and items are required", s)
    else
      match InvoiceRepository.Create clk rt s req.CustomerID req.Items req.Tax req.Discount
          req.Status req.Notes req.DueDate req.Currency with
      | (.error e, s1) => (utils.InternalError e, s1)
      | (.ok invoice, s1) => (utils.Created invoice, s1)

/-! ## Monolith handlers (`internal/server`, `internal/db/db.go`) -/

/-- Answer of a monolith handler: `http.Error` text or an encoded JSON value. -/
inductive HttpResult (α : Type) where
  | error (msg : String) (code : Nat)
  | json (code : Nat) (data : α)
  deriving DecidableEq, Repr

/-- The monolith server: whether `db.New` produced a client (`s.db != nil`). -/
structure Server where
  dbConfigured : Bool

/-- Translation of `db.Client.GenerateInvoiceNumber`. -/
def db.Client.GenerateInvoiceNumber (rt : Remote) (s : Store) : Except String String :=
  if rt.selectFails then .error rt.errMsg
  else
    let count := s.invoices
    .ok ("INV-2026-" ++ sprintf04d ((count.length : Int) + 1))

/-! ## Sample data -/

/-- A stored invoice of total 100 with 30 already paid. -/
def exInvoice : Invoice :=
  { ID := "inv-1", CustomerID := "c-1", InvoiceNumber := "INV-2026-0001",
    DueDate := "2026-02-01", Status := "pending", PaymentStatus := "partially_paid",
    Subtotal := 100, Tax := 0, Discount := 0, Total := 100, PaidAmount := 30,
    Currency := "USD", Notes := "", Items := [], PaymentDate := "2026-01-03",
    CreatedAt := "2026-01-02T10:00:00Z" }

/-- A customer row. -/
def exCustomer : Customer := { ID := "c-1", Name := "Ada", Email := "ada@example.com" }

/-- A store holding `exInvoice` and `exCustomer`. -/
def exStore : Store :=
  { invoices := [exInvoice], payments := [], customers := [exCustomer], currency_rates := [] }

/-- A store without rows. -/
def emptyStore : Store :=
  { invoices := [], payments := [], customers := [], currency_rates := [] }

/-- A remote store on which every call succeeds and which hands out id `n-1`. -/
def exRemote : Remote := Remote.healthy "n-1" "2026-01-05T09:00:00Z"

/-- A clock reading in 2026. -/
def exClock : Clock := { Year := 2026, In30Days := "2026-02-04" }

/-- A payment of 50 on `exInvoice`. -/
def exPayment : PaymentCreate :=
  { InvoiceID := "inv-1", Amount := 50, PaymentMethod := "cash",
    PaymentDate := "2026-01-05", ReferenceNumber := "", Notes := "", CreatedBy := "" }

/-- Two line items: 2 × 10 and 3 × 5/2. -/
def exItems : List Item :=
  [{ Description := "a", Quantity := 2, UnitPrice := 10, Total := 0 },
   { Description := "b", Quantity := 3, UnitPrice := 5 / 2, Total := 999 }]

/-- The row `InvoiceRepository.Create` stores for `exItems`, tax 10 and discount 5. -/
def exCreated : Invoice :=
  { ID := "n-1", CustomerID := "c-1", InvoiceNumber := "INV-2026-0002",
    DueDate := "2026-02-04", Status := "pending", PaymentStatus := "unpaid",
    Subtotal := 55 / 2, Tax := 10, Discount := 5, Total := 101 / 4, PaidAmount := 0,
    Currency := "USD", Notes := "", Items := exItems, PaymentDate := "",
    CreatedAt := "2026-01-05T09:00:00Z" }

/-! ## Sequences of payment recordings and the status the amounts call for -/

/-- The store after a sequence of runs of `PaymentHandler.Create`, each with its
own behaviour of the remote store. -/
def recordAll : Store → List (Remote × PaymentCreate) → Store
  | s, [] => s
  | s, step :: rest => recordAll (PaymentHandler.Create step.1 s (some step.2)).2 rest

/-- One line item 1 × 10. -/
def exOneItem : List Item :=
  [{ Description := "a", Quantity := 1, UnitPrice := 10, Total := 0 }]

/-- The row `InvoiceRepository.Create` stores on the empty store for 1 × 10 with
tax 0 and the given discount. -/
def exDiscounted (discount : ℚ) : Invoice :=
  { ID := "n-1", CustomerID := "c-1", InvoiceNumber := "INV-2026-0001",
    DueDate := "2026-02-04", Status := "pending", PaymentStatus := "unpaid",
    Subtotal := 10, Tax := 0, Discount := discount, Total := 10 - discount, PaidAmount := 0,
    Currency := "USD", Notes := "", Items := exOneItem, PaymentDate := "",
    CreatedAt := "2026-01-05T09:00:00Z" }

/-- The part of Go's `time` package the analytics code calls: `time.Parse` with
the layout `2006-01-02` (an instant, or failure) and the instant `time.Now()`. -/
structure TimeLib where
  ParseDate : String → Option Int
  Now : Int

/-- Translation of `types.DashboardStats`. -/
structure DashboardStats where
  TotalRevenue : ℚ
  PaidAmount : ℚ
  UnpaidAmount : ℚ
  OverdueAmount : ℚ
  TotalInvoices : Int
  PaidInvoices : Int
  UnpaidInvoices : Int
  OverdueInvoices : Int
  deriving DecidableEq, Repr

/-- Translation of `db.DashboardStats`. -/
structure db.DashboardStats where
  TotalRevenue : ℚ
  PaidAmount : ℚ
  UnpaidAmount : ℚ
  OverdueAmount : ℚ
  TotalInvoices : Int
  PaidInvoices : Int
  UnpaidInvoices : Int
  OverdueInvoices : Int
  PartiallyPaid : Int
  Currency : String
  deriving DecidableEq, Repr

/-- The query of both `GetDashboardStats`: all invoices, restricted to one
currency unless the argument is empty or `ALL`. -/
def selectByCurrency (s : Store) (currency : String) : List Invoice :=
  if currency ≠ "" ∧ currency ≠ "ALL" then s.invoices.filter (fun r => r.Currency = currency)
  else s.invoices

/-- The switch on `inv.PaymentStatus` in `AnalyticsRepository.GetDashboardStats`. -/
def analyticsSwitch (stats : DashboardStats) (inv : Invoice) : DashboardStats :=
  if inv.PaymentStatus = "paid" then
    { stats with PaidAmount := stats.PaidAmount + inv.Total,
                 PaidInvoices := stats.PaidInvoices + 1 }
  else if inv.PaymentStatus = "unpaid" then
    { stats with UnpaidAmount := stats.UnpaidAmount + inv.Total,
                 UnpaidInvoices := stats.UnpaidInvoices + 1 }
  else if inv.PaymentStatus = "partially_paid" then
    { stats with PaidAmount := stats.PaidAmount + inv.PaidAmount,
                 UnpaidAmount := stats.UnpaidAmount + (inv.Total - inv.PaidAmount) }
  else stats

/-- The overdue check that follows the switch. -/
def analyticsOverdue (tl : TimeLib) (stats : DashboardStats) (inv : Invoice) :
    DashboardStats :=
  if inv.DueDate ≠ "" ∧ inv.PaymentStatus ≠ "paid" then
    match tl.ParseDate inv.DueDate with
    | some dueDate =>
      if dueDate < tl.Now then
        { stats with OverdueAmount := stats.OverdueAmount + (inv.Total - inv.PaidAmount),
                     OverdueInvoices := stats.OverdueInvoices + 1 }
      else stats
    | none => stats
  else stats

/-- One turn of the loop of `AnalyticsRepository.GetDashboardStats`. -/
def analyticsStep (tl : TimeLib) (stats : DashboardStats) (inv : Invoice) : DashboardStats :=
  let stats := { stats with TotalRevenue := stats.TotalRevenue + inv.Total,
                            TotalInvoices := stats.TotalInvoices + 1 }
  let stats := analyticsSwitch stats inv
  analyticsOverdue tl stats inv

/-- Translation of `AnalyticsRepository.GetDashboardStats`. -/
def AnalyticsRepository.GetDashboardStats (tl : TimeLib) (rt : Remote) (s : Store)
    (currency : String) : Except String DashboardStats :=
  if rt.selectFails then .error rt.errMsg
  else
    let invoices := selectByCurrency s currency
    .ok (invoices.foldl (analyticsStep tl)
      { TotalRevenue := 0, PaidAmount := 0, UnpaidAmount := 0, OverdueAmount := 0,
        TotalInvoices := 0, PaidInvoices := 0, UnpaidInvoices := 0, OverdueInvoices := 0 })

/-- One turn of the loop of `db.Client.GetDashboardStats`. -/
def db.dashboardStep (stats : db.DashboardStats) (inv : Invoice) : db.DashboardStats :=
  let stats := { stats with TotalRevenue := stats.TotalRevenue + inv.Total,
                            TotalInvoices := stats.TotalInvoices + 1 }
  if inv.PaymentStatus = "paid" then
    { stats with PaidAmount := stats.PaidAmount + inv.Total,
                 PaidInvoices := stats.PaidInvoices + 1 }
  else if inv.PaymentStatus = "partially_paid" then
    { stats with PaidAmount := stats.PaidAmount + inv.PaidAmount,
                 UnpaidAmount := stats.UnpaidAmount + (inv.Total - inv.PaidAmount),
                 PartiallyPaid := stats.PartiallyPaid + 1 }
  else if inv.PaymentStatus = "overdue" then
    { stats with OverdueAmount := stats.OverdueAmount + inv.Total,
                 OverdueInvoices := stats.OverdueInvoices + 1 }
  else if inv.PaymentStatus = "unpaid" then
    { stats with UnpaidAmount := stats.UnpaidAmount + inv.Total,
                 UnpaidInvoices := stats.UnpaidInvoices + 1 }
  else stats

/-- Translation of `db.Client.GetDashboardStats`. -/
def db.Client.GetDashboardStats (rt : Remote) (s : Store) (currency : String) :
    Except String db.DashboardStats :=
  if rt.selectFails then .error rt.errMsg
  else
    let invoices := selectByCurrency s currency
    .ok (invoices.foldl db.dashboardStep
      { TotalRevenue := 0, PaidAmount := 0, UnpaidAmount := 0, OverdueAmount := 0,
        TotalInvoices := 0, PaidInvoices := 0, UnpaidInvoices := 0, OverdueInvoices := 0,
        PartiallyPaid := 0, Currency := currency })

/-- An invoice known only by total, paid amount and payment status. -/
def invoiceOf (id : String) (total paid : ℚ) (paymentStatus : String) : Invoice :=
  { ID := id, CustomerID := "c-1", InvoiceNumber := "", DueDate := "", Status := "",
    PaymentStatus := paymentStatus, Subtotal := total, Tax := 0, Discount := 0,
    Total := total, PaidAmount := paid, Currency := "USD", Notes := "", Items := [],
    PaymentDate := "", CreatedAt := "" }

/-! ## Top customers (`analytics-service/internal/repository`) -/

/-- Translation of `types.TopCustomer`. -/
structure TopCustomer where
  CustomerID : String
  CustomerName : String
  CustomerEmail : String
  TotalRevenue : ℚ
  InvoiceCount : Int
  deriving DecidableEq, Repr

/-- One turn of the grouping loop of `GetTopCustomers`; the Go map
`customerMap` is kept as the list of its entries in order of first insertion. -/
def groupStep (customerMap : List TopCustomer) (inv : Invoice) : List TopCustomer :=
  let customerMap :=
    if customerMap.any (fun c => c.CustomerID = inv.CustomerID) then customerMap
    else customerMap ++ [{ CustomerID := inv.CustomerID, CustomerName := "",
                           CustomerEmail := "", TotalRevenue := 0, InvoiceCount := 0 }]
  customerMap.map (fun c =>
    if c.CustomerID = inv.CustomerID then
      { c with TotalRevenue := c.TotalRevenue + inv.Total, InvoiceCount := c.InvoiceCount + 1 }
    else c)

/-- The customer lookup made for one entry of the map: name and email are set
when the select succeeds and returns a row. -/
def fetchDetails (rt : Remote) (s : Store) (topCustomer : TopCustomer) : TopCustomer :=
  if rt.customerLookupFails topCustomer.CustomerID then topCustomer
  else
    match s.customers.filter (fun c => c.ID = topCustomer.CustomerID) with
    | [] => topCustomer
    | c :: _ => { topCustomer with CustomerName := c.Name, CustomerEmail := c.Email }

/-- The grouped customers with their details, before conversion to a slice. -/
def groupedCustomers (rt : Remote) (s : Store) : List TopCustomer :=
  (s.invoices.foldl groupStep []).map (fetchDetails rt s)

/-- The body of the inner sorting loop: exchange positions `i` and `j` when the
revenue at `j` is greater than the revenue at `i`. -/
def swapIfGreater (result : List TopCustomer) (i j : Nat) : List TopCustomer :=
  match result[i]?, result[j]? with
  | some a, some b =>
    if b.TotalRevenue > a.TotalRevenue then (result.set i b).set j a else result
  | _, _ => result

/-- The inner loop `for j := i + 1; j < len(result); j++`. -/
def sortInner (result : List TopCustomer) (i : Nat) : List TopCustomer :=
  (List.range' (i + 1) (result.length - (i + 1))).foldl
    (fun result j => swapIfGreater result i j) result

/-- The outer loop `for i := 0; i < len(result)-1; i++`. -/
def sortByRevenue (result : List TopCustomer) : List TopCustomer :=
  (List.range (result.length - 1)).foldl sortInner result

/-- Translation of `AnalyticsRepository.GetTopCustomers`; `mapOrder` is the order
in which Go's `range` walks the map when the slice is built. -/
def AnalyticsRepository.GetTopCustomers (mapOrder : List TopCustomer → List TopCustomer)
    (rt : Remote) (s : Store) (limit : Int) : Except String (List TopCustomer) :=
  if rt.selectFails then .error rt.errMsg
  else
    let result := mapOrder (groupedCustomers rt s)
    let result := sortByRevenue result
    let result :=
      if limit > 0 ∧ (result.length : Int) > limit then result.take limit.toNat else result
    .ok result

/-- A clock library that parses no date. -/
def exTime : TimeLib := { ParseDate := fun _ => none, Now := 0 }

/-- The number of stored invoices whose invoice number starts with `INV-<year>-`. -/
def countForYear (s : Store) (year : Int) : Nat :=
  (s.invoices.filter (fun r => HasPrefix r.InvoiceNumber ("INV-" ++ sprintfD year ++ "-"))).length

/-- A payment on an invoice id that has no row in `exStore`. -/
def exMissingPayment : PaymentCreate :=
  { InvoiceID := "inv-404", Amount := 50, PaymentMethod := "cash",
    PaymentDate := "2026-01-05", ReferenceNumber := "", Notes := "", CreatedBy := "" }

/-! ## Gateway routing (`api-gateway/cmd/main.go`, `api-gateway/internal/proxy`) -/

/-- Translation of `proxy.GetServiceURL`; `getenv` is `os.Getenv`. -/
def proxy.GetServiceURL (getenv : String → String) (serviceName : String) : String :=
  let host := getenv (serviceName ++ "_HOST")
  let port := getenv (serviceName ++ "_PORT")
  let host := if host = "" then "localhost" else host
  "http://" ++ host ++ ":" ++ port

/-- What the catch-all route does with a request: forward it to the service of
the given configuration name at the given URL, or answer with `http.Error`. -/
inductive GatewayAnswer where
  | proxied (serviceName : String) (serviceURL : String)
  | httpError (msg : String) (code : Nat)
  deriving DecidableEq, Repr

/-- Translation of the handler of `r.PathPrefix("/")` in the gateway's `main`. -/
def catchAll (getenv : String → String) (path : String) : GatewayAnswer :=
  if HasPrefix path "/customers" then
    .proxied "CUSTOMER_SERVICE" (proxy.GetServiceURL getenv "CUSTOMER_SERVICE")
  else if HasPrefix path "/invoices" ∨ HasPrefix path "/currency-rates" then
    .proxied "INVOICE_SERVICE" (proxy.GetServiceURL getenv "INVOICE_SERVICE")
  else if HasPrefix path "/payments" then
    .proxied "PAYMENT_SERVICE" (proxy.GetServiceURL getenv "PAYMENT_SERVICE")
  else if HasPrefix path "/dashboard" ∨ HasPrefix path "/analytics" then
    .proxied "ANALYTICS_SERVICE" (proxy.GetServiceURL getenv "ANALYTICS_SERVICE")
  else if HasPrefix path "/notifications" then
    .proxied "NOTIFICATION_SERVICE" (proxy.GetServiceURL getenv "NOTIFICATION_SERVICE")
  else
    .httpError "Service not found" 404

/-- The service a gateway answer forwards to, if any. -/
def GatewayAnswer.target : GatewayAnswer → Option String
  | .proxied serviceName _ => some serviceName
  | .httpError _ _ => none

/-- The checks of the catch-all route as a table: path start and service. -/
def gatewayRules : List (String × String) :=
  [("/customers", "CUSTOMER_SERVICE"), ("/invoices", "INVOICE_SERVICE"),
   ("/currency-rates", "INVOICE_SERVICE"), ("/payments", "PAYMENT_SERVICE"),
   ("/dashboard", "ANALYTICS_SERVICE"), ("/analytics", "ANALYTICS_SERVICE"),
   ("/notifications", "NOTIFICATION_SERVICE")]

/-- The service of the first rule of a table whose path start matches. -/
def firstMatch (rules : List (String × String)) (path : String) : Option String :=
  (rules.find? (fun r => HasPrefix path r.1)).map (fun r => r.2)

/-! ## Update and delete by id (`customer-service`, `invoice-service`) -/

/-- The row an update with a `types.Customer` body leaves: `id`, `name` and
`email` are always sent, the `omitempty` columns only when not empty. -/
def applyCustomerUpdate (customer row : Customer) : Customer :=
  { ID := customer.ID, Name := customer.Name, Email := customer.Email,
    Phone := if customer.Phone = "" then row.Phone else customer.Phone,
    Address := if customer.Address = "" then row.Address else customer.Address,
    CreatedAt := if customer.CreatedAt = "" then row.CreatedAt else customer.CreatedAt }

/-- Translation of `CustomerRepository.Update`: update by id, returning the
updated rows; zero rows is the error `customer not found`. -/
def CustomerRepository.Update (rt : Remote) (s : Store) (id : String) (customer : Customer) :
    Except String Customer × Store :=
  if rt.updateFails then (.error rt.errMsg, s)
  else
    let result := (s.customers.filter (fun r => r.ID = id)).map (applyCustomerUpdate customer)
    let rows := s.customers.map
      (fun r => if r.ID = id then applyCustomerUpdate customer r else r)
    match result with
    | [] => (.error "customer not found", { s with customers := rows })
    | r :: _ => (.ok r, { s with customers := rows })

/-- Translation of `CustomerHandler.Update` (PUT /customers/{id}); `none` is a
body that does not decode. -/
def CustomerHandler.Update (rt : Remote) (s : Store) (id : String) (body : Option Customer) :
    Response Customer × Store :=
  match body with
  | none => (utils.BadRequest "Invalid JSON", s)
  | some customer =>
    match CustomerRepository.Update rt s id customer with
    | (.error e, s1) => (utils.InternalError e, s1)
    | (.ok result, s1) => (utils.Success result, s1)

/-- The update-by-id of `status` and `notes`. -/
def setStatusNotes (id status notes : String) (r : Invoice) : Invoice :=
  if r.ID = id then { r with Status := status, Notes := notes } else r

/-- Translation of `InvoiceRepository.Update`. -/
def InvoiceRepository.Update (rt : Remote) (s : Store) (id status notes : String) :
    Except String Invoice × Store :=
  if rt.updateFails then (.error rt.errMsg, s)
  else
    let result := (s.invoices.filter (fun r => r.ID = id)).map (setStatusNotes id status notes)
    let rows := s.invoices.map (setStatusNotes id status notes)
    match result with
    | [] => (.error "invoice not found", { s with invoices := rows })
    | r :: _ => (.ok r, { s with invoices := rows })

/-- Translation of `InvoiceHandler.Update` (PUT /invoices/{id}); the body holds
`status` and `notes`, `none` is a body that does not decode. -/
def InvoiceHandler.Update (rt : Remote) (s : Store) (id : String)
    (body : Option (String × String)) : Response Invoice × Store :=
  match body with
  | none => (utils.BadRequest "Invalid JSON", s)
  | some req =>
    match InvoiceRepository.Update rt s id req.1 req.2 with
    | (.error e, s1) => (utils.InternalError e, s1)
    | (.ok invoice, s1) => (utils.Success invoice, s1)

/-- Translation of `CustomerRepository.Delete`: delete by id; only a failure of
the remote call is an error. -/
def CustomerRepository.Delete (rt : Remote) (s : Store) (id : String) :
    Except String Unit × Store :=
  if rt.deleteFails then (.error rt.errMsg, s)
  else
    let rows := s.customers.filter (fun r => r.ID ≠ id)
    (.ok (), { s with customers := rows })

/-- Translation of `CustomerHandler.Delete` (DELETE /customers/{id}); the data of
the success envelope is its `message`. -/
def CustomerHandler.Delete (rt : Remote) (s : Store) (id : String) : Response String × Store :=
  match CustomerRepository.Delete rt s id with
  | (.error e, s1) => (utils.InternalError e, s1)
  | (.ok _, s1) => (utils.Success "Customer deleted successfully", s1)

/-- Translation of `InvoiceRepository.Delete`: the item rows of the invoice
first, then the invoice row. -/
def InvoiceRepository.Delete (rt : Remote) (s : Store) (id : String) :
    Except String Unit × Store :=
  if rt.deleteItemsFails then (.error rt.errMsg, s)
  else
    let items := s.invoice_items.filter (fun r => r.1 ≠ id)
    let s1 : Store := { s with invoice_items := items }
    if rt.deleteFails then (.error rt.errMsg, s1)
    else
      let rows := s1.invoices.filter (fun r => r.ID ≠ id)
      (.ok (), { s1 with invoices := rows })

/-- Translation of `InvoiceHandler.Delete` (DELETE /invoices/{id}). -/
def InvoiceHandler.Delete (rt : Remote) (s : Store) (id : String) : Response String × Store :=
  match InvoiceRepository.Delete rt s id with
  | (.error e, s1) => (utils.InternalError e, s1)
  | (.ok _, s1) => (utils.Success "Invoice deleted successfully", s1)

/-- A remote store whose inserts succeed and whose updates fail. -/
def exRemoteUpdateFails : Remote :=
  { Remote.healthy "n-1" "2026-01-05T09:00:00Z" with updateFails := true, errMsg := "timeout" }

/-- The request of the invoice service for 1 × 10 with tax 0 and discount 20. -/
def exDiscountRequest : InvoiceCreateRequest :=
  { CustomerID := "c-1", Items := exOneItem, Tax := 0, Discount := 20, Status := "",
    Notes := "", DueDate := "", Currency := "" }

/-! ## Invoice creation in two steps: read the number, then insert -/

/-- The part of `InvoiceRepository.Create` after `generateInvoiceNumber` has
returned `invoiceNumber`: totals, defaults and the insert. -/
def InvoiceRepository.insertNumbered (clk : Clock) (rt : Remote) (s : Store)
    (customerID : String) (items : List Item) (tax discount : ℚ)
    (status notes dueDate currency invoiceNumber : String) : Except String Invoice × Store :=
  let subtotal := items.foldl subtotalStep 0
  let taxAmount := subtotal * (tax / 100)
  let total := subtotal + taxAmount - discount
  let status := if status = "" then "pending" else status
  let currency := if currency = "" then "USD" else currency
  let dueDate := if dueDate = "" then clk.In30Days else dueDate
  if rt.insertFails then (.error rt.errMsg, s)
  else
    let row : Invoice :=
      { ID := rt.newID, CustomerID := customerID, InvoiceNumber := invoiceNumber,
        DueDate := dueDate, Status := status, PaymentStatus := "unpaid",
        Subtotal := subtotal, Tax := tax, Discount := discount, Total := total,
        PaidAmount := 0, Currency := currency, Notes := notes, Items := items,
        PaymentDate := "", CreatedAt := rt.now }
    (.ok row, { s with invoices := s.invoices ++ [row] })

/-- Two runs of `InvoiceRepository.Create`, A and B, interleaved so that both
read their invoice number on the store `s` before either inserts; the result is
the store after both inserts (`s` itself when a read fails). -/
def createBothReadFirst (clkA clkB : Clock) (rtA rtB : Remote) (s : Store)
    (reqA reqB : InvoiceCreateRequest) : Store :=
  match InvoiceRepository.generateInvoiceNumber clkA rtA s,
        InvoiceRepository.generateInvoiceNumber clkB rtB s with
  | .ok numberA, .ok numberB =>
    let s1 := (InvoiceRepository.insertNumbered clkA rtA s reqA.CustomerID reqA.Items reqA.Tax
      reqA.Discount reqA.Status reqA.Notes reqA.DueDate reqA.Currency numberA).2
    (InvoiceRepository.insertNumbered clkB rtB s1 reqB.CustomerID reqB.Items reqB.Tax
      reqB.Discount reqB.Status reqB.Notes reqB.DueDate reqB.Currency numberB).2
  | _, _ => s

/-- A healthy remote store that hands out the id `n-2`. -/
def exRemoteB : Remote := Remote.healthy "n-2" "2026-01-05T09:00:01Z"

/-! ## Revenue by period (`analytics-service/internal/repository`) -/

/-- The civil date of a parsed `time.Time`, which is all that the layouts
`2006-01-02` and `2006-01` read. -/
structure Time where
  Year : Nat
  Month : Nat
  Day : Nat
  deriving DecidableEq, Repr

/-- The part of Go's `time` package that `GetRevenueByPeriod` calls:
`time.Parse(time.RFC3339, ·)` (`none` is a parse error; the empty string does not
parse) and `Time.ISOWeek` (ISO week-year and ISO week number). -/
structure RFC3339Lib where
  Parse : String → Option Time
  ISOWeek : Time → Int × Nat
  parse_empty : Parse "" = none

/-- A number in decimal, left-padded with zeros to `width` characters. -/
def zeroPad (width n : Nat) : List Char :=
  List.leftpad width '0' (Nat.repr n).toList

/-- Rendering of a layout by `Time.Format`, for the layout elements `2006`
(four-digit year), `01` (two-digit month) and `02` (two-digit day); every other
character stands for itself. `skip` counts the characters of an element already
rendered that are still to be passed over. -/
def formatLayout (t : Time) : Nat → List Char → List Char
  | _, [] => []
  | skip + 1, _ :: rest => formatLayout t skip rest
  | 0, c :: rest =>
    if ['2', '0', '0', '6'].isPrefixOf (c :: rest) then
      zeroPad 4 t.Year ++ formatLayout t 3 rest
    else if ['0', '1'].isPrefixOf (c :: rest) then
      zeroPad 2 t.Month ++ formatLayout t 1 rest
    else if ['0', '2'].isPrefixOf (c :: rest) then
      zeroPad 2 t.Day ++ formatLayout t 1 rest
    else c :: formatLayout t 0 rest

/-- Translation of `Time.Format` for the layouts used in the repository. -/
def Time.Format (t : Time) (layout : String) : String :=
  String.mk (formatLayout t 0 layout.toList)

/-- The verb `%02d` of `fmt.Sprintf` on an `int`. -/
def sprintf02d (i : Int) : String :=
  match i with
  | Int.ofNat n => String.mk (List.leftpad 2 '0' (Nat.repr n).toList)
  | Int.negSucc n => "-" ++ String.mk (List.leftpad 1 '0' (Nat.repr (n + 1)).toList)

/-- The switch on `period` in `GetRevenueByPeriod`. -/
def periodKeyOf (lib : RFC3339Lib) (period : String) (createdAt : Time) : String :=
  if period = "daily" then createdAt.Format "2006-01-02"
  else if period = "weekly" then
    let yw := lib.ISOWeek createdAt
    sprintfD yw.1 ++ "-W" ++ sprintf02d (yw.2 : Int)
  else if period = "monthly" then createdAt.Format "2006-01"
  else createdAt.Format "2006-01-02"

/-- The Go statement `m[k] += v` on a map kept as the list of its entries in
order of first insertion: a missing key starts from the zero value. -/
def mapAddAt {β : Type} [Add β] [Zero β] (m : List (String × β)) (k : String) (v : β) :
    List (String × β) :=
  let m := if m.any (fun e => e.1 = k) then m else m ++ [(k, 0)]
  m.map (fun e => if e.1 = k then (e.1, e.2 + v) else e)

/-- One turn of the grouping loop of `GetRevenueByPeriod`. -/
def revenueStep (lib : RFC3339Lib) (period : String) (revenueMap : List (String × ℚ))
    (inv : Invoice) : List (String × ℚ) :=
  if inv.CreatedAt = "" then revenueMap
  else
    match lib.Parse inv.CreatedAt with
    | none => revenueMap
    | some createdAt =>
      let periodKey := periodKeyOf lib period createdAt
      mapAddAt revenueMap periodKey inv.Total

/-- Translation of `types.RevenueData`. -/
structure RevenueData where
  Period : String
  Amount : ℚ
  deriving DecidableEq, Repr

/-- The query of `GetRevenueByPeriod`: the paid invoices, in the order the store
gives them for `Order("created_at", nil)`, at most `limit` of them. -/
def fetchPaidInvoices (rt : Remote) (s : Store) (limit : Int) : List Invoice :=
  (rt.orderByCreatedAt (s.invoices.filter (fun r => r.PaymentStatus = "paid"))).take
    limit.toNat

/-- Translation of `AnalyticsRepository.GetRevenueByPeriod`; `mapOrder` is the
order in which Go's `range` walks the map when the slice is built. -/
def AnalyticsRepository.GetRevenueByPeriod (lib : RFC3339Lib)
    (mapOrder : List (String × ℚ) → List (String × ℚ)) (rt : Remote) (s : Store)
    (period : String) (limit : Int) : Except String (List RevenueData) :=
  if rt.selectFails then .error rt.errMsg
  else
    let invoices := fetchPaidInvoices rt s limit
    let revenueMap := invoices.foldl (revenueStep lib period) []
    .ok ((mapOrder revenueMap).map (fun e => { Period := e.1, Amount := e.2 }))

/-- The bucket key an invoice is assigned to: none when `created_at` is empty or
does not parse. -/
def bucketOf (lib : RFC3339Lib) (period : String) (inv : Invoice) : Option String :=
  if inv.CreatedAt = "" then none
  else (lib.Parse inv.CreatedAt).map (periodKeyOf lib period)

/-- A parser that knows two timestamps of January 2026 and, for the ISO week,
that both days lie in the weeks 1 and 2 of 2026. -/
def exLib : RFC3339Lib :=
  { Parse := fun str =>
      if str = "2026-01-02T10:00:00Z" then some { Year := 2026, Month := 1, Day := 2 }
      else if str = "2026-01-05T09:00:00Z" then some { Year := 2026, Month := 1, Day := 5 }
      else none,
    ISOWeek := fun t => if t.Day ≤ 4 then (2026, 1) else (2026, 2),
    parse_empty := by decide }

/-- Three paid invoices: two created on 2 January 2026, one without timestamp. -/
def exRevenueStore : Store :=
  { emptyStore with invoices :=
      [{ invoiceOf "i-1" 100 100 "paid" with CreatedAt := "2026-01-02T10:00:00Z" },
       { invoiceOf "i-2" 50 50 "paid" with CreatedAt := "2026-01-02T10:00:00Z" },
       { invoiceOf "i-3" 7 7 "paid" with CreatedAt := "" }] }

/-- The value a key holds in a map kept as a list of entries (zero when the key
is absent). -/
def valueAt {β : Type} [AddCommMonoid β] (m : List (String × β)) (k : String) : β :=
  ((m.filter (fun e => e.1 = k)).map (fun e => e.2)).sum

/-- The step `m[k] += v` of `mapAddAt` on the entries that are there. -/
def bumpAt {β : Type} [Add β] (k : String) (v : β) (m : List (String × β)) :
    List (String × β) :=
  m.map (fun e => if e.1 = k then (e.1, e.2 + v) else e)

/-- The map built from the empty or a given map by `m[k] += v` over a list of
key and value pairs. -/
def accumulate {β : Type} [Add β] [Zero β] (kvs : List (String × β))
    (m : List (String × β)) : List (String × β) :=
  kvs.foldl (fun m kv => mapAddAt m kv.1 kv.2) m

/-- The key and amount an invoice adds to the revenue map, if any. -/
def revenueEntry (lib : RFC3339Lib) (period : String) (inv : Invoice) : Option (String × ℚ) :=
  (bucketOf lib period inv).map (fun k => (k, inv.Total))

/-- Two paid invoices of January 2026, of totals 100 and 50. -/
def exLimitStore : Store :=
  { emptyStore with invoices :=
      [{ invoiceOf "i-1" 100 100 "paid" with CreatedAt := "2026-01-02T10:00:00Z" },
       { invoiceOf "i-2" 50 50 "paid" with CreatedAt := "2026-01-05T09:00:00Z" }] }

/-- Sum of the totals of all paid invoices of the store whose creation date
falls in the bucket `key`. -/
def paidTotalInBucket (lib : RFC3339Lib) (period : String) (s : Store) (key : String) : ℚ :=
  ((s.invoices.filter
    (fun inv => inv.PaymentStatus = "paid" ∧ bucketOf lib period inv = some key)).map
      (fun inv => inv.Total)).sum

/-- A clock library that knows the date 2026-01-01 as the instant 0 and reads
the instant 10 now. -/
def exPastDue : TimeLib :=
  { ParseDate := fun str => if str = "2026-01-01" then some 0 else none, Now := 10 }

/-- An unpaid invoice of total 100 that was due on 2026-01-01. -/
def exOverdueInvoice : Invoice :=
  { invoiceOf "i-1" 100 0 "unpaid" with DueDate := "2026-01-01" }

/-! ## Search and revenue in the monolith (`internal/db/db.go`) -/

/-- The bytes of a Go string: its UTF-8 encoding. `len` and slicing of a Go
string count and cut these bytes. -/
def goBytes (s : String) : List UInt8 :=
  s.toUTF8.data.toList

/-- Translation of `stringContains`: the loop over the start positions
`0 .. len(s)-len(substr)`, comparing the slice `s[i:i+len(substr)]`. -/
def stringContains (s substr : String) : Bool :=
  let last : Int := ((goBytes s).length : Int) - ((goBytes substr).length : Int)
  (List.range (last + 1).toNat).any
    (fun i => ((goBytes s).drop i).take (goBytes substr).length = goBytes substr)

/-- Translation of `containsIgnoreCase`. -/
def containsIgnoreCase (str substr : String) : Bool :=
  decide ((goBytes str).length ≥ (goBytes substr).length) &&
    (decide (str = substr) || decide ((goBytes substr).length = 0) || stringContains str substr)

/-- Translation of `db.Client.FilterInvoices`; `createdAtLe a b` is the store's
comparison `a ≤ b` on the column `created_at`. The query builder keeps one
filter per column, so the `Lte` on `created_at` replaces the `Gte` set before
it: with an end date only the upper bound is applied. -/
def db.Client.FilterInvoices (createdAtLe : String → String → Bool) (rt : Remote) (s : Store)
    (status searchTerm startDate endDate : String) : Except String (List Invoice) :=
  let query := s.invoices
  let query :=
    if status ≠ "" ∧ status ≠ "all" then query.filter (fun r => r.Status = status) else query
  let query :=
    if endDate ≠ "" then query.filter (fun r => createdAtLe r.CreatedAt endDate)
    else if startDate ≠ "" then query.filter (fun r => createdAtLe startDate r.CreatedAt)
    else query
  if rt.selectFails then .error rt.errMsg
  else
    let invoices := query
    if searchTerm ≠ "" ∧ invoices.length > 0 then
      .ok (invoices.filter (fun inv =>
        containsIgnoreCase inv.ID searchTerm ||
          containsIgnoreCase inv.CustomerID searchTerm ||
          containsIgnoreCase inv.Notes searchTerm))
    else .ok invoices

/-- A store with one invoice whose notes read `ACME order`. -/
def exSearchStore : Store :=
  { emptyStore with invoices := [{ invoiceOf "i-1" 100 0 "unpaid" with Notes := "ACME order" }] }

/-- A comparison of timestamps as text. -/
def exCreatedAtLe (a b : String) : Bool := decide (a.toList ≤ b.toList)

/-- Translation of `db.RevenueByPeriod`; `Date` holds the bytes of the slice
`created_at[:10]`. -/
structure db.RevenueByPeriod where
  Date : List UInt8
  Revenue : ℚ
  InvoiceCount : Int
  Currency : String
  deriving DecidableEq, Repr

/-- How a call ends: it returns a value, or a run-time panic aborts it. -/
inductive Run (α : Type) where
  | returned (value : α)
  | panicked (msg : String)

/-- One turn of the grouping loop of `db.Client.GetRevenueByPeriod` once the
slice `date` has been taken; the Go map is kept as the list of its entries in
order of first insertion. -/
def db.revenueByPeriodStep (revenueMap : List db.RevenueByPeriod) (date : List UInt8)
    (inv : Invoice) : List db.RevenueByPeriod :=
  let revenueMap :=
    if revenueMap.any (fun e => e.Date = date) then revenueMap
    else revenueMap ++ [{ Date := date, Revenue := 0, InvoiceCount := 0,
                          Currency := inv.Currency }]
  revenueMap.map (fun e =>
    if e.Date = date then
      { e with Revenue := e.Revenue + inv.Total, InvoiceCount := e.InvoiceCount + 1 }
    else e)

/-- The grouping loop of `db.Client.GetRevenueByPeriod`: `inv.CreatedAt[:10]`
panics when the string has fewer than 10 bytes, which ends the loop (`none`). -/
def db.revenueByPeriodLoop : List Invoice → List db.RevenueByPeriod →
    Option (List db.RevenueByPeriod)
  | [], revenueMap => some revenueMap
  | inv :: rest, revenueMap =>
    if (goBytes inv.CreatedAt).length < 10 then none
    else
      let date := (goBytes inv.CreatedAt).take 10
      db.revenueByPeriodLoop rest (db.revenueByPeriodStep revenueMap date inv)

/-- Translation of `db.Client.GetRevenueByPeriod`; `mapOrder` is the order in
which Go's `range` walks the map when the slice is built. -/
def db.Client.GetRevenueByPeriod
    (mapOrder : List db.RevenueByPeriod → List db.RevenueByPeriod) (rt : Remote) (s : Store)
    (_period : String) (_limit : Int) : Run (Except String (List db.RevenueByPeriod)) :=
  if rt.selectFails then .returned (.error rt.errMsg)
  else
    let invoices := s.invoices
    match db.revenueByPeriodLoop invoices [] with
    | none => .panicked "slice bounds out of range"
    | some revenueMap => .returned (.ok (mapOrder revenueMap))

/-- The invoice number the numbering rule calls for in a given year:
`INV-<year>-<sequence>`, the sequence one more than the number of stored invoices
whose number starts with that year's prefix, zero-padded to four digits. -/
def numberForYear (year : Int) (s : Store) : String :=
  "INV-" ++ sprintfD year ++ "-" ++ sprintf04d (Int.ofNat (countForYear s year + 1))

/-- A store whose only invoice was numbered in 2025. -/
def exOldYearStore : Store :=
  { emptyStore with invoices :=
      [{ invoiceOf "i-1" 100 0 "unpaid" with InvoiceNumber := "INV-2025-0001" }] }

/-! ## Sample data for repeated payments and sequential numbering -/

/-- Sum of the amounts of the payment rows recorded for an invoice. -/
def recordedAmount (s : Store) (invoiceID : String) : ℚ :=
  ((s.payments.filter (fun p => p.InvoiceID = invoiceID)).map (fun p => p.Amount)).sum

/-- A fully paid invoice of total 100 with its one payment of 100. -/
def exPaidStore : Store :=
  { emptyStore with
    invoices := [invoiceOf "i-1" 100 100 "paid"],
    payments := [{ ID := "p-0", InvoiceID := "i-1", Amount := 100, PaymentMethod := "cash",
                   PaymentDate := "2026-01-03", ReferenceNumber := "", Notes := "",
                   CreatedAt := "2026-01-03T09:00:00Z", CreatedBy := "" }] }

/-- A payment of the given amount on the given invoice. -/
def paymentOf (invoiceID : String) (amount : ℚ) : PaymentCreate :=
  { InvoiceID := invoiceID, Amount := amount, PaymentMethod := "cash",
    PaymentDate := "2026-01-06", ReferenceNumber := "", Notes := "", CreatedBy := "" }

/-- Every remote call of a run of `PaymentHandler.Create` succeeds. -/
def Remote.allSucceed (rt : Remote) : Prop :=
  rt.selectFails = false ∧ rt.insertFails = false ∧ rt.updateFails = false

/-- The second invoice of a year, as `InvoiceRepository.Create` stores it after
`exDiscounted 0`. -/
def exSecond : Invoice :=
  { exDiscounted 0 with ID := "n-2", InvoiceNumber := "INV-2026-0002",
                        CreatedAt := "2026-01-05T09:00:01Z" }

/-- The store after two invoices have been created in 2026. -/
def exTwoStore : Store :=
  { emptyStore with invoices := [exDiscounted 0, exSecond] }

/-- A healthy remote store that hands out the id `n-3`. -/
def exRemoteC : Remote := Remote.healthy "n-3" "2026-01-05T09:00:02Z"

/-! ## Amounts as `float64`: the type and its arithmetic (IEEE 754 binary64) -/

/-- A value of Go's `float64` (IEEE 754 binary64): a finite value
`(-1)^neg * m * 2^e`, an infinity, or a NaN. The values of the Go type are the
finite ones with `m < 2^53` and `-1074 ≤ e ≤ 971`, the zeros (`m = 0`, with
sign), the infinities and the NaN; the operations below return such values. -/
inductive float64 where
  | finite (neg : Bool) (m : Nat) (e : Int)
  | inf (neg : Bool)
  | nan
  deriving DecidableEq, Repr

/-- The quotient `N / D` rounded to the nearest integer, ties to the even one. -/
def divHalfEven (N D : Nat) : Nat :=
  let q := N / D
  let r := N % D
  if 2 * r > D ∨ (2 * r = D ∧ q % 2 = 1) then q + 1 else q

/-- Halving until zero, at most `fuel` times: the count of the halvings. -/
def bitLengthAux : Nat → Nat → Nat
  | 0, _ => 0
  | fuel + 1, n => if n = 0 then 0 else bitLengthAux fuel (n / 2) + 1

/-- Number of binary digits of a natural number (0 for 0). -/
def bitLength (n : Nat) : Nat :=
  bitLengthAux n n

/-- The `float64` nearest to `(-1)^neg * n / d` (for `d > 0`): 53 significant
bits above `2^-1022`, steps of `2^-1074` below, ties to even, overflow to the
infinity. -/
def float64.round (neg : Bool) (n d : Nat) : float64 :=
  if n = 0 then .finite neg 0 0
  else
    let k : Int := (bitLength n : Int) - (bitLength d : Int)
    let atLeast : Bool :=
      if k ≥ 0 then decide (n ≥ d * 2 ^ k.toNat) else decide (n * 2 ^ (-k).toNat ≥ d)
    let e0 : Int := if atLeast then k else k - 1
    let q : Int := max (e0 - 52) (-1074)
    let N : Nat := if q < 0 then n * 2 ^ (-q).toNat else n
    let D : Nat := if q < 0 then d else d * 2 ^ q.toNat
    let m := divHalfEven N D
    let q : Int := if m = 2 ^ 53 then q + 1 else q
    let m : Nat := if m = 2 ^ 53 then 2 ^ 52 else m
    if m = 0 then .finite neg 0 0
    else if q > 971 then .inf neg else .finite neg m q

/-- The numerator and denominator of `m * 2^e`. -/
def float64.fraction (m : Nat) (e : Int) : Nat × Nat :=
  if e ≥ 0 then (m * 2 ^ e.toNat, 1) else (m, 2 ^ (-e).toNat)

/-- The signed numerator of a finite value over the denominator `2^-emin`. -/
def float64.scaled (neg : Bool) (m : Nat) (e emin : Int) : Int :=
  let v : Int := (m * 2 ^ (e - emin).toNat : Nat)
  if neg then -v else v

/-- Translation of `-x`. -/
def float64.neg : float64 → float64
  | .finite neg m e => .finite (!neg) m e
  | .inf neg => .inf (!neg)
  | .nan => .nan

/-- Translation of `x + y`. -/
def float64.add : float64 → float64 → float64
  | .nan, _ => .nan
  | _, .nan => .nan
  | .inf a, .inf b => if a = b then .inf a else .nan
  | .inf a, .finite _ _ _ => .inf a
  | .finite _ _ _, .inf b => .inf b
  | .finite n1 m1 e1, .finite n2 m2 e2 =>
    let emin := min e1 e2
    let s : Int := float64.scaled n1 m1 e1 emin + float64.scaled n2 m2 e2 emin
    if s = 0 then .finite (n1 && n2) 0 0
    else
      let f := float64.fraction s.natAbs emin
      float64.round (decide (s < 0)) f.1 f.2

/-- Translation of `x - y`. -/
def float64.sub (x y : float64) : float64 :=
  float64.add x (float64.neg y)

/-- Translation of `x * y`. -/
def float64.mul : float64 → float64 → float64
  | .nan, _ => .nan
  | _, .nan => .nan
  | .inf a, .inf b => .inf (a != b)
  | .inf a, .finite b m _ => if m = 0 then .nan else .inf (a != b)
  | .finite a m _, .inf b => if m = 0 then .nan else .inf (a != b)
  | .finite n1 m1 e1, .finite n2 m2 e2 =>
    let f := float64.fraction (m1 * m2) (e1 + e2)
    float64.round (n1 != n2) f.1 f.2

/-- Translation of `x / y`. -/
def float64.div : float64 → float64 → float64
  | .nan, _ => .nan
  | _, .nan => .nan
  | .inf _, .inf _ => .nan
  | .inf a, .finite b _ _ => .inf (a != b)
  | .finite a _ _, .inf b => .finite (a != b) 0 0
  | .finite n1 m1 e1, .finite n2 m2 e2 =>
    if m2 = 0 then (if m1 = 0 then .nan else .inf (n1 != n2))
    else
      let f1 := float64.fraction m1 e1
      let f2 := float64.fraction m2 e2
      float64.round (n1 != n2) (f1.1 * f2.2) (f1.2 * f2.1)

/-- Translation of the conversion `float64(i)` of an integer. -/
def float64.ofInt (i : Int) : float64 :=
  float64.round (decide (i < 0)) i.natAbs 1

/-- The `float64` a decimal literal `digits * 10^-scale` (with sign) denotes. -/
def float64.ofDecimal (neg : Bool) (digits scale : Nat) : float64 :=
  float64.round neg digits (10 ^ scale)

/-- Translation of `x <= y` (false when an operand is a NaN). -/
def float64.le : float64 → float64 → Bool
  | .nan, _ => false
  | _, .nan => false
  | .inf a, .inf b => a || !b
  | .inf a, .finite _ _ _ => a
  | .finite _ _ _, .inf b => !b
  | .finite n1 m1 e1, .finite n2 m2 e2 =>
    decide (float64.scaled n1 m1 e1 (min e1 e2) ≤ float64.scaled n2 m2 e2 (min e1 e2))

/-- Translation of `x < y` (false when an operand is a NaN). -/
def float64.lt : float64 → float64 → Bool
  | .nan, _ => false
  | _, .nan => false
  | .inf a, .inf b => a && !b
  | .inf a, .finite _ _ _ => a
  | .finite _ _ _, .inf b => !b
  | .finite n1 m1 e1, .finite n2 m2 e2 =>
    decide (float64.scaled n1 m1 e1 (min e1 e2) < float64.scaled n2 m2 e2 (min e1 e2))

/-- Translation of `x >= y`. -/
def float64.ge (x y : float64) : Bool := float64.le y x

/-- Translation of `x > y`. -/
def float64.gt (x y : float64) : Bool := float64.lt y x

/-- Translation of `x == y`: false for a NaN, true for the two zeros. -/
def float64.eq (x y : float64) : Bool := float64.le x y && float64.le y x

instance : Add float64 := ⟨float64.add⟩
instance : Sub float64 := ⟨float64.sub⟩
instance : Mul float64 := ⟨float64.mul⟩
instance : Div float64 := ⟨float64.div⟩
instance : Zero float64 := ⟨.finite false 0 0⟩

/-- The exact value of a finite `float64` as a rational (0 for the infinities and
the NaN). -/
def float64.toRat : float64 → ℚ
  | .finite neg m e => (if neg then -1 else 1) * (m : ℚ) * 2 ^ e
  | _ => 0

/-- Translation of `math.Signbit`: whether the sign bit is set (also for a negative
zero; false for the NaN). -/
def float64.signbit : float64 → Bool
  | .finite neg _ _ => neg
  | .inf neg => neg
  | .nan => false

/-- Whether a value is neither an infinity nor a NaN. -/
def float64.isFinite : float64 → Bool
  | .finite _ _ _ => true
  | _ => false

/-- The absolute value of a finite `m * 2^e`, times `10^prec`, rounded to the
nearest integer, ties to even: the digits of a fixed-point rendering. -/
def float64.decimalDigits (prec m : Nat) (e : Int) : Nat :=
  divHalfEven (float64.fraction (m * 10 ^ prec) e).1 (float64.fraction (m * 10 ^ prec) e).2

/-- The verb `%.<prec>f` of `fmt.Sprintf` on a `float64`: `NaN`, `+Inf`, `-Inf`,
or sign (also of a negative zero), integer part, and, when `prec > 0`, a point
and `prec` digits. -/
def fmtFixed (prec : Nat) : float64 → String
  | .nan => "NaN"
  | .inf neg => if neg then "-Inf" else "+Inf"
  | .finite neg m e =>
    let scaled := float64.decimalDigits prec m e
    let sign := if neg then "-" else ""
    let body := sign ++ Nat.repr (scaled / 10 ^ prec)
    if prec = 0 then body
    else body ++ "." ++ String.mk (List.leftpad prec '0' (Nat.repr (scaled % 10 ^ prec)).toList)

/-! ## The data model with `float64` amounts (`services/shared/pkg/types`, `internal/db`)

The definitions under `fp` translate the same source functions as their
namesakes above, with every amount a `float64` and every arithmetic operation
and comparison the `float64` one. -/

/-- Line item of `types.Item`. -/
structure fp.Item where
  Description : String
  Quantity : Int
  UnitPrice : float64
  Total : float64
  deriving DecidableEq, Repr

/-- One row of the `invoices` table, as `types.Invoice` and `db.Invoice` read it. -/
structure fp.Invoice where
  ID : String
  CustomerID : String
  InvoiceNumber : String
  DueDate : String
  Status : String
  PaymentStatus : String
  Subtotal : float64
  Tax : float64
  Discount : float64
  Total : float64
  PaidAmount : float64
  Currency : String
  Notes : String
  Items : List fp.Item
  PaymentDate : String
  CreatedAt : String
  deriving DecidableEq, Repr

/-- Row of the `payments` table (`types.Payment`). -/
structure fp.Payment where
  ID : String
  InvoiceID : String
  Amount : float64
  PaymentMethod : String
  PaymentDate : String
  ReferenceNumber : String
  Notes : String
  CreatedAt : String
  CreatedBy : String
  deriving DecidableEq, Repr

/-- Request body of a payment (`types.PaymentCreate`, `db.PaymentCreate`). -/
structure fp.PaymentCreate where
  InvoiceID : String
  Amount : float64
  PaymentMethod : String
  PaymentDate : String
  ReferenceNumber : String
  Notes : String
  CreatedBy : String
  deriving DecidableEq, Repr

/-- Row of the `currency_rates` table (`db.CurrencyRate`). -/
structure fp.CurrencyRate where
  ID : String
  FromCurrency : String
  ToCurrency : String
  Rate : float64
  UpdatedAt : String
  deriving DecidableEq, Repr

/-- Contents of the remote table store, as the Go structs read its rows. -/
structure fp.Store where
  invoices : List fp.Invoice
  payments : List fp.Payment
  customers : List Customer
  currency_rates : List fp.CurrencyRate
  deriving DecidableEq, Repr

/-- The error of `json.Marshal` on an infinity or a NaN. The query builder
encodes the body of an insert or an update before anything is sent, so a write
of such an amount does not reach the store; the failed call is given this
error. -/
def fp.unsupportedValue : String := "json: unsupported value"

/-! ## Payment service with `float64` amounts -/

/-- Translation of `PaymentRepository.GetInvoice`: select by id, first row. -/
def fp.PaymentRepository.GetInvoice (rt : Remote) (s : fp.Store) (id : String) :
    Except String fp.Invoice :=
  if rt.selectFails then .error rt.errMsg
  else
    match s.invoices.filter (fun r => r.ID = id) with
    | [] => .error "invoice not found"
    | r :: _ => .ok r

/-- The row the store builds from an inserted payment. -/
def fp.paymentRow (rt : Remote) (p : fp.PaymentCreate) : fp.Payment :=
  { ID := rt.newID, InvoiceID := p.InvoiceID, Amount := p.Amount,
    PaymentMethod := p.PaymentMethod, PaymentDate := p.PaymentDate,
    ReferenceNumber := p.ReferenceNumber, Notes := p.Notes,
    CreatedAt := rt.now, CreatedBy := p.CreatedBy }

/-- Translation of `PaymentRepository.Create`: insert into `payments`; the body
of the insert is the JSON encoding of the payment. -/
def fp.PaymentRepository.Create (rt : Remote) (s : fp.Store) (payment : fp.PaymentCreate) :
    Except String fp.Payment × fp.Store :=
  if ¬ payment.Amount.isFinite then (.error fp.unsupportedValue, s)
  else if rt.insertFails then (.error rt.errMsg, s)
  else
    (.ok (fp.paymentRow rt payment),
      { s with payments := s.payments ++ [fp.paymentRow rt payment] })

/-- The update-by-id of `paid_amount`, `payment_status` and `payment_date`. -/
def fp.setPaymentFields (id : String) (paidAmount : float64)
    (paymentStatus paymentDate : String) (r : fp.Invoice) : fp.Invoice :=
  if r.ID = id then
    { r with PaidAmount := paidAmount, PaymentStatus := paymentStatus,
             PaymentDate := paymentDate }
  else r

/-- Translation of `PaymentRepository.UpdateInvoice`; the body of the update is
the JSON encoding of the three fields. -/
def fp.PaymentRepository.UpdateInvoice (rt : Remote) (s : fp.Store) (id : String)
    (paidAmount : float64) (paymentStatus paymentDate : String) :
    Except String Unit × fp.Store :=
  if ¬ paidAmount.isFinite then (.error fp.unsupportedValue, s)
  else if rt.updateFails then (.error rt.errMsg, s)
  else
    let rows := s.invoices.map (fp.setPaymentFields id paidAmount paymentStatus paymentDate)
    (.ok (), { s with invoices := rows })

/-- Translation of `PaymentHandler.Create` (POST /payments); `none` is a body
that does not decode. -/
def fp.PaymentHandler.Create (rt : Remote) (s : fp.Store) (body : Option fp.PaymentCreate) :
    Response fp.Payment × fp.Store :=
  match body with
  | none => (utils.BadRequest "Invalid JSON", s)
  | some req =>
    if req.InvoiceID = "" ∨ float64.le req.Amount 0 = true ∨ req.PaymentMethod = "" then
      (utils.BadRequest "invoice_id, amount, and payment_method required", s)
    else
      match fp.PaymentRepository.GetInvoice rt s req.InvoiceID with
      | .error _ => (utils.NotFound "Invoice not found", s)
      | .ok invoice =>
        match fp.PaymentRepository.Create rt s req with
        | (.error e, s1) => (utils.InternalError e, s1)
        | (.ok payment, s1) =>
          let newPaidAmount := invoice.PaidAmount + req.Amount
          let paymentStatus :=
            if float64.ge newPaidAmount invoice.Total then "paid" else "partially_paid"
          let newPaidAmount :=
            if float64.ge newPaidAmount invoice.Total then invoice.Total else newPaidAmount
          match fp.PaymentRepository.UpdateInvoice rt s1 req.InvoiceID newPaidAmount
              paymentStatus req.PaymentDate with
          | (.error e, s2) =>
            (utils.InternalError ("Failed to update invoice: " ++ e), s2)
          | (.ok _, s2) => (utils.Created payment, s2)

/-! ## Monolith payment recording with `float64` amounts (`internal/db/db.go`) -/

/-- Translation of `db.Client.GetInvoice`: select by id with `Single()`, which
fails unless exactly one row matches. -/
def fp.db.Client.GetInvoice (rt : Remote) (s : fp.Store) (id : String) :
    Except String fp.Invoice :=
  if rt.selectFails then .error rt.errMsg
  else
    match s.invoices.filter (fun r => r.ID = id) with
    | [r] => .ok r
    | _ => .error "no single row"

/-- Translation of `db.Client.RecordPayment`: insert, then fetch, then update. -/
def fp.db.Client.RecordPayment (rt : Remote) (s : fp.Store) (payment : fp.PaymentCreate) :
    Except String fp.Payment × fp.Store :=
  if ¬ payment.Amount.isFinite then (.error fp.unsupportedValue, s)
  else if rt.insertFails then (.error rt.errMsg, s)
  else
    let s1 : fp.Store := { s with payments := s.payments ++ [fp.paymentRow rt payment] }
    match fp.db.Client.GetInvoice rt s1 payment.InvoiceID with
    | .error e => (.error e, s1)
    | .ok invoice =>
      let newPaidAmount := invoice.PaidAmount + payment.Amount
      let paymentStatus :=
        if float64.ge newPaidAmount invoice.Total then "paid" else "partially_paid"
      let newPaidAmount :=
        if float64.ge newPaidAmount invoice.Total then invoice.Total else newPaidAmount
      if ¬ newPaidAmount.isFinite then
        (.error ("failed to update invoice: " ++ fp.unsupportedValue), s1)
      else if rt.updateFails then
        (.error ("failed to update invoice: " ++ rt.errMsg), s1)
      else
        let rows := s1.invoices.map
          (fp.setPaymentFields payment.InvoiceID newPaidAmount paymentStatus
            payment.PaymentDate)
        (.ok (fp.paymentRow rt payment), { s1 with invoices := rows })

/-! ## Invoice creation with `float64` amounts -/

/-- Whether `json.Marshal` accepts an item: its two amounts are finite. -/
def fp.Item.isFinite (item : fp.Item) : Bool :=
  item.UnitPrice.isFinite && item.Total.isFinite

/-- Translation of `InvoiceRepository.generateInvoiceNumber`. -/
def fp.InvoiceRepository.generateInvoiceNumber (clk : Clock) (rt : Remote) (s : fp.Store) :
    Except String String :=
  let year := clk.Year
  if rt.selectFails then .error rt.errMsg
  else
    let invoices := s.invoices.filter
      (fun r => Like ("INV-" ++ sprintfD year ++ "-%") r.InvoiceNumber)
    let nextNumber : Int := invoices.length + 1
    .ok ("INV-" ++ sprintfD year ++ "-" ++ sprintf04d nextNumber)

/-- One turn of the subtotal loop of `InvoiceRepository.Create`: the line total
`float64(item.Quantity) * item.UnitPrice` is set on the loop's copy of the item
and added to the running subtotal. -/
def fp.subtotalStep (subtotal : float64) (item : fp.Item) : float64 :=
  let item : fp.Item := { item with Total := float64.ofInt item.Quantity * item.UnitPrice }
  subtotal + item.Total

/-- Translation of `InvoiceRepository.Create`; the body of the insert is the JSON
encoding of the row, which fails on an amount that is not finite. -/
def fp.InvoiceRepository.Create (clk : Clock) (rt : Remote) (s : fp.Store)
    (customerID : String) (items : List fp.Item) (tax discount : float64)
    (status notes dueDate currency : String) : Except String fp.Invoice × fp.Store :=
  let subtotal := items.foldl fp.subtotalStep 0
  let taxAmount := subtotal * (tax / float64.ofInt 100)
  let total := subtotal + taxAmount - discount
  match fp.InvoiceRepository.generateInvoiceNumber clk rt s with
  | .error e => (.error e, s)
  | .ok invoiceNumber =>
    let status := if status = "" then "pending" else status
    let currency := if currency = "" then "USD" else currency
    let dueDate := if dueDate = "" then clk.In30Days else dueDate
    if ¬ (subtotal.isFinite ∧ tax.isFinite ∧ discount.isFinite ∧ total.isFinite ∧
        items.all fp.Item.isFinite) then (.error fp.unsupportedValue, s)
    else if rt.insertFails then (.error rt.errMsg, s)
    else
      let row : fp.Invoice :=
        { ID := rt.newID, CustomerID := customerID, InvoiceNumber := invoiceNumber,
          DueDate := dueDate, Status := status, PaymentStatus := "unpaid",
          Subtotal := subtotal, Tax := tax, Discount := discount, Total := total,
          PaidAmount := 0, Currency := currency, Notes := notes, Items := items,
          PaymentDate := "", CreatedAt := rt.now }
      (.ok row, { s with invoices := s.invoices ++ [row] })

/-- Line item of the monolith (`db.Item`): no stored line total. -/
structure fp.db.Item where
  Description : String
  Quantity : Int
  UnitPrice : float64
  deriving DecidableEq, Repr

/-- The `items` column written from a list of `db.Item`; read back as
`types.Item` the absent `total` key is zero. -/
def fp.db.Item.toRow (it : fp.db.Item) : fp.Item :=
  { Description := it.Description, Quantity := it.Quantity, UnitPrice := it.UnitPrice,
    Total := 0 }

/-- Translation of `db.Client.GetCustomer`: select by id with `Single()`. -/
def fp.db.Client.GetCustomer (rt : Remote) (s : fp.Store) (id : String) :
    Except String Customer :=
  if rt.customerLookupFails id then .error rt.errMsg
  else
    match s.customers.filter (fun c => c.ID = id) with
    | [c] => .ok c
    | _ => .error "no single row"

/-- Translation of `db.Client.GenerateInvoiceNumber`. -/
def fp.db.Client.GenerateInvoiceNumber (rt : Remote) (s : fp.Store) : Except String String :=
  if rt.selectFails then .error rt.errMsg
  else
    let count := s.invoices
    .ok ("INV-2026-" ++ sprintf04d ((count.length : Int) + 1))

/-- Translation of `db.Client.CreateInvoice`; the body of the insert is the JSON
encoding of the row, which fails on an amount that is not finite. -/
def fp.db.Client.CreateInvoice (rt : Remote) (s : fp.Store) (customerID : String)
    (subtotal tax discount total : float64) (items : List fp.db.Item)
    (status notes dueDate currency : String) : Except String fp.Invoice × fp.Store :=
  let currency := if currency = "" then "USD" else currency
  match fp.db.Client.GenerateInvoiceNumber rt s with
  | .error e => (.error ("failed to generate invoice number: " ++ e), s)
  | .ok invoiceNumber =>
    if ¬ (subtotal.isFinite ∧ tax.isFinite ∧ discount.isFinite ∧ total.isFinite ∧
        items.all (fun it => it.UnitPrice.isFinite)) then (.error fp.unsupportedValue, s)
    else if rt.insertFails then (.error rt.errMsg, s)
    else
      let row : fp.Invoice :=
        { ID := rt.newID, CustomerID := customerID, InvoiceNumber := invoiceNumber,
          DueDate := dueDate, Status := status, PaymentStatus := "unpaid",
          Subtotal := subtotal, Tax := tax, Discount := discount, Total := total,
          PaidAmount := 0, Currency := currency, Notes := notes,
          Items := items.map fp.db.Item.toRow, PaymentDate := "", CreatedAt := rt.now }
      (.ok row, { s with invoices := s.invoices ++ [row] })

/-- Request body of POST /invoices in the monolith. -/
structure fp.MonolithInvoiceRequest where
  CustomerID : String
  Items : List fp.db.Item
  Tax : float64
  Discount : float64
  Status : String
  Notes : String
  DueDate : String
  Currency : String
  deriving DecidableEq, Repr

/-- The JSON object `createInvoice` answers with. -/
structure fp.CreateInvoiceAnswer where
  id : String
  customer_id : String
  total : float64
  items : List fp.Item
  currency : String
  pdf_data : String
  created_at : String
  deriving DecidableEq, Repr

/-- Translation of `Server.createInvoice` (POST /invoices); `none` is a body that
does not decode, `generatePDF` stands for `generateInvoicePDF`, whose renderer
is outside the sources at hand. -/
def fp.Server.createInvoice (srv : Server) (generatePDF : fp.Invoice → Except String String)
    (rt : Remote) (s : fp.Store) (body : Option fp.MonolithInvoiceRequest) :
    HttpResult fp.CreateInvoiceAnswer × fp.Store :=
  if ¬ srv.dbConfigured then (.error "Database not configured" 500, s)
  else
    match body with
    | none => (.error "Invalid JSON" 400, s)
    | some req =>
      if req.CustomerID = "" ∨ req.Items.length = 0 then
        (.error "customer_id and items required" 400, s)
      else
        let status := if req.Status = "" then "pending" else req.Status
        let currency := if req.Currency = "" then "USD" else req.Currency
        let subtotal := req.Items.foldl
          (fun subtotal item => subtotal + float64.ofInt item.Quantity * item.UnitPrice) 0
        let taxAmount := subtotal * (req.Tax / float64.ofInt 100)
        let total := subtotal + taxAmount - req.Discount
        match fp.db.Client.GetCustomer rt s req.CustomerID with
        | .error _ => (.error "Customer not found" 400, s)
        | .ok _ =>
          match fp.db.Client.CreateInvoice rt s req.CustomerID subtotal req.Tax req.Discount
              total req.Items status req.Notes req.DueDate currency with
          | (.error e, s1) => (.error e 500, s1)
          | (.ok invRecord, s1) =>
            match generatePDF invRecord with
            | .error _ => (.error "Failed to generate PDF" 500, s1)
            | .ok pdfBytes =>
              (.json 201
                { id := invRecord.ID, customer_id := invRecord.CustomerID,
                  total := invRecord.Total, items := invRecord.Items,
                  currency := invRecord.Currency, pdf_data := pdfBytes,
                  created_at := invRecord.CreatedAt }, s1)

/-- The sum of a list of `float64` as a Go loop `sum += x` computes it: from
zero, left to right, each addition rounded. -/
def fp.sum (l : List float64) : float64 := l.foldl (fun acc x => acc + x) 0

/-! ## Dashboard statistics with `float64` amounts -/

/-- Translation of `types.DashboardStats`. -/
structure fp.DashboardStats where
  TotalRevenue : float64
  PaidAmount : float64
  UnpaidAmount : float64
  OverdueAmount : float64
  TotalInvoices : Int
  PaidInvoices : Int
  UnpaidInvoices : Int
  OverdueInvoices : Int
  deriving DecidableEq, Repr

/-- Translation of `db.DashboardStats`. -/
structure fp.db.DashboardStats where
  TotalRevenue : float64
  PaidAmount : float64
  UnpaidAmount : float64
  OverdueAmount : float64
  TotalInvoices : Int
  PaidInvoices : Int
  UnpaidInvoices : Int
  OverdueInvoices : Int
  PartiallyPaid : Int
  Currency : String
  deriving DecidableEq, Repr

/-- The query of both `GetDashboardStats`: all invoices, restricted to one
currency unless the argument is empty or `ALL`. -/
def fp.selectByCurrency (s : fp.Store) (currency : String) : List fp.Invoice :=
  if currency ≠ "" ∧ currency ≠ "ALL" then s.invoices.filter (fun r => r.Currency = currency)
  else s.invoices

/-- The switch on `inv.PaymentStatus` in `AnalyticsRepository.GetDashboardStats`. -/
def fp.analyticsSwitch (stats : fp.DashboardStats) (inv : fp.Invoice) : fp.DashboardStats :=
  if inv.PaymentStatus = "paid" then
    { stats with PaidAmount := stats.PaidAmount + inv.Total,
                 PaidInvoices := stats.PaidInvoices + 1 }
  else if inv.PaymentStatus = "unpaid" then
    { stats with UnpaidAmount := stats.UnpaidAmount + inv.Total,
                 UnpaidInvoices := stats.UnpaidInvoices + 1 }
  else if inv.PaymentStatus = "partially_paid" then
    { stats with PaidAmount := stats.PaidAmount + inv.PaidAmount,
                 UnpaidAmount := stats.UnpaidAmount + (inv.Total - inv.PaidAmount) }
  else stats

/-- The overdue check that follows the switch. -/
def fp.analyticsOverdue (tl : TimeLib) (stats : fp.DashboardStats) (inv : fp.Invoice) :
    fp.DashboardStats :=
  if inv.DueDate ≠ "" ∧ inv.PaymentStatus ≠ "paid" then
    match tl.ParseDate inv.DueDate with
    | some dueDate =>
      if dueDate < tl.Now then
        { stats with OverdueAmount := stats.OverdueAmount + (inv.Total - inv.PaidAmount),
                     OverdueInvoices := stats.OverdueInvoices + 1 }
      else stats
    | none => stats
  else stats

/-- One turn of the loop of `AnalyticsRepository.GetDashboardStats`. -/
def fp.analyticsStep (tl : TimeLib) (stats : fp.DashboardStats) (inv : fp.Invoice) :
    fp.DashboardStats :=
  let stats := { stats with TotalRevenue := stats.TotalRevenue + inv.Total,
                            TotalInvoices := stats.TotalInvoices + 1 }
  let stats := fp.analyticsSwitch stats inv
  fp.analyticsOverdue tl stats inv

/-- Translation of `AnalyticsRepository.GetDashboardStats`. -/
def fp.AnalyticsRepository.GetDashboardStats (tl : TimeLib) (rt : Remote) (s : fp.Store)
    (currency : String) : Except String fp.DashboardStats :=
  if rt.selectFails then .error rt.errMsg
  else
    let invoices := fp.selectByCurrency s currency
    .ok (invoices.foldl (fp.analyticsStep tl)
      { TotalRevenue := 0, PaidAmount := 0, UnpaidAmount := 0, OverdueAmount := 0,
        TotalInvoices := 0, PaidInvoices := 0, UnpaidInvoices := 0, OverdueInvoices := 0 })

/-- One turn of the loop of `db.Client.GetDashboardStats`. -/
def fp.db.dashboardStep (stats : fp.db.DashboardStats) (inv : fp.Invoice) :
    fp.db.DashboardStats :=
  let stats := { stats with TotalRevenue := stats.TotalRevenue + inv.Total,
                            TotalInvoices := stats.TotalInvoices + 1 }
  if inv.PaymentStatus = "paid" then
    { stats with PaidAmount := stats.PaidAmount + inv.Total,
                 PaidInvoices := stats.PaidInvoices + 1 }
  else if inv.PaymentStatus = "partially_paid" then
    { stats with PaidAmount := stats.PaidAmount + inv.PaidAmount,
                 UnpaidAmount := stats.UnpaidAmount + (inv.Total - inv.PaidAmount),
                 PartiallyPaid := stats.PartiallyPaid + 1 }
  else if inv.PaymentStatus = "overdue" then
    { stats with OverdueAmount := stats.OverdueAmount + inv.Total,
                 OverdueInvoices := stats.OverdueInvoices + 1 }
  else if inv.PaymentStatus = "unpaid" then
    { stats with UnpaidAmount := stats.UnpaidAmount + inv.Total,
                 UnpaidInvoices := stats.UnpaidInvoices + 1 }
  else stats

/-- Translation of `db.Client.GetDashboardStats`. -/
def fp.db.Client.GetDashboardStats (rt : Remote) (s : fp.Store) (currency : String) :
    Except String fp.db.DashboardStats :=
  if rt.selectFails then .error rt.errMsg
  else
    let invoices := fp.selectByCurrency s currency
    .ok (invoices.foldl fp.db.dashboardStep
      { TotalRevenue := 0, PaidAmount := 0, UnpaidAmount := 0, OverdueAmount := 0,
        TotalInvoices := 0, PaidInvoices := 0, UnpaidInvoices := 0, OverdueInvoices := 0,
        PartiallyPaid := 0, Currency := currency })

/-- An invoice known only by total, paid amount and payment status. -/
def fp.invoiceOf (id : String) (total paid : float64) (paymentStatus : String) : fp.Invoice :=
  { ID := id, CustomerID := "c-1", InvoiceNumber := "", DueDate := "", Status := "",
    PaymentStatus := paymentStatus, Subtotal := total, Tax := 0, Discount := 0,
    Total := total, PaidAmount := paid, Currency := "USD", Notes := "", Items := [],
    PaymentDate := "", CreatedAt := "" }

/-- A store without rows. -/
def fp.emptyStore : fp.Store :=
  { invoices := [], payments := [], customers := [], currency_rates := [] }

/-! ## Top customers with `float64` amounts -/

/-- Translation of `types.TopCustomer`. -/
structure fp.TopCustomer where
  CustomerID : String
  CustomerName : String
  CustomerEmail : String
  TotalRevenue : float64
  InvoiceCount : Int
  deriving DecidableEq, Repr

/-- One turn of the grouping loop of `GetTopCustomers`; the Go map
`customerMap` is kept as the list of its entries in order of first insertion. -/
def fp.groupStep (customerMap : List fp.TopCustomer) (inv : fp.Invoice) :
    List fp.TopCustomer :=
  let customerMap :=
    if customerMap.any (fun c => c.CustomerID = inv.CustomerID) then customerMap
    else customerMap ++ [{ CustomerID := inv.CustomerID, CustomerName := "",
                           CustomerEmail := "", TotalRevenue := 0, InvoiceCount := 0 }]
  customerMap.map (fun c =>
    if c.CustomerID = inv.CustomerID then
      { c with TotalRevenue := c.TotalRevenue + inv.Total, InvoiceCount := c.InvoiceCount + 1 }
    else c)

/-- The customer lookup made for one entry of the map: name and email are set
when the select succeeds and returns a row. -/
def fp.fetchDetails (rt : Remote) (s : fp.Store) (topCustomer : fp.TopCustomer) :
    fp.TopCustomer :=
  if rt.customerLookupFails topCustomer.CustomerID then topCustomer
  else
    match s.customers.filter (fun c => c.ID = topCustomer.CustomerID) with
    | [] => topCustomer
    | c :: _ => { topCustomer with CustomerName := c.Name, CustomerEmail := c.Email }

/-- The grouped customers with their details, before conversion to a slice. -/
def fp.groupedCustomers (rt : Remote) (s : fp.Store) : List fp.TopCustomer :=
  (s.invoices.foldl fp.groupStep []).map (fp.fetchDetails rt s)

/-- The body of the inner sorting loop: exchange positions `i` and `j` when the
revenue at `j` is greater than the revenue at `i`. -/
def fp.swapIfGreater (result : List fp.TopCustomer) (i j : Nat) : List fp.TopCustomer :=
  match result[i]?, result[j]? with
  | some a, some b =>
    if float64.gt b.TotalRevenue a.TotalRevenue then (result.set i b).set j a else result
  | _, _ => result

/-- The inner loop `for j := i + 1; j < len(result); j++`. -/
def fp.sortInner (result : List fp.TopCustomer) (i : Nat) : List fp.TopCustomer :=
  (List.range' (i + 1) (result.length - (i + 1))).foldl
    (fun result j => fp.swapIfGreater result i j) result

/-- The outer loop `for i := 0; i < len(result)-1; i++`. -/
def fp.sortByRevenue (result : List fp.TopCustomer) : List fp.TopCustomer :=
  (List.range (result.length - 1)).foldl fp.sortInner result

/-- Translation of `AnalyticsRepository.GetTopCustomers`; `mapOrder` is the order
in which Go's `range` walks the map when the slice is built. -/
def fp.AnalyticsRepository.GetTopCustomers
    (mapOrder : List fp.TopCustomer → List fp.TopCustomer)
    (rt : Remote) (s : fp.Store) (limit : Int) : Except String (List fp.TopCustomer) :=
  if rt.selectFails then .error rt.errMsg
  else
    let result := mapOrder (fp.groupedCustomers rt s)
    let result := fp.sortByRevenue result
    let result :=
      if limit > 0 ∧ (result.length : Int) > limit then result.take limit.toNat else result
    .ok result

/-! ## Revenue by period with `float64` amounts -/

/-- One turn of the grouping loop of `GetRevenueByPeriod`. -/
def fp.revenueStep (lib : RFC3339Lib) (period : String) (revenueMap : List (String × float64))
    (inv : fp.Invoice) : List (String × float64) :=
  if inv.CreatedAt = "" then revenueMap
  else
    match lib.Parse inv.CreatedAt with
    | none => revenueMap
    | some createdAt =>
      let periodKey := periodKeyOf lib period createdAt
      mapAddAt revenueMap periodKey inv.Total

/-- Translation of `types.RevenueData`. -/
structure fp.RevenueData where
  Period : String
  Amount : float64
  deriving DecidableEq, Repr

/-- The query of `GetRevenueByPeriod`: the paid invoices, in the order the store
gives them for `Order("created_at", nil)` (the parameter `orderByCreatedAt`), at
most `limit` of them. -/
def fp.fetchPaidInvoices (orderByCreatedAt : List fp.Invoice → List fp.Invoice)
    (s : fp.Store) (limit : Int) : List fp.Invoice :=
  (orderByCreatedAt (s.invoices.filter (fun r => r.PaymentStatus = "paid"))).take
    limit.toNat

/-- Translation of `AnalyticsRepository.GetRevenueByPeriod`; `mapOrder` is the
order in which Go's `range` walks the map when the slice is built. -/
def fp.AnalyticsRepository.GetRevenueByPeriod (lib : RFC3339Lib)
    (mapOrder : List (String × float64) → List (String × float64))
    (orderByCreatedAt : List fp.Invoice → List fp.Invoice) (rt : Remote)
    (s : fp.Store) (period : String) (limit : Int) : Except String (List fp.RevenueData) :=
  if rt.selectFails then .error rt.errMsg
  else
    let invoices := fp.fetchPaidInvoices orderByCreatedAt s limit
    let revenueMap := invoices.foldl (fp.revenueStep lib period) []
    .ok ((mapOrder revenueMap).map (fun e => { Period := e.1, Amount := e.2 }))

/-- The bucket key an invoice is assigned to: none when `created_at` is empty or
does not parse. -/
def fp.bucketOf (lib : RFC3339Lib) (period : String) (inv : fp.Invoice) : Option String :=
  if inv.CreatedAt = "" then none
  else (lib.Parse inv.CreatedAt).map (periodKeyOf lib period)

/-- The Go expression `m[k]` on a map kept as the list of its entries: the value
of the first entry under the key, the zero value when there is none. -/
def goLookup {β : Type} [Zero β] (m : List (String × β)) (k : String) : β :=
  match m.find? (fun e => e.1 = k) with
  | some e => e.2
  | none => 0

/-- The key and amount an invoice adds to the revenue map, if any. -/
def fp.revenueEntry (lib : RFC3339Lib) (period : String) (inv : fp.Invoice) :
    Option (String × float64) :=
  (fp.bucketOf lib period inv).map (fun k => (k, inv.Total))

/-- Customer id and total revenue of a record. -/
def fp.revenueOfRecord (c : fp.TopCustomer) : String × float64 :=
  (c.CustomerID, c.TotalRevenue)

/-- Customer id and invoice count of a record. -/
def fp.countOfRecord (c : fp.TopCustomer) : String × Int := (c.CustomerID, c.InvoiceCount)

/-! ## Repeated recordings, exact operations and sample data with `float64` amounts -/

/-- The paid amount one recording writes: `p + a`, capped at the total `t`. -/
def fp.capped (p a t : float64) : float64 :=
  if float64.ge (p + a) t then t else p + a

/-- The payment status one recording writes. -/
def fp.statusAfter (p a t : float64) : String :=
  if float64.ge (p + a) t then "paid" else "partially_paid"

/-- Whether the addition `x + y` does not round: the sum is finite and its exact
value is the sum of the exact values (compared as numerators over a common
power of two). -/
def float64.exactAdd (x y : float64) : Bool :=
  match x, y, x + y with
  | .finite n1 m1 e1, .finite n2 m2 e2, .finite n3 m3 e3 =>
    decide (float64.scaled n3 m3 e3 (min (min e1 e2) e3)
      = float64.scaled n1 m1 e1 (min (min e1 e2) e3)
        + float64.scaled n2 m2 e2 (min (min e1 e2) e3))
  | _, _, _ => false

/-- The store after a sequence of runs of `PaymentHandler.Create`, each with its
own behaviour of the remote store. -/
def fp.recordAll : fp.Store → List (Remote × fp.PaymentCreate) → fp.Store
  | s, [] => s
  | s, step :: rest => fp.recordAll (fp.PaymentHandler.Create step.1 s (some step.2)).2 rest

/-- The decimal literal `digits * 10^-scale`, for sample data. -/
def fp.dec (digits scale : Nat) : float64 := float64.ofDecimal false digits scale

/-- An invoice `inv-1` known by total and paid amount. -/
def fp.exInvoice (total paid : float64) : fp.Invoice :=
  { ID := "inv-1", CustomerID := "c-1", InvoiceNumber := "INV-2026-0001",
    DueDate := "2026-02-01", Status := "pending", PaymentStatus := "partially_paid",
    Subtotal := total, Tax := 0, Discount := 0, Total := total, PaidAmount := paid,
    Currency := "USD", Notes := "", Items := [], PaymentDate := "2026-01-03",
    CreatedAt := "2026-01-02T10:00:00Z" }

/-- A store holding the one invoice `fp.exInvoice total paid`. -/
def fp.exStore (total paid : float64) : fp.Store :=
  { invoices := [fp.exInvoice total paid], payments := [], customers := [exCustomer],
    currency_rates := [] }

/-- A payment of the given amount on the given invoice. -/
def fp.paymentOf (invoiceID : String) (amount : float64) : fp.PaymentCreate :=
  { InvoiceID := invoiceID, Amount := amount, PaymentMethod := "cash",
    PaymentDate := "2026-01-06", ReferenceNumber := "", Notes := "", CreatedBy := "" }

/-- What an invoice adds to `paid_amount` in both `GetDashboardStats`: its total
when paid, its paid amount when partially paid. -/
def fp.paidPart (inv : fp.Invoice) : Option float64 :=
  if inv.PaymentStatus = "paid" then some inv.Total
  else if inv.PaymentStatus = "partially_paid" then some inv.PaidAmount
  else none

/-- What an invoice adds to `unpaid_amount` in both `GetDashboardStats`: its
total when unpaid, `total - paid_amount` when partially paid. -/
def fp.unpaidPart (inv : fp.Invoice) : Option float64 :=
  if inv.PaymentStatus = "unpaid" then some inv.Total
  else if inv.PaymentStatus = "partially_paid" then some (inv.Total - inv.PaidAmount)
  else none

/-- What an invoice adds to `overdue_amount` in `db.Client.GetDashboardStats`: its
total when its payment status is `overdue`. -/
def fp.db.overduePart (inv : fp.Invoice) : Option float64 :=
  if inv.PaymentStatus = "overdue" then some inv.Total else none

/-- The two invoices of the dashboard example: 100 paid, 50 with 20 paid. -/
def fp.exDashboardStore : fp.Store :=
  { fp.emptyStore with invoices :=
      [fp.invoiceOf "i-1" (float64.ofInt 100) 0 "paid",
       fp.invoiceOf "i-2" (float64.ofInt 50) (float64.ofInt 20) "partially_paid"] }

/-- Three paid invoices of totals 0.1, 0.2 and 0.3. -/
def fp.exTenthsStore : fp.Store :=
  { fp.emptyStore with invoices :=
      [fp.invoiceOf "i-1" (fp.dec 1 1) (fp.dec 1 1) "paid",
       fp.invoiceOf "i-2" (fp.dec 2 1) (fp.dec 2 1) "paid",
       fp.invoiceOf "i-3" (fp.dec 3 1) (fp.dec 3 1) "paid"] }

/-- Whether the subtraction `x - y` does not round. -/
def float64.exactSub (x y : float64) : Bool :=
  float64.exactAdd x (float64.neg y)

/-- Whether no addition or subtraction of one turn of the loop of
`db.Client.GetDashboardStats` rounds. -/
def fp.db.stepExact (stats : fp.db.DashboardStats) (inv : fp.Invoice) : Bool :=
  float64.exactAdd stats.TotalRevenue inv.Total &&
  (if inv.PaymentStatus = "paid" then float64.exactAdd stats.PaidAmount inv.Total
   else if inv.PaymentStatus = "partially_paid" then
     float64.exactAdd stats.PaidAmount inv.PaidAmount &&
     float64.exactSub inv.Total inv.PaidAmount &&
     float64.exactAdd stats.UnpaidAmount (inv.Total - inv.PaidAmount)
   else if inv.PaymentStatus = "overdue" then float64.exactAdd stats.OverdueAmount inv.Total
   else if inv.PaymentStatus = "unpaid" then float64.exactAdd stats.UnpaidAmount inv.Total
   else true)

/-- Whether no addition or subtraction of the loop of `db.Client.GetDashboardStats`
rounds, from the given statistics on. -/
def fp.db.loopExact : fp.db.DashboardStats → List fp.Invoice → Bool
  | _, [] => true
  | stats, inv :: rest =>
    fp.db.stepExact stats inv && fp.db.loopExact (fp.db.dashboardStep stats inv) rest

/-- The statistics `db.Client.GetDashboardStats` starts from. -/
def fp.db.zeroStats (currency : String) : fp.db.DashboardStats :=
  { TotalRevenue := 0, PaidAmount := 0, UnpaidAmount := 0, OverdueAmount := 0,
    TotalInvoices := 0, PaidInvoices := 0, UnpaidInvoices := 0, OverdueInvoices := 0,
    PartiallyPaid := 0, Currency := currency }

/-- Four invoices, one of each payment status. -/
def fp.exFourStore : fp.Store :=
  { fp.emptyStore with invoices :=
      [fp.invoiceOf "i-1" (float64.ofInt 100) (float64.ofInt 100) "paid",
       fp.invoiceOf "i-2" (float64.ofInt 50) (float64.ofInt 20) "partially_paid",
       fp.invoiceOf "i-3" (float64.ofInt 30) 0 "unpaid",
       fp.invoiceOf "i-4" (float64.ofInt 7) 0 "overdue"] }

/-- One partially paid invoice of total 0.33 with 0.03 paid. -/
def fp.exPartialStore : fp.Store :=
  { fp.emptyStore with invoices :=
      [fp.invoiceOf "i-1" (fp.dec 33 2) (fp.dec 3 2) "partially_paid"] }

/-- Two line items: 2 × 10 and 3 × 2.5. -/
def fp.exItems : List fp.Item :=
  [{ Description := "a", Quantity := 2, UnitPrice := float64.ofInt 10, Total := 0 },
   { Description := "b", Quantity := 3, UnitPrice := fp.dec 25 1, Total := 0 }]

/-- The monolith request for the items of `fp.exItems`, tax 10 and discount 5. -/
def fp.exMonolithRequest : fp.MonolithInvoiceRequest :=
  { CustomerID := "c-1",
    Items := [{ Description := "a", Quantity := 2, UnitPrice := float64.ofInt 10 },
              { Description := "b", Quantity := 3, UnitPrice := fp.dec 25 1 }],
    Tax := float64.ofInt 10, Discount := float64.ofInt 5, Status := "", Notes := "",
    DueDate := "", Currency := "" }

/-- A store with the customer `c-1` and no invoice. -/
def fp.exCustomerStore : fp.Store :=
  { invoices := [], payments := [], customers := [exCustomer], currency_rates := [] }

/-- A renderer that always succeeds. -/
def fp.exPDF (_ : fp.Invoice) : Except String String := .ok "%PDF"

/-- One line item `quantity × unitPrice`. -/
def fp.oneItem (quantity : Int) (unitPrice : float64) : List fp.Item :=
  [{ Description := "a", Quantity := quantity, UnitPrice := unitPrice, Total := 0 }]

/-- The row `fp.InvoiceRepository.Create` stores for `fp.exItems`, tax 10 and
discount 5: subtotal 27.5, total 25.25. -/
def fp.exCreated : fp.Invoice :=
  { ID := "n-1", CustomerID := "c-1", InvoiceNumber := "INV-2026-0001",
    DueDate := "2026-02-04", Status := "pending", PaymentStatus := "unpaid",
    Subtotal := fp.dec 275 1, Tax := float64.ofInt 10, Discount := float64.ofInt 5,
    Total := fp.dec 2525 2, PaidAmount := 0, Currency := "USD", Notes := "",
    Items := fp.exItems, PaymentDate := "", CreatedAt := "2026-01-05T09:00:00Z" }

/-- Three paid invoices: 0.1 created on 2 January 2026, 0.1 and 0.4 created on
5 January 2026. -/
def fp.exRevenueStore : fp.Store :=
  { fp.emptyStore with invoices :=
      [{ fp.invoiceOf "i-1" (fp.dec 1 1) (fp.dec 1 1) "paid" with
          CustomerID := "c-A", CreatedAt := "2026-01-02T10:00:00Z" },
       { fp.invoiceOf "i-2" (fp.dec 1 1) (fp.dec 1 1) "paid" with
          CustomerID := "c-B", CreatedAt := "2026-01-05T09:00:00Z" },
       { fp.invoiceOf "i-3" (fp.dec 4 1) (fp.dec 4 1) "paid" with
          CustomerID := "c-B", CreatedAt := "2026-01-05T09:00:00Z" }] }

/-- Three invoices of two customers; only `c-1` has a customer row. -/
def fp.exGroupStore : fp.Store :=
  { fp.emptyStore with
    customers := [exCustomer],
    invoices :=
      [{ fp.invoiceOf "i-1" (fp.dec 1 1) 0 "paid" with CustomerID := "c-1" },
       { fp.invoiceOf "i-2" (fp.dec 1 1) 0 "unpaid" with CustomerID := "c-2" },
       { fp.invoiceOf "i-3" (fp.dec 4 1) 0 "paid" with CustomerID := "c-2" }] }

/-! ## Currency conversion (`internal/server/invoices.go`) -/

/-- Translation of `db.Client.GetCurrencyRate`: select by pair with `Single()`. -/
def db.Client.GetCurrencyRate (rt : Remote) (s : fp.Store) (fromCurrency toCurrency : String) :
    Except String fp.CurrencyRate :=
  if rt.selectFails then .error rt.errMsg
  else
    match s.currency_rates.filter
        (fun r => r.FromCurrency = fromCurrency ∧ r.ToCurrency = toCurrency) with
    | [r] => .ok r
    | _ => .error "no single row"

/-- The JSON object `convertCurrency` answers with (keys `from`, `to`, `amount`,
`converted_amount`, `rate`). -/
structure ConvertAnswer where
  from_ : String
  to_ : String
  amount : float64
  converted_amount : float64
  rate : float64
  deriving DecidableEq, Repr

/-- What `json.NewEncoder(w).Encode(response)` leaves as the answer when its
error is dropped: the encoded object with status 200, or, when a number of the
object is an infinity or a NaN, status 200 with an empty body (`none`; nothing
is written before the encoder fails). -/
def encodeAnswer (response : ConvertAnswer) : HttpResult (Option ConvertAnswer) :=
  if response.amount.isFinite ∧ response.converted_amount.isFinite ∧ response.rate.isFinite
  then .json 200 (some response)
  else .json 200 none

/-- Translation of `Server.convertCurrency` (GET /convert); `sscanf` stands for
`fmt.Sscanf(amountStr, "%f", &amount)`, `none` being a scan error (the scanner
also reads `NaN` and the infinities). -/
def Server.convertCurrency (srv : Server) (sscanf : String → Option float64) (rt : Remote)
    (s : fp.Store) (amountStr fromCurrency toCurrency : String) :
    HttpResult (Option ConvertAnswer) :=
  if ¬ srv.dbConfigured then .error "Database not configured" 500
  else if amountStr = "" ∨ fromCurrency = "" ∨ toCurrency = "" then
    .error "amount, from, and to parameters required" 400
  else
    match sscanf amountStr with
    | none => .error "invalid amount" 400
    | some amount =>
      if fromCurrency = toCurrency then
        encodeAnswer { from_ := fromCurrency, to_ := toCurrency, amount := amount,
                       converted_amount := amount, rate := float64.ofInt 1 }
      else
        match db.Client.GetCurrencyRate rt s fromCurrency toCurrency with
        | .error _ => .error "Currency rate not found" 404
        | .ok rate =>
          let convertedAmount := amount * rate.Rate
          encodeAnswer { from_ := fromCurrency, to_ := toCurrency, amount := amount,
                         converted_amount := convertedAmount, rate := rate.Rate }

/-- A scanner that reads `100`, `12.5` and `NaN` and nothing else. -/
def exScan (amountStr : String) : Option float64 :=
  if amountStr = "100" then some (float64.ofInt 100)
  else if amountStr = "12.5" then some (fp.dec 125 1)
  else if amountStr = "NaN" then some .nan
  else none

/-- A store whose only rows are two currency rates, one of them for the pair
(USD, USD). -/
def fp.exRateStore : fp.Store :=
  { fp.emptyStore with currency_rates :=
      [{ ID := "r-1", FromCurrency := "USD", ToCurrency := "USD", Rate := float64.ofInt 2,
         UpdatedAt := "" },
       { ID := "r-2", FromCurrency := "USD", ToCurrency := "IDR", Rate := float64.ofInt 16000,
         UpdatedAt := "" }] }

/-! ## Currency formatting (`internal/invoice/currency.go`) -/

/-- Commas between groups of three, on a digit list given least significant
digit first. -/
def groupRev : List Char → List Char
  | a :: b :: c :: d :: rest => a :: b :: c :: ',' :: groupRev (d :: rest)
  | l => l

/-- English grouping of an integer part: `1234567` becomes `1,234,567`. -/
def groupThousands (digits : List Char) : List Char :=
  (groupRev digits.reverse).reverse

/-- Fixed-point rendering with `prec` fractional digits as the English
`message.Printer` does for the verb `%.<prec>f`: `NaN`, `∞` or `-∞`, or else the
sign of a value below zero, the grouped integer part, and, when `prec > 0`, a
point and `prec` digits (the value rounded to nearest, ties to even). -/
def sprintfFixed (prec : Nat) : float64 → String
  | .nan => "NaN"
  | .inf neg => if neg then "-∞" else "∞"
  | .finite neg m e =>
    let scaled := float64.decimalDigits prec m e
    let intPart := scaled / 10 ^ prec
    let fracPart := scaled % 10 ^ prec
    let sign := if neg ∧ m ≠ 0 then "-" else ""
    let body := sign ++ String.mk (groupThousands (Nat.repr intPart).toList)
    if prec = 0 then body
    else body ++ "." ++ String.mk (List.leftpad prec '0' (Nat.repr fracPart).toList)

/-- The two format strings `FormatCurrency` passes to `p.Sprintf`. -/
def printerSprintf (format : String) (amount : float64) : String :=
  if format = "%.0f" then sprintfFixed 0 amount
  else if format = "%.2f" then sprintfFixed 2 amount
  else format

/-- Translation of `FormatCurrency`. -/
def FormatCurrency (amount : float64) (currencyCode : String) : String :=
  let noDecimalCurrencies := ["IDR", "JPY", "CNY"]
  if currencyCode ∈ noDecimalCurrencies then printerSprintf "%.0f" amount
  else printerSprintf "%.2f" amount

/-- Number of characters after the first decimal point of a rendering, zero
when there is no point. -/
def fractionDigits (s : String) : Nat :=
  match s.toList.dropWhile (fun c => c != '.') with
  | [] => 0
  | _ :: frac => frac.length

/-! ## PDF items table and totals (`internal/invoice/pdf_items.go`, `pdf_totals.go`) -/

/-- Line item handed to the PDF renderer (`invoice.Item`), with the fields the
struct literal in `Server.generatePDF` sets. -/
structure invoice.Item where
  Description : String
  Quantity : Int
  UnitPrice : float64
  deriving DecidableEq, Repr

/-- The invoice handed to the PDF renderer (`invoice.Invoice`). The declaration
of the type is not among the sources of `internal/invoice`; the fields are those
the struct literal in `Server.generatePDF` sets (`internal/server/invoices.go`),
which are also the fields of `pdf.Invoice` in the invoice service. -/
structure invoice.Invoice where
  ID : String
  CustomerName : String
  CustomerEmail : String
  CustomerAddress : String
  CustomerCity : String
  CustomerPostalCode : String
  CustomerPhone : String
  Items : List invoice.Item
  Subtotal : float64
  Tax : float64
  Discount : float64
  Total : float64
  Currency : String
  deriving DecidableEq, Repr

/-- A text cell drawn on the page by `Cell` or `CellFormat`: its text and whether
its background is filled. -/
structure TextCell where
  Text : String
  Fill : Bool
  deriving DecidableEq, Repr

/-- The call `fmt.Sprintf("$%.2f", amount)`. -/
def sprintfDollar (amount : float64) : String :=
  "$" ++ fmtFixed 2 amount

/-- The call `pdf.Cell(w, h, txt)`: a cell without fill. -/
def gofpdf.Cell (pdf : List TextCell) (txt : String) : List TextCell :=
  pdf ++ [{ Text := txt, Fill := false }]

/-- The call `pdf.CellFormat(w, h, txt, border, ln, align, fill, link, linkStr)`. -/
def gofpdf.CellFormat (pdf : List TextCell) (txt : String) (fill : Bool) : List TextCell :=
  pdf ++ [{ Text := txt, Fill := fill }]

/-- One row of the items table; the state is the page and the `fill` flag. -/
def itemRow (state : List TextCell × Bool) (item : invoice.Item) : List TextCell × Bool :=
  let pdf := state.1
  let fill := state.2
  let lineTotal := float64.ofInt item.Quantity * item.UnitPrice
  let pdf := gofpdf.CellFormat pdf item.Description fill
  let pdf := gofpdf.CellFormat pdf (sprintfD item.Quantity) fill
  let pdf := gofpdf.CellFormat pdf (sprintfDollar item.UnitPrice) fill
  let pdf := gofpdf.CellFormat pdf (sprintfDollar lineTotal) fill
  (pdf, !fill)

/-- Translation of `addItemsTable`: the text cells it draws, after those already
on the page. -/
def addItemsTable (pdf : List TextCell) (items : List invoice.Item) : List TextCell :=
  let pdf := gofpdf.CellFormat pdf "DESCRIPTION" true
  let pdf := gofpdf.CellFormat pdf "QTY" true
  let pdf := gofpdf.CellFormat pdf "UNIT PRICE" true
  let pdf := gofpdf.CellFormat pdf "AMOUNT" true
  (items.foldl itemRow (pdf, false)).1

/-- Translation of `addTotalsSection`. -/
def addTotalsSection (pdf : List TextCell) (inv : invoice.Invoice) : List TextCell :=
  let pdf := gofpdf.Cell pdf ""
  let subtotal := inv.Subtotal
  let subtotal :=
    if float64.eq subtotal 0 then
      inv.Items.foldl
        (fun subtotal item => subtotal + float64.ofInt item.Quantity * item.UnitPrice) subtotal
    else subtotal
  let taxAmount := subtotal * (inv.Tax / float64.ofInt 100)
  let finalTotal := inv.Total
  let finalTotal :=
    if float64.eq finalTotal 0 then subtotal + taxAmount - inv.Discount else finalTotal
  let pdf := gofpdf.Cell pdf "Subtotal:"
  let pdf := gofpdf.Cell pdf (sprintfDollar subtotal)
  let pdf := gofpdf.Cell pdf ""
  let pdf := gofpdf.Cell pdf ("Tax (" ++ fmtFixed 1 inv.Tax ++ "%):")
  let pdf := gofpdf.Cell pdf (sprintfDollar taxAmount)
  let pdf :=
    if float64.gt inv.Discount 0 then
      let pdf := gofpdf.Cell pdf ""
      let pdf := gofpdf.Cell pdf "Discount:"
      gofpdf.Cell pdf ("-" ++ sprintfDollar inv.Discount)
    else pdf
  let pdf := gofpdf.Cell pdf ""
  let pdf := gofpdf.CellFormat pdf "TOTAL:" true
  gofpdf.CellFormat pdf (sprintfDollar finalTotal) true

/-- The subtotal drawn in the totals section: the invoice's, or, when that is
zero, the sum over the items of `float64(quantity) * unit_price`. -/
def drawnSubtotal (inv : invoice.Invoice) : float64 :=
  if float64.eq inv.Subtotal 0 then
    inv.Items.foldl
      (fun subtotal item => subtotal + float64.ofInt item.Quantity * item.UnitPrice)
      inv.Subtotal
  else inv.Subtotal

/-- The tax amount drawn in the totals section. -/
def drawnTax (inv : invoice.Invoice) : float64 :=
  drawnSubtotal inv * (inv.Tax / float64.ofInt 100)

/-- The total drawn in the totals section: the invoice's, or, when that is zero,
subtotal plus tax amount minus discount. -/
def drawnTotal (inv : invoice.Invoice) : float64 :=
  if float64.eq inv.Total 0 then drawnSubtotal inv + drawnTax inv - inv.Discount
  else inv.Total

/-- An invoice in rupiah: 2 × 10 and 3 × 2.5 with tax 10 and discount 5. -/
def exPdfInvoice : invoice.Invoice :=
  { ID := "inv-1", CustomerName := "Ada", CustomerEmail := "", CustomerAddress := "",
    CustomerCity := "", CustomerPostalCode := "", CustomerPhone := "",
    Items := [{ Description := "a", Quantity := 2, UnitPrice := float64.ofInt 10 },
              { Description := "b", Quantity := 3, UnitPrice := fp.dec 25 1 }],
    Subtotal := fp.dec 275 1, Tax := float64.ofInt 10, Discount := float64.ofInt 5,
    Total := fp.dec 2525 2, Currency := "IDR" }

/-- The largest finite `float64` (`math.MaxFloat64`). -/
def float64.max : float64 := .finite false (2 ^ 53 - 1) 971

/-! ## Theorems -/

theorem repository_create_ok {clk : Clock} {rt : Remote} {s : Store} {customerID : String}
    {items : List Item} {tax discount : ℚ} {status notes dueDate currency : String}
    {inv : Invoice}
    (h : (InvoiceRepository.Create clk rt s customerID items tax discount status notes
      dueDate currency).1 = .ok inv) :
    inv.Subtotal = items.foldl subtotalStep 0 ∧
    inv.Total = inv.Subtotal + inv.Subtotal * (tax / 100) - discount ∧
    inv.PaidAmount = 0 ∧ inv.PaymentStatus = "unpaid" ∧ inv.ID = rt.newID ∧
    inv.Items = items ∧
    (InvoiceRepository.Create clk rt s customerID items tax discount status notes
      dueDate currency).2.invoices = s.invoices ++ [inv] := by
  unfold InvoiceRepository.Create at h ⊢
  cases hg : InvoiceRepository.generateInvoiceNumber clk rt s with
  | error e => simp [hg] at h
  | ok num =>
    simp only [hg] at h ⊢
    by_cases hi : rt.insertFails = true
    · simp [hi] at h
    · simp only [hi] at h ⊢
      simp only [Bool.false_eq_true, if_false, Except.ok.injEq] at h ⊢
      subst h
      simp

theorem setPaymentFields_ID (id : String) (pa : ℚ) (ps pd : String) (r : Invoice) :
    (setPaymentFields id pa ps pd r).ID = r.ID := by
  unfold setPaymentFields
  split <;> rfl

theorem create_discounted (discount : ℚ) :
    InvoiceRepository.Create exClock exRemote emptyStore "c-1" exOneItem 0 discount "" "" "" ""
      = (.ok (exDiscounted discount),
          { emptyStore with invoices := [exDiscounted discount] }) := by
  have hn : InvoiceRepository.generateInvoiceNumber exClock exRemote emptyStore
      = .ok "INV-2026-0001" := rfl
  simp only [InvoiceRepository.Create, hn]
  norm_num [exRemote, Remote.healthy, exDiscounted, exOneItem, subtotalStep, exClock,
    emptyStore]

theorem getElem?_at {α : Type} (xs : List α) (y : α) (ys : List α) (k : Nat)
    (hk : k = xs.length) : (xs ++ y :: ys)[k]? = some y := by
  subst hk
  rw [List.getElem?_append_right (le_refl _)]
  simp

theorem set_at {α : Type} (xs : List α) (y x : α) (ys : List α) (k : Nat)
    (hk : k = xs.length) : (xs ++ y :: ys).set k x = xs ++ x :: ys := by
  subst hk; simp

/-- C6. A payment request that passes validation but names an invoice id
without a row is answered 404 and leaves the store as it was: no payment row is
inserted and no invoice is updated. -/
theorem payment_for_missing_invoice (rt : Remote) (s : Store) (req : PaymentCreate)
    (hid : req.InvoiceID ≠ "") (hamount : 0 < req.Amount) (hmethod : req.PaymentMethod ≠ "")
    (hmissing : ∀ r ∈ s.invoices, r.ID ≠ req.InvoiceID) :
    PaymentHandler.Create rt s (some req) = (utils.NotFound "Invoice not found", s) ∧
    (PaymentHandler.Create rt s (some req)).1.StatusCode = 404 ∧
    (PaymentHandler.Create rt s (some req)).2.payments = s.payments ∧
    (PaymentHandler.Create rt s (some req)).2.invoices = s.invoices := by
  have hvalid : ¬ (req.InvoiceID = "" ∨ req.Amount ≤ 0 ∨ req.PaymentMethod = "") := by
    rintro (h | h | h)
    · exact hid h
    · exact absurd hamount (not_lt.mpr h)
    · exact hmethod h
  have hfilter : s.invoices.filter (fun r => r.ID = req.InvoiceID) = [] := by
    rw [List.filter_eq_nil_iff]
    intro r hr
    simpa using hmissing r hr
  have hget : ∃ e, PaymentRepository.GetInvoice rt s req.InvoiceID = .error e := by
    unfold PaymentRepository.GetInvoice
    by_cases hf : rt.selectFails = true
    · exact ⟨rt.errMsg, by simp [hf]⟩
    · exact ⟨"invoice not found", by simp [hf, hfilter]⟩
  obtain ⟨e, he⟩ := hget
  have hmain : PaymentHandler.Create rt s (some req)
      = (utils.NotFound "Invoice not found", s) := by
    unfold PaymentHandler.Create
    simp only [hvalid, if_false, he]
  rw [hmain]
  exact ⟨rfl, rfl, rfl, rfl⟩

/-- C6 at `exStore`: a payment on `inv-404` is answered 404, the store unchanged. -/
theorem payment_for_missing_invoice_witness :
    PaymentHandler.Create exRemote exStore (some exMissingPayment)
      = (utils.NotFound "Invoice not found", exStore) ∧
    (PaymentHandler.Create exRemote exStore (some exMissingPayment)).1.StatusCode = 404 ∧
    (PaymentHandler.Create exRemote exStore (some exMissingPayment)).2.payments
      = exStore.payments ∧
    (PaymentHandler.Create exRemote exStore (some exMissingPayment)).2.invoices
      = exStore.invoices :=
  payment_for_missing_invoice exRemote exStore exMissingPayment (by decide)
    (by norm_num [exMissingPayment]) (by decide) (by decide)

theorem anySuffix_isEmpty (s : List Char) : anySuffix (fun x => x.isEmpty) s = true := by
  induction s with
  | nil => rfl
  | cons c cs ih => simp [anySuffix, ih]

/-- A `LIKE` pattern of literal characters followed by `%` matches exactly the
strings that start with those characters. -/
theorem likeMatch_literal_then_any (p : List Char)
    (hp : ∀ c ∈ p, c ≠ '%' ∧ c ≠ '_') :
    ∀ s : List Char, likeMatch (p ++ ['%']) s = p.isPrefixOf s := by
  induction p with
  | nil =>
    intro s
    have : likeMatch [] = fun x => x.isEmpty := by
      funext x; cases x <;> rfl
    simp [likeMatch, this, anySuffix_isEmpty]
  | cons c p ih =>
    intro s
    obtain ⟨h1, h2⟩ := hp c (List.mem_cons_self _ _)
    have ih' := ih (fun d hd => hp d (List.mem_cons_of_mem _ hd))
    cases s with
    | nil => simp [likeMatch, h1]
    | cons d ds =>
      simp only [List.cons_append, likeMatch, h1, h2, if_false, decide_False, Bool.false_or,
        ih' ds, List.isPrefixOf]
      by_cases hcd : c = d <;> simp [hcd, ih' ds]

theorem digitChar_isDigit (d : Nat) (hd : d < 10) : (Nat.digitChar d).isDigit = true := by
  interval_cases d <;> rfl

theorem toDigitsCore_isDigit (fuel : Nat) :
    ∀ (n : Nat) (ds : List Char), (∀ c ∈ ds, c.isDigit = true) →
      ∀ c ∈ Nat.toDigitsCore 10 fuel n ds, c.isDigit = true := by
  induction fuel with
  | zero => intro n ds hds; simpa [Nat.toDigitsCore] using hds
  | succ fuel ih =>
    intro n ds hds
    have hcons : ∀ c ∈ Nat.digitChar (n % 10) :: ds, c.isDigit = true := by
      intro c hc
      rcases List.mem_cons.mp hc with h | h
      · rw [h]; exact digitChar_isDigit _ (Nat.mod_lt _ (by decide))
      · exact hds c h
    unfold Nat.toDigitsCore
    simp only
    split
    · exact hcons
    · exact ih _ _ hcons

/-- The decimal representation of a natural number consists of digits. -/
theorem repr_isDigit (n : Nat) : ∀ c ∈ (Nat.repr n).toList, c.isDigit = true := by
  intro c hc
  have hc' : c ∈ Nat.toDigitsCore 10 (n + 1) n [] := by
    simpa [Nat.repr, Nat.toDigits, List.asString] using hc
  exact toDigitsCore_isDigit (n + 1) n [] (by simp) c hc'

theorem sprintfD_literal (year : Int) :
    ∀ c ∈ (sprintfD year).toList, c ≠ '%' ∧ c ≠ '_' := by
  have hrepr : ∀ n : Nat, ∀ c ∈ (Nat.repr n).toList, c ≠ '%' ∧ c ≠ '_' := by
    intro n c hc
    have hdig := repr_isDigit n c hc
    constructor <;> (rintro rfl; exact absurd hdig (by decide))
  intro c hc
  unfold sprintfD at hc
  cases year with
  | ofNat n => exact hrepr n c hc
  | negSucc n =>
    simp only [String.toList, String.data_append] at hc
    rcases List.mem_append.mp hc with h | h
    · have : c = '-' := by simpa using h
      subst this; decide
    · exact hrepr (n + 1) c h

/-- The `LIKE` filter of `generateInvoiceNumber` selects the invoice numbers
that start with `INV-<year>-`. -/
theorem like_year_pattern (year : Int) (value : String) :
    Like ("INV-" ++ sprintfD year ++ "-%") value
      = HasPrefix value ("INV-" ++ sprintfD year ++ "-") := by
  unfold Like HasPrefix
  have e1 : ("INV-" ++ sprintfD year ++ "-%").toList
      = ("INV-" ++ sprintfD year ++ "-").toList ++ ['%'] := by
    simp [String.toList, String.data_append]
  rw [e1]
  apply likeMatch_literal_then_any
  intro c hc
  simp only [String.toList, String.data_append, List.mem_append] at hc
  rcases hc with (h | h) | h
  · have : c = 'I' ∨ c = 'N' ∨ c = 'V' ∨ c = '-' := by simpa using h
    rcases this with rfl | rfl | rfl | rfl <;> decide
  · exact sprintfD_literal year c h
  · have : c = '-' := by simpa using h
    subst this; decide

/-- C7. For every year Y and count n of stored invoice numbers with the prefix
`INV-Y-`, `generateInvoiceNumber` returns `INV-` ++ Y ++ `-` ++ the decimal
representation of n + 1 left-padded with zeros to 4 digits; with n = 0 and
Y = 2026 that is `INV-2026-0001`. -/
theorem generate_invoice_number_format (clk : Clock) (rt : Remote) (s : Store)
    (hrt : rt.selectFails = false) :
    InvoiceRepository.generateInvoiceNumber clk rt s
      = .ok ("INV-" ++ sprintfD clk.Year ++ "-"
          ++ String.mk (List.leftpad 4 '0' (Nat.repr (countForYear s clk.Year + 1)).toList)) ∧
    (clk.Year = 2026 → countForYear s 2026 = 0 →
      InvoiceRepository.generateInvoiceNumber clk rt s = .ok "INV-2026-0001") := by
  have hmain : InvoiceRepository.generateInvoiceNumber clk rt s
      = .ok ("INV-" ++ sprintfD clk.Year ++ "-"
          ++ String.mk (List.leftpad 4 '0'
              (Nat.repr (countForYear s clk.Year + 1)).toList)) := by
    unfold InvoiceRepository.generateInvoiceNumber countForYear
    simp only [hrt, Bool.false_eq_true, if_false, like_year_pattern]
    have : ((List.filter (fun r => HasPrefix r.InvoiceNumber ("INV-" ++ sprintfD clk.Year ++ "-"))
        s.invoices).length : Int) + 1
        = Int.ofNat ((List.filter (fun r => HasPrefix r.InvoiceNumber
            ("INV-" ++ sprintfD clk.Year ++ "-")) s.invoices).length + 1) := by
      simp
    rw [this]
    rfl
  refine ⟨hmain, ?_⟩
  intro hy hn
  rw [hmain, hy, hn]
  rfl

/-- C7 on the empty store in 2026: no invoice number has the prefix, the first
number is `INV-2026-0001`. -/
theorem generate_invoice_number_format_witness :
    InvoiceRepository.generateInvoiceNumber exClock exRemote emptyStore
      = .ok "INV-2026-0001" :=
  (generate_invoice_number_format exClock exRemote emptyStore rfl).2 rfl rfl

/-- Two starts of the same path are comparable: one is a start of the other. -/
theorem hasPrefix_comparable (path a b : String)
    (ha : HasPrefix path a = true) (hb : HasPrefix path b = true) :
    a.toList.isPrefixOf b.toList = true ∨ b.toList.isPrefixOf a.toList = true := by
  unfold HasPrefix at ha hb
  rw [List.isPrefixOf_iff_prefix] at ha hb
  rcases List.prefix_or_prefix_of_prefix ha hb with h | h
  · left; exact List.isPrefixOf_iff_prefix.mpr h
  · right; exact List.isPrefixOf_iff_prefix.mpr h

/-- No path starts with two different path starts of the gateway table. -/
theorem gateway_starts_disjoint (path : String) :
    ∀ a ∈ gatewayRules.map (fun r => r.1), ∀ b ∈ gatewayRules.map (fun r => r.1),
      a ≠ b → ¬ (HasPrefix path a = true ∧ HasPrefix path b = true) := by
  intro a ha b hb hab ⟨h1, h2⟩
  have hcmp := hasPrefix_comparable path a b h1 h2
  have hall : ∀ a ∈ gatewayRules.map (fun r => r.1), ∀ b ∈ gatewayRules.map (fun r => r.1),
      a ≠ b → ¬ (a.toList.isPrefixOf b.toList = true ∨ b.toList.isPrefixOf a.toList = true) := by
    decide
  exact hall a ha b hb hab hcmp

/-- A rule table in which rules matching the same path name the same service
gives the same first match in every order. -/
theorem firstMatch_perm (rules rules' : List (String × String)) (path : String)
    (hperm : rules'.Perm rules)
    (hcons : ∀ r ∈ rules, ∀ r' ∈ rules, HasPrefix path r.1 = true →
      HasPrefix path r'.1 = true → r.2 = r'.2) :
    firstMatch rules' path = firstMatch rules path := by
  unfold firstMatch
  cases h' : rules'.find? (fun r => HasPrefix path r.1) with
  | none =>
    have hnone : rules.find? (fun r => HasPrefix path r.1) = none := by
      rw [List.find?_eq_none] at h' ⊢
      intro r hr
      exact h' r (hperm.symm.subset hr)
    rw [hnone]
  | some r' =>
    have hr'mem : r' ∈ rules' := List.mem_of_find?_eq_some h'
    have hr'p : HasPrefix path r'.1 = true := by
      simpa using List.find?_some h'
    cases h : rules.find? (fun r => HasPrefix path r.1) with
    | none =>
      rw [List.find?_eq_none] at h
      exact absurd hr'p (h r' (hperm.subset hr'mem))
    | some r =>
      have hrmem : r ∈ rules := List.mem_of_find?_eq_some h
      have hrp : HasPrefix path r.1 = true := by
        simpa using List.find?_some h
      simp only [Option.map_some']
      rw [hcons r' (hperm.subset hr'mem) r hrmem hr'p hrp]

/-- The service chosen by the catch-all route is the first match of the table. -/
theorem catchAll_target_eq_firstMatch (getenv : String → String) (path : String) :
    (catchAll getenv path).target = firstMatch gatewayRules path := by
  unfold catchAll firstMatch gatewayRules
  simp only [List.find?]
  cases h0 : HasPrefix path "/customers" <;>
  cases h1 : HasPrefix path "/invoices" <;>
  cases h2 : HasPrefix path "/currency-rates" <;>
  cases h3 : HasPrefix path "/payments" <;>
  cases h4 : HasPrefix path "/dashboard" <;>
  cases h5 : HasPrefix path "/analytics" <;>
  cases h6 : HasPrefix path "/notifications" <;>
  simp [GatewayAnswer.target]

/-- Rules of the gateway table that match the same path name the same service. -/
theorem gatewayRules_consistent (path : String) :
    ∀ r ∈ gatewayRules, ∀ r' ∈ gatewayRules, HasPrefix path r.1 = true →
      HasPrefix path r'.1 = true → r.2 = r'.2 := by
  intro r hr r' hr' h1 h2
  by_cases hrr : r.1 = r'.1
  · have hall : ∀ r ∈ gatewayRules, ∀ r' ∈ gatewayRules, r.1 = r'.1 → r.2 = r'.2 := by
      decide
    exact hall r hr r' hr' hrr
  · exact absurd ⟨h1, h2⟩
      (gateway_starts_disjoint path r.1 (List.mem_map_of_mem _ hr) r'.1
        (List.mem_map_of_mem _ hr') hrr)

/-- With consistent rules the first match is a service exactly when some rule
for that service matches. -/
theorem firstMatch_eq_some_iff (rules : List (String × String)) (path sv : String)
    (hcons : ∀ r ∈ rules, ∀ r' ∈ rules, HasPrefix path r.1 = true →
      HasPrefix path r'.1 = true → r.2 = r'.2) :
    firstMatch rules path = some sv ↔ ∃ r ∈ rules, HasPrefix path r.1 = true ∧ r.2 = sv := by
  unfold firstMatch
  constructor
  · intro h
    cases hf : rules.find? (fun r => HasPrefix path r.1) with
    | none => simp [hf] at h
    | some r =>
      simp only [hf, Option.map_some', Option.some.injEq] at h
      exact ⟨r, List.mem_of_find?_eq_some hf, by simpa using List.find?_some hf, h⟩
  · rintro ⟨r, hr, hp, hsv⟩
    cases hf : rules.find? (fun r => HasPrefix path r.1) with
    | none =>
      rw [List.find?_eq_none] at hf
      exact absurd hp (hf r hr)
    | some r' =>
      simp only [Option.map_some', Option.some.injEq]
      rw [← hsv]
      exact hcons r' (List.mem_of_find?_eq_some hf) r hr
        (by simpa using List.find?_some hf) hp

theorem catchAll_error_iff (getenv : String → String) (path : String) :
    catchAll getenv path = .httpError "Service not found" 404
      ↔ (catchAll getenv path).target = none := by
  unfold catchAll
  split_ifs <;> simp [GatewayAnswer.target]

theorem catchAll_proxied (getenv : String → String) (path sv : String)
    (h : (catchAll getenv path).target = some sv) :
    catchAll getenv path = .proxied sv (proxy.GetServiceURL getenv sv) := by
  unfold catchAll at h ⊢
  split_ifs at h ⊢ <;> simp only [GatewayAnswer.target, Option.some.injEq] at h <;>
    first
      | (subst h; rfl)
      | cases h

/-- C10. The catch-all route forwards to the customer service iff the path
starts with `/customers`, to the invoice service iff with `/invoices` or
`/currency-rates`, to the payment service iff with `/payments`, to the analytics
service iff with `/dashboard` or `/analytics`, to the notification service iff
with `/notifications`; every other path is answered 404 `Service not found`
and not forwarded. No path has two of these starts, and the result is the same
for every order of the checks. -/
theorem gateway_routing (getenv : String → String) (path : String) :
    ((catchAll getenv path).target = some "CUSTOMER_SERVICE"
      ↔ HasPrefix path "/customers" = true) ∧
    ((catchAll getenv path).target = some "INVOICE_SERVICE"
      ↔ (HasPrefix path "/invoices" = true ∨ HasPrefix path "/currency-rates" = true)) ∧
    ((catchAll getenv path).target = some "PAYMENT_SERVICE"
      ↔ HasPrefix path "/payments" = true) ∧
    ((catchAll getenv path).target = some "ANALYTICS_SERVICE"
      ↔ (HasPrefix path "/dashboard" = true ∨ HasPrefix path "/analytics" = true)) ∧
    ((catchAll getenv path).target = some "NOTIFICATION_SERVICE"
      ↔ HasPrefix path "/notifications" = true) ∧
    (catchAll getenv path = .httpError "Service not found" 404
      ↔ ∀ r ∈ gatewayRules, HasPrefix path r.1 = false) ∧
    (∀ sv, (catchAll getenv path).target = some sv →
      catchAll getenv path = .proxied sv (proxy.GetServiceURL getenv sv)) ∧
    (∀ a ∈ gatewayRules.map (fun r => r.1), ∀ b ∈ gatewayRules.map (fun r => r.1),
      a ≠ b → ¬ (HasPrefix path a = true ∧ HasPrefix path b = true)) ∧
    (∀ rules : List (String × String), rules.Perm gatewayRules →
      firstMatch rules path = (catchAll getenv path).target) := by
  have hc := gatewayRules_consistent path
  have hiff := fun sv => firstMatch_eq_some_iff gatewayRules path sv hc
  rw [catchAll_error_iff, catchAll_target_eq_firstMatch]
  refine ⟨?_, ?_, ?_, ?_, ?_, ?_, ?_, gateway_starts_disjoint path, ?_⟩
  · rw [hiff]; simp [gatewayRules]
  · rw [hiff]; simp [gatewayRules]
  · rw [hiff]; simp [gatewayRules]
  · rw [hiff]; simp [gatewayRules]
  · rw [hiff]; simp [gatewayRules]
  · unfold firstMatch
    rw [Option.map_eq_none', List.find?_eq_none]
    simp
  · intro sv h
    rw [← catchAll_target_eq_firstMatch getenv] at h
    exact catchAll_proxied getenv path sv h
  · intro rules hperm
    exact firstMatch_perm _ _ _ hperm hc

/-- C10 for the table in reverse order at the path `/analytics/x`. -/
theorem gateway_routing_witness :
    firstMatch gatewayRules.reverse "/analytics/x"
      = (catchAll (fun _ => "") "/analytics/x").target :=
  (gateway_routing (fun _ => "") "/analytics/x").2.2.2.2.2.2.2.2 gatewayRules.reverse
    (List.reverse_perm gatewayRules)

theorem filter_id_eq_nil {α : Type} (l : List α) (key : α → String) (id : String)
    (h : ∀ r ∈ l, key r ≠ id) : l.filter (fun r => key r = id) = [] := by
  rw [List.filter_eq_nil_iff]
  intro r hr
  simpa using h r hr

theorem filter_id_ne_self {α : Type} (l : List α) (key : α → String) (id : String)
    (h : ∀ r ∈ l, key r ≠ id) : l.filter (fun r => key r ≠ id) = l := by
  rw [List.filter_eq_self]
  intro r hr
  simpa using h r hr

/-- C11 on the code: for an id that matches no row, the Update handlers of the
customer service and of the invoice service answer 500 (InternalError), with the
repository's error `customer not found` / `invoice not found` as text when the
remote call itself succeeds; they do not answer 404. -/
theorem update_missing_id_answers_500 (rt : Remote) (s : Store) (id : String)
    (customer : Customer) (status notes : String)
    (hc : ∀ r ∈ s.customers, r.ID ≠ id) (hi : ∀ r ∈ s.invoices, r.ID ≠ id) :
    (CustomerHandler.Update rt s id (some customer)).1.StatusCode = 500 ∧
    (InvoiceHandler.Update rt s id (some (status, notes))).1.StatusCode = 500 ∧
    (rt.updateFails = false →
      (CustomerHandler.Update rt s id (some customer)).1
        = utils.InternalError "customer not found" ∧
      (InvoiceHandler.Update rt s id (some (status, notes))).1
        = utils.InternalError "invoice not found") := by
  have h1 := filter_id_eq_nil s.customers (fun r => r.ID) id hc
  have h2 := filter_id_eq_nil s.invoices (fun r => r.ID) id hi
  unfold CustomerHandler.Update InvoiceHandler.Update CustomerRepository.Update
    InvoiceRepository.Update
  by_cases hu : rt.updateFails = true
  · simp [hu, utils.InternalError, utils.Error]
  · simp [hu, h1, h2, utils.InternalError, utils.Error]

/-- C11 on the code at `exStore` and the id `x-404`: both Update handlers answer
500, not 404. -/
theorem update_missing_id_answers_500_witness :
    (CustomerHandler.Update exRemote exStore "x-404" (some exCustomer)).1.StatusCode = 500 ∧
    (InvoiceHandler.Update exRemote exStore "x-404" (some ("sent", ""))).1.StatusCode = 500 ∧
    (exRemote.updateFails = false →
      (CustomerHandler.Update exRemote exStore "x-404" (some exCustomer)).1
        = utils.InternalError "customer not found" ∧
      (InvoiceHandler.Update exRemote exStore "x-404" (some ("sent", ""))).1
        = utils.InternalError "invoice not found") :=
  update_missing_id_answers_500 exRemote exStore "x-404" exCustomer "sent" ""
    (by decide) (by decide)

/-- C12 as stated fails: on `exStore` the id `x-404` matches no customer and no
invoice, yet both repository Deletes return no error and both handlers answer
with the success envelope (200). -/
theorem delete_missing_id_reports_success :
    (CustomerRepository.Delete exRemote exStore "x-404").1 = .ok () ∧
    (CustomerHandler.Delete exRemote exStore "x-404").1
      = utils.Success "Customer deleted successfully" ∧
    (InvoiceRepository.Delete exRemote exStore "x-404").1 = .ok () ∧
    (InvoiceHandler.Delete exRemote exStore "x-404").1
      = utils.Success "Invoice deleted successfully" := by
  refine ⟨rfl, rfl, rfl, rfl⟩

/-- C12 (as amended). For every id that matches no row, delete(id) on customers
and on invoices reports success: unless the remote call itself fails, the
repository Delete returns no error, the handler answers with the success
envelope (200), and the customer and invoice rows are left as they were. -/
theorem delete_missing_id_succeeds (rt : Remote) (s : Store) (id : String)
    (hc : ∀ r ∈ s.customers, r.ID ≠ id) (hi : ∀ r ∈ s.invoices, r.ID ≠ id)
    (hd : rt.deleteFails = false) (hdi : rt.deleteItemsFails = false) :
    (CustomerRepository.Delete rt s id).1 = .ok () ∧
    (CustomerHandler.Delete rt s id).1 = utils.Success "Customer deleted successfully" ∧
    (CustomerHandler.Delete rt s id).1.StatusCode = 200 ∧
    (CustomerHandler.Delete rt s id).2.customers = s.customers ∧
    (InvoiceRepository.Delete rt s id).1 = .ok () ∧
    (InvoiceHandler.Delete rt s id).1 = utils.Success "Invoice deleted successfully" ∧
    (InvoiceHandler.Delete rt s id).1.StatusCode = 200 ∧
    (InvoiceHandler.Delete rt s id).2.invoices = s.invoices := by
  have h1 := filter_id_ne_self s.customers (fun r => r.ID) id hc
  have h2 := filter_id_ne_self s.invoices (fun r => r.ID) id hi
  unfold CustomerHandler.Delete InvoiceHandler.Delete CustomerRepository.Delete
    InvoiceRepository.Delete
  simp only [hd, hdi, Bool.false_eq_true, if_false]
  exact ⟨trivial, trivial, rfl, h1, trivial, trivial, rfl, h2⟩

/-- C12 (as amended) at `exStore` and the id `x-404`. -/
theorem delete_missing_id_succeeds_witness :
    (CustomerRepository.Delete exRemote exStore "x-404").1 = .ok () ∧
    (CustomerHandler.Delete exRemote exStore "x-404").1
      = utils.Success "Customer deleted successfully" ∧
    (CustomerHandler.Delete exRemote exStore "x-404").1.StatusCode = 200 ∧
    (CustomerHandler.Delete exRemote exStore "x-404").2.customers = exStore.customers ∧
    (InvoiceRepository.Delete exRemote exStore "x-404").1 = .ok () ∧
    (InvoiceHandler.Delete exRemote exStore "x-404").1
      = utils.Success "Invoice deleted successfully" ∧
    (InvoiceHandler.Delete exRemote exStore "x-404").1.StatusCode = 200 ∧
    (InvoiceHandler.Delete exRemote exStore "x-404").2.invoices = exStore.invoices :=
  delete_missing_id_succeeds exRemote exStore "x-404" (by decide) (by decide) rfl rfl

/-- C13. Invoice creation does not guarantee total ≥ 0: for the item list
1 × 10 with tax 0 and discount 20, larger than subtotal plus tax, the Create
handler answers 201, `InvoiceRepository.Create` returns no error, and the stored
total is −10. -/
theorem negative_total_accepted :
    ∃ (items : List Item) (tax discount : ℚ),
      discount > (items.map (fun it => (it.Quantity : ℚ) * it.UnitPrice)).sum
        + (items.map (fun it => (it.Quantity : ℚ) * it.UnitPrice)).sum * tax / 100 ∧
      (InvoiceHandler.Create exClock exRemote emptyStore
        (some { CustomerID := "c-1", Items := items, Tax := tax, Discount := discount,
                Status := "", Notes := "", DueDate := "", Currency := "" })).1.StatusCode
        = 201 ∧
      (∃ inv, (InvoiceRepository.Create exClock exRemote emptyStore "c-1" items tax discount
        "" "" "" "").1 = .ok inv ∧ inv.Total < 0) ∧
      ∃ r ∈ (InvoiceHandler.Create exClock exRemote emptyStore
        (some { CustomerID := "c-1", Items := items, Tax := tax, Discount := discount,
                Status := "", Notes := "", DueDate := "", Currency := "" })).2.invoices,
        r.Total < 0 := by
  refine ⟨exOneItem, 0, 20, ?_, ?_, ?_, ?_⟩
  · norm_num [exOneItem]
  · simp only [InvoiceHandler.Create, create_discounted]
    simp [exOneItem, utils.Created]
  · refine ⟨exDiscounted 20, ?_, ?_⟩
    · rw [create_discounted]
    · norm_num [exDiscounted]
  · refine ⟨exDiscounted 20, ?_, ?_⟩
    · simp only [InvoiceHandler.Create, create_discounted]
      simp [exOneItem]
    · norm_num [exDiscounted]

/-- C16 on the code: the items `InvoiceRepository.Create` persists are the items
of the request unchanged (the line total is set on the loop's copy only), so a
line total supplied by the client is stored as it came. -/
theorem created_items_keep_client_total (clk : Clock) (rt : Remote) (s : Store)
    (customerID : String) (items : List Item) (tax discount : ℚ)
    (status notes dueDate currency : String) (inv : Invoice)
    (h : (InvoiceRepository.Create clk rt s customerID items tax discount status notes
      dueDate currency).1 = .ok inv) :
    inv.Items = items ∧
    (InvoiceRepository.Create clk rt s customerID items tax discount status notes
      dueDate currency).2.invoices = s.invoices ++ [inv] := by
  obtain ⟨_, _, _, _, _, h6, h7⟩ := repository_create_ok h
  exact ⟨h6, h7⟩

theorem create_example :
    (InvoiceRepository.Create exClock exRemote exStore "c-1" exItems 10 5 "" "" "" "").1
      = .ok exCreated := by
  have hn : InvoiceRepository.generateInvoiceNumber exClock exRemote exStore
      = .ok "INV-2026-0002" := rfl
  simp only [InvoiceRepository.Create, hn]
  norm_num [exRemote, Remote.healthy, exCreated, exItems, subtotalStep, exClock]

/-- C16 on the code at `exItems`: the second item, 3 × 5/2 sent with total 999,
is persisted with total 999, not 15/2. -/
theorem created_items_keep_client_total_witness :
    (exCreated.Items = exItems ∧
      (InvoiceRepository.Create exClock exRemote exStore "c-1" exItems 10 5 "" "" "" "").2.invoices
        = exStore.invoices ++ [exCreated]) ∧
    ∃ it ∈ exCreated.Items, it.Total = 999 ∧ (it.Quantity : ℚ) * it.UnitPrice = 15 / 2 :=
  ⟨created_items_keep_client_total exClock exRemote exStore "c-1" exItems 10 5 "" "" "" ""
      exCreated create_example,
   ⟨{ Description := "b", Quantity := 3, UnitPrice := 5 / 2, Total := 999 },
    by simp [exCreated, exItems], rfl, by norm_num⟩⟩

/-- C17. In `PaymentHandler.Create`, when the payment insert succeeds and the
invoice update fails, the handler answers InternalError (500), the inserted
payment row stays in the store, and the invoice rows, with their paid_amount and
payment_status, are as before. -/
theorem update_failure_leaves_payment (rt : Remote) (s : Store) (req : PaymentCreate)
    (inv : Invoice)
    (hid : req.InvoiceID ≠ "") (hamount : 0 < req.Amount) (hmethod : req.PaymentMethod ≠ "")
    (hget : PaymentRepository.GetInvoice rt s req.InvoiceID = .ok inv)
    (hins : rt.insertFails = false) (hupd : rt.updateFails = true) :
    (PaymentHandler.Create rt s (some req)).1
      = utils.InternalError ("Failed to update invoice: " ++ rt.errMsg) ∧
    (PaymentHandler.Create rt s (some req)).1.StatusCode = 500 ∧
    (PaymentHandler.Create rt s (some req)).2.payments = s.payments ++ [paymentRow rt req] ∧
    (PaymentHandler.Create rt s (some req)).2.invoices = s.invoices := by
  have hvalid : ¬ (req.InvoiceID = "" ∨ req.Amount ≤ 0 ∨ req.PaymentMethod = "") := by
    rintro (h | h | h)
    · exact hid h
    · exact absurd hamount (not_lt.mpr h)
    · exact hmethod h
  have hmain : PaymentHandler.Create rt s (some req)
      = (utils.InternalError ("Failed to update invoice: " ++ rt.errMsg),
          { s with payments := s.payments ++ [paymentRow rt req] }) := by
    unfold PaymentHandler.Create
    simp only [hvalid, if_false, hget]
    unfold PaymentRepository.Create PaymentRepository.UpdateInvoice
    simp [hins, hupd]
  rw [hmain]
  exact ⟨rfl, rfl, rfl, rfl⟩

/-- C17 at `exStore` with a remote store whose updates fail. -/
theorem update_failure_leaves_payment_witness :
    (PaymentHandler.Create exRemoteUpdateFails exStore (some exPayment)).1
      = utils.InternalError ("Failed to update invoice: " ++ exRemoteUpdateFails.errMsg) ∧
    (PaymentHandler.Create exRemoteUpdateFails exStore (some exPayment)).1.StatusCode = 500 ∧
    (PaymentHandler.Create exRemoteUpdateFails exStore (some exPayment)).2.payments
      = exStore.payments ++ [paymentRow exRemoteUpdateFails exPayment] ∧
    (PaymentHandler.Create exRemoteUpdateFails exStore (some exPayment)).2.invoices
      = exStore.invoices :=
  update_failure_leaves_payment exRemoteUpdateFails exStore exPayment exInvoice
    (by decide) (by norm_num [exPayment]) (by decide) rfl rfl rfl

/-- C18 on the code: the monolith's `RecordPayment` inserts the payment before it
fetches the invoice; for a payment whose invoice id has no row it returns an
error, and, the insert having succeeded, the store holds the new payment row. -/
theorem monolith_orphan_payment (rt : Remote) (s : Store) (payment : PaymentCreate)
    (hmissing : ∀ r ∈ s.invoices, r.ID ≠ payment.InvoiceID)
    (hins : rt.insertFails = false) :
    (∃ e, (db.Client.RecordPayment rt s payment).1 = .error e) ∧
    (db.Client.RecordPayment rt s payment).2.payments
      = s.payments ++ [paymentRow rt payment] := by
  have hfilter := filter_id_eq_nil s.invoices (fun r => r.ID) payment.InvoiceID hmissing
  have hget : ∃ e, db.Client.GetInvoice rt
      { s with payments := s.payments ++ [paymentRow rt payment] } payment.InvoiceID
        = .error e := by
    unfold db.Client.GetInvoice
    by_cases hf : rt.selectFails = true
    · exact ⟨rt.errMsg, by simp [hf]⟩
    · exact ⟨"no single row", by simp [hf, hfilter]⟩
  obtain ⟨e, he⟩ := hget
  unfold db.Client.RecordPayment
  simp only [hins, Bool.false_eq_true, if_false, he]
  exact ⟨⟨e, rfl⟩, trivial⟩

/-- C18 on the code at `exStore`: a payment on `inv-404` is answered with an
error and its row is in the store. -/
theorem monolith_orphan_payment_witness :
    (∃ e, (db.Client.RecordPayment exRemote exStore exMissingPayment).1 = .error e) ∧
    (db.Client.RecordPayment exRemote exStore exMissingPayment).2.payments
      = exStore.payments ++ [paymentRow exRemote exMissingPayment] :=
  monolith_orphan_payment exRemote exStore exMissingPayment (by decide) rfl

/-- `InvoiceRepository.Create` is the number generation followed by the insert. -/
theorem create_eq_generate_then_insert (clk : Clock) (rt : Remote) (s : Store)
    (customerID : String) (items : List Item) (tax discount : ℚ)
    (status notes dueDate currency : String) :
    InvoiceRepository.Create clk rt s customerID items tax discount status notes dueDate currency
      = match InvoiceRepository.generateInvoiceNumber clk rt s with
        | .error e => (.error e, s)
        | .ok invoiceNumber =>
          InvoiceRepository.insertNumbered clk rt s customerID items tax discount status notes
            dueDate currency invoiceNumber := by
  unfold InvoiceRepository.Create InvoiceRepository.insertNumbered
  cases InvoiceRepository.generateInvoiceNumber clk rt s <;> rfl

/-- The number `generateInvoiceNumber` returns, from the year and the count. -/
theorem generateInvoiceNumber_eq (clk : Clock) (rt : Remote) (s : Store)
    (hrt : rt.selectFails = false) :
    InvoiceRepository.generateInvoiceNumber clk rt s
      = .ok ("INV-" ++ sprintfD clk.Year ++ "-"
          ++ sprintf04d (Int.ofNat (countForYear s clk.Year + 1))) := by
  unfold InvoiceRepository.generateInvoiceNumber countForYear
  simp only [hrt, Bool.false_eq_true, if_false, like_year_pattern]
  have : ((List.filter (fun r => HasPrefix r.InvoiceNumber ("INV-" ++ sprintfD clk.Year ++ "-"))
      s.invoices).length : Int) + 1
      = Int.ofNat ((List.filter (fun r => HasPrefix r.InvoiceNumber
          ("INV-" ++ sprintfD clk.Year ++ "-")) s.invoices).length + 1) := by
    simp
  rw [this]

theorem insertNumbered_ok (clk : Clock) (rt : Remote) (s : Store)
    (customerID : String) (items : List Item) (tax discount : ℚ)
    (status notes dueDate currency invoiceNumber : String) (hins : rt.insertFails = false) :
    ∃ row : Invoice, row.ID = rt.newID ∧ row.InvoiceNumber = invoiceNumber ∧
      InvoiceRepository.insertNumbered clk rt s customerID items tax discount status notes
        dueDate currency invoiceNumber = (.ok row, { s with invoices := s.invoices ++ [row] }) := by
  unfold InvoiceRepository.insertNumbered
  simp only [hins, Bool.false_eq_true, if_false]
  exact ⟨_, rfl, rfl, rfl⟩

/-- C14. `generateInvoiceNumber` depends on the year and the observed count of
matching rows only: two invocations that observe the same year and the same
count return the same number. Two creations that both read the count before
either inserts therefore store two rows with the same invoice number, so the
stored invoice numbers are not unique. -/
theorem invoice_number_not_unique (clkA clkB : Clock) (rtA rtB : Remote) (s sB : Store)
    (reqA reqB : InvoiceCreateRequest)
    (hyear : clkA.Year = clkB.Year)
    (hselA : rtA.selectFails = false) (hselB : rtB.selectFails = false)
    (hinsA : rtA.insertFails = false) (hinsB : rtB.insertFails = false)
    (hids : rtA.newID ≠ rtB.newID) :
    (countForYear s clkA.Year = countForYear sB clkB.Year →
      InvoiceRepository.generateInvoiceNumber clkA rtA s
        = InvoiceRepository.generateInvoiceNumber clkB rtB sB) ∧
    (∃ a ∈ (createBothReadFirst clkA clkB rtA rtB s reqA reqB).invoices,
      ∃ b ∈ (createBothReadFirst clkA clkB rtA rtB s reqA reqB).invoices,
        a.ID = rtA.newID ∧ b.ID = rtB.newID ∧ a.ID ≠ b.ID ∧
        a.InvoiceNumber = b.InvoiceNumber) ∧
    ¬ ((createBothReadFirst clkA clkB rtA rtB s reqA reqB).invoices.map
        (fun r => r.InvoiceNumber)).Nodup := by
  have hA := generateInvoiceNumber_eq clkA rtA s hselA
  have hB := generateInvoiceNumber_eq clkB rtB s hselB
  have hBB := generateInvoiceNumber_eq clkB rtB sB hselB
  have hstore : ∃ a b : Invoice, a.ID = rtA.newID ∧ b.ID = rtB.newID ∧
      a.InvoiceNumber = b.InvoiceNumber ∧
      (createBothReadFirst clkA clkB rtA rtB s reqA reqB).invoices = s.invoices ++ [a, b] := by
    unfold createBothReadFirst
    rw [hA, hB, hyear]
    obtain ⟨a, ha1, ha2, ha3⟩ := insertNumbered_ok clkA rtA s reqA.CustomerID reqA.Items
      reqA.Tax reqA.Discount reqA.Status reqA.Notes reqA.DueDate reqA.Currency
      ("INV-" ++ sprintfD clkB.Year ++ "-"
        ++ sprintf04d (Int.ofNat (countForYear s clkB.Year + 1))) hinsA
    obtain ⟨b, hb1, hb2, hb3⟩ := insertNumbered_ok clkB rtB
      { s with invoices := s.invoices ++ [a] } reqB.CustomerID reqB.Items
      reqB.Tax reqB.Discount reqB.Status reqB.Notes reqB.DueDate reqB.Currency
      ("INV-" ++ sprintfD clkB.Year ++ "-"
        ++ sprintf04d (Int.ofNat (countForYear s clkB.Year + 1))) hinsB
    refine ⟨a, b, ha1, hb1, ha2.trans hb2.symm, ?_⟩
    simp only [ha3, hb3]
    simp
  obtain ⟨a, b, ha, hb, hnum, hst⟩ := hstore
  refine ⟨?_, ?_, ?_⟩
  · intro hcount
    rw [hyear] at hcount
    rw [hA, hBB, hyear, hcount]
  · rw [hst]
    exact ⟨a, by simp, b, by simp, ha, hb, by rw [ha, hb]; exact hids, hnum⟩
  · rw [hst]
    intro hnd
    rw [List.map_append, List.nodup_append] at hnd
    have h2 := hnd.2.1
    simp [hnum] at h2

/-- C14 on the empty store in 2026: two creations that read before either
inserts are both numbered alike. -/
theorem invoice_number_not_unique_witness :
    (countForYear emptyStore exClock.Year = countForYear emptyStore exClock.Year →
      InvoiceRepository.generateInvoiceNumber exClock exRemote emptyStore
        = InvoiceRepository.generateInvoiceNumber exClock exRemoteB emptyStore) ∧
    (∃ a ∈ (createBothReadFirst exClock exClock exRemote exRemoteB emptyStore
        exDiscountRequest exDiscountRequest).invoices,
      ∃ b ∈ (createBothReadFirst exClock exClock exRemote exRemoteB emptyStore
        exDiscountRequest exDiscountRequest).invoices,
        a.ID = exRemote.newID ∧ b.ID = exRemoteB.newID ∧ a.ID ≠ b.ID ∧
        a.InvoiceNumber = b.InvoiceNumber) ∧
    ¬ ((createBothReadFirst exClock exClock exRemote exRemoteB emptyStore
        exDiscountRequest exDiscountRequest).invoices.map (fun r => r.InvoiceNumber)).Nodup :=
  invoice_number_not_unique exClock exClock exRemote exRemoteB emptyStore emptyStore
    exDiscountRequest exDiscountRequest rfl rfl rfl rfl rfl (by decide)

theorem bumpAt_keys {β : Type} [Add β] (k : String) (v : β) (m : List (String × β)) :
    (bumpAt k v m).map (fun e => e.1) = m.map (fun e => e.1) := by
  unfold bumpAt
  rw [List.map_map]
  apply List.map_congr_left
  intro e _
  by_cases h : e.1 = k <;> simp [h]

theorem bumpAt_absent {β : Type} [Add β] (k : String) (v : β) (m : List (String × β))
    (h : k ∉ m.map (fun e => e.1)) : bumpAt k v m = m := by
  unfold bumpAt
  conv_rhs => rw [← List.map_id m]
  apply List.map_congr_left
  intro e he
  have : e.1 ≠ k := by
    intro hk
    exact h (hk ▸ List.mem_map_of_mem (fun e => e.1) he)
  simp [this]

theorem valueAt_cons {β : Type} [AddCommMonoid β] (e : String × β) (m : List (String × β))
    (k : String) : valueAt (e :: m) k = (if e.1 = k then e.2 else 0) + valueAt m k := by
  unfold valueAt
  by_cases h : e.1 = k <;> simp [h]

theorem valueAt_absent {β : Type} [AddCommMonoid β] (m : List (String × β)) (k : String)
    (h : k ∉ m.map (fun e => e.1)) : valueAt m k = 0 := by
  unfold valueAt
  have : m.filter (fun e => e.1 = k) = [] := by
    rw [List.filter_eq_nil_iff]
    intro e he
    have : e.1 ≠ k := by
      intro hk
      exact h (hk ▸ List.mem_map_of_mem (fun e => e.1) he)
    simpa using this
  rw [this]
  rfl

/-- Adding at a key of a map without repeated keys moves the value at that key
by `v` when the key is there, and no other value. -/
theorem valueAt_bumpAt {β : Type} [AddCommMonoid β] (k : String) (v : β)
    (m : List (String × β)) (hnd : (m.map (fun e => e.1)).Nodup) (k' : String) :
    valueAt (bumpAt k v m) k'
      = valueAt m k' + (if k' = k ∧ k ∈ m.map (fun e => e.1) then v else 0) := by
  induction m with
  | nil => simp [bumpAt, valueAt]
  | cons e m ih =>
    rw [List.map_cons, List.nodup_cons] at hnd
    have ih' := ih hnd.2
    have hb : bumpAt k v (e :: m) = (if e.1 = k then (e.1, e.2 + v) else e) :: bumpAt k v m :=
      rfl
    rw [hb, valueAt_cons, valueAt_cons]
    by_cases hek : e.1 = k
    · subst hek
      rw [bumpAt_absent _ v m hnd.1]
      by_cases hk' : k' = e.1
      · rw [hk']
        simp only [if_true, List.map_cons, List.mem_cons, true_or, and_self]
        abel
      · have h2 : ¬ e.1 = k' := fun h => hk' h.symm
        simp only [if_true, h2, if_false, hk', false_and, add_zero]
    · rw [ih']
      have hiff : (k ∈ (e :: m).map (fun e => e.1)) ↔ (k ∈ m.map (fun e => e.1)) := by
        rw [List.map_cons, List.mem_cons]
        constructor
        · rintro (h | h)
          · exact absurd h.symm hek
          · exact h
        · exact Or.inr
      simp only [hek, if_false, hiff]
      abel

theorem any_key_iff {β : Type} (m : List (String × β)) (k : String) :
    (m.any (fun e => decide (e.1 = k)) = true) ↔ k ∈ m.map (fun e => e.1) := by
  rw [List.any_eq_true, List.mem_map]
  constructor
  · rintro ⟨e, he, hk⟩
    exact ⟨e, he, by simpa using hk⟩
  · rintro ⟨e, he, hk⟩
    exact ⟨e, he, by simpa using hk⟩

theorem mapAddAt_eq {β : Type} [AddCommMonoid β] (m : List (String × β)) (k : String) (v : β) :
    mapAddAt m k v
      = bumpAt k v (if k ∈ m.map (fun e => e.1) then m else m ++ [(k, 0)]) := by
  unfold mapAddAt bumpAt
  by_cases h : k ∈ m.map (fun e => e.1)
  · have h' := (any_key_iff m k).mpr h
    simp only [h', h, if_true]
  · have h' : (m.any (fun e => decide (e.1 = k))) = false := by
      cases hh : m.any (fun e => decide (e.1 = k))
      · rfl
      · exact absurd ((any_key_iff m k).mp hh) h
    simp only [h', h, if_false, Bool.false_eq_true]

theorem mapAddAt_keys {β : Type} [AddCommMonoid β] (m : List (String × β)) (k : String)
    (v : β) :
    (mapAddAt m k v).map (fun e => e.1)
      = if k ∈ m.map (fun e => e.1) then m.map (fun e => e.1)
        else m.map (fun e => e.1) ++ [k] := by
  rw [mapAddAt_eq, bumpAt_keys]
  by_cases h : k ∈ m.map (fun e => e.1) <;> simp [h]

theorem mapAddAt_nodup {β : Type} [AddCommMonoid β] (m : List (String × β)) (k : String)
    (v : β) (hnd : (m.map (fun e => e.1)).Nodup) :
    ((mapAddAt m k v).map (fun e => e.1)).Nodup := by
  rw [mapAddAt_keys]
  by_cases h : k ∈ m.map (fun e => e.1)
  · simpa [h] using hnd
  · simp only [h, if_false]
    rw [List.nodup_append]
    refine ⟨hnd, List.nodup_singleton k, ?_⟩
    intro a ha hb
    have : a = k := by simpa using hb
    exact h (this ▸ ha)

/-- The Go statement `m[k] += v` moves the value at `k` by `v` and no other. -/
theorem valueAt_mapAddAt {β : Type} [AddCommMonoid β] (m : List (String × β)) (k : String)
    (v : β) (hnd : (m.map (fun e => e.1)).Nodup) (k' : String) :
    valueAt (mapAddAt m k v) k' = valueAt m k' + (if k' = k then v else 0) := by
  rw [mapAddAt_eq]
  by_cases h : k ∈ m.map (fun e => e.1)
  · simp only [h, if_true]
    rw [valueAt_bumpAt k v m hnd]
    simp [h]
  · simp only [h, if_false]
    have hnd' : ((m ++ [(k, (0 : β))]).map (fun e => e.1)).Nodup := by
      rw [List.map_append, List.nodup_append]
      refine ⟨hnd, by simp, ?_⟩
      intro a ha hb
      have : a = k := by simpa using hb
      exact h (this ▸ ha)
    rw [valueAt_bumpAt k v _ hnd']
    have hv : valueAt (m ++ [(k, (0 : β))]) k' = valueAt m k' := by
      unfold valueAt
      by_cases hk : k = k' <;> simp [List.filter_append, List.filter_cons, hk]
    rw [hv]
    simp

theorem sum_bumpAt {β : Type} [AddCommMonoid β] (k : String) (v : β)
    (m : List (String × β)) (hnd : (m.map (fun e => e.1)).Nodup) :
    ((bumpAt k v m).map (fun e => e.2)).sum
      = (m.map (fun e => e.2)).sum + (if k ∈ m.map (fun e => e.1) then v else 0) := by
  induction m with
  | nil => simp [bumpAt]
  | cons e m ih =>
    rw [List.map_cons, List.nodup_cons] at hnd
    have ih' := ih hnd.2
    have hb : bumpAt k v (e :: m) = (if e.1 = k then (e.1, e.2 + v) else e) :: bumpAt k v m :=
      rfl
    rw [hb]
    by_cases hek : e.1 = k
    · subst hek
      rw [bumpAt_absent _ v m hnd.1]
      simp only [if_true, List.map_cons, List.sum_cons, List.mem_cons, true_or]
      abel
    · have hiff : (k ∈ e.1 :: m.map (fun e => e.1)) ↔ (k ∈ m.map (fun e => e.1)) := by
        rw [List.mem_cons]
        constructor
        · rintro (h | h)
          · exact absurd h.symm hek
          · exact h
        · exact Or.inr
      simp only [hek, if_false, List.map_cons, List.sum_cons, ih', hiff]
      abel
/-- The Go statement `m[k] += v` moves the sum of all values by `v`. -/
theorem sum_mapAddAt {β : Type} [AddCommMonoid β] (m : List (String × β)) (k : String)
    (v : β) (hnd : (m.map (fun e => e.1)).Nodup) :
    ((mapAddAt m k v).map (fun e => e.2)).sum = (m.map (fun e => e.2)).sum + v := by
  rw [mapAddAt_eq]
  by_cases h : k ∈ m.map (fun e => e.1)
  · simp only [h, if_true]
    rw [sum_bumpAt k v m hnd]
    simp [h]
  · simp only [h, if_false]
    have hnd' : ((m ++ [(k, (0 : β))]).map (fun e => e.1)).Nodup := by
      rw [List.map_append, List.nodup_append]
      refine ⟨hnd, by simp, ?_⟩
      intro a ha hb
      have : a = k := by simpa using hb
      exact h (this ▸ ha)
    rw [sum_bumpAt k v _ hnd']
    simp

/-- In a map without repeated keys the value at the key of an entry is the
entry's value. -/
theorem valueAt_of_mem {β : Type} [AddCommMonoid β] (m : List (String × β))
    (hnd : (m.map (fun e => e.1)).Nodup) (e : String × β) (he : e ∈ m) :
    valueAt m e.1 = e.2 := by
  induction m with
  | nil => cases he
  | cons a m ih =>
    rw [List.map_cons, List.nodup_cons] at hnd
    rw [valueAt_cons]
    rcases List.mem_cons.mp he with h | h
    · subst h
      rw [valueAt_absent m e.1 hnd.1]
      simp
    · have hne : a.1 ≠ e.1 := by
        intro heq
        exact hnd.1 (heq ▸ List.mem_map_of_mem (fun e => e.1) h)
      rw [ih hnd.2 h]
      simp [hne]

theorem accumulate_nodup {β : Type} [AddCommMonoid β] (kvs : List (String × β)) :
    ∀ m : List (String × β), (m.map (fun e => e.1)).Nodup →
      ((accumulate kvs m).map (fun e => e.1)).Nodup := by
  induction kvs with
  | nil => intro m h; exact h
  | cons kv kvs ih =>
    intro m h
    exact ih _ (mapAddAt_nodup m kv.1 kv.2 h)

/-- The value a key holds after accumulation is what it held before plus the sum
of the values added at that key. -/
theorem accumulate_valueAt {β : Type} [AddCommMonoid β] (kvs : List (String × β)) :
    ∀ (m : List (String × β)) (k : String), (m.map (fun e => e.1)).Nodup →
      valueAt (accumulate kvs m) k
        = valueAt m k + ((kvs.filter (fun e => e.1 = k)).map (fun e => e.2)).sum := by
  induction kvs with
  | nil => intro m k _; simp [accumulate]
  | cons kv kvs ih =>
    intro m k hnd
    have hstep : accumulate (kv :: kvs) m = accumulate kvs (mapAddAt m kv.1 kv.2) := rfl
    rw [hstep, ih _ k (mapAddAt_nodup m kv.1 kv.2 hnd), valueAt_mapAddAt m kv.1 kv.2 hnd]
    by_cases hk : kv.1 = k
    · have hk' : k = kv.1 := hk.symm
      simp only [hk', if_true, List.filter_cons, decide_True, List.map_cons, List.sum_cons]
      abel
    · have hk' : ¬ k = kv.1 := fun h => hk h.symm
      simp only [hk', if_false, add_zero, List.filter_cons, hk, decide_False]
      simp

/-- The values of the map after accumulation sum to what they summed to before
plus the sum of all values added. -/
theorem accumulate_sum {β : Type} [AddCommMonoid β] (kvs : List (String × β)) :
    ∀ (m : List (String × β)), (m.map (fun e => e.1)).Nodup →
      ((accumulate kvs m).map (fun e => e.2)).sum
        = (m.map (fun e => e.2)).sum + (kvs.map (fun e => e.2)).sum := by
  induction kvs with
  | nil => intro m _; simp [accumulate]
  | cons kv kvs ih =>
    intro m hnd
    have hstep : accumulate (kv :: kvs) m = accumulate kvs (mapAddAt m kv.1 kv.2) := rfl
    rw [hstep, ih _ (mapAddAt_nodup m kv.1 kv.2 hnd), sum_mapAddAt m kv.1 kv.2 hnd]
    simp only [List.map_cons, List.sum_cons]
    abel

theorem revenueStep_eq (lib : RFC3339Lib) (period : String) (m : List (String × ℚ))
    (inv : Invoice) :
    revenueStep lib period m inv
      = match revenueEntry lib period inv with
        | none => m
        | some kv => mapAddAt m kv.1 kv.2 := by
  unfold revenueStep revenueEntry bucketOf
  by_cases h : inv.CreatedAt = ""
  · simp [h]
  · simp only [h, if_false]
    cases lib.Parse inv.CreatedAt <;> rfl

theorem revenue_fold_eq (lib : RFC3339Lib) (period : String) (invoices : List Invoice) :
    ∀ m : List (String × ℚ),
      invoices.foldl (revenueStep lib period) m
        = accumulate (invoices.filterMap (revenueEntry lib period)) m := by
  induction invoices with
  | nil => intro m; rfl
  | cons inv rest ih =>
    intro m
    rw [List.foldl_cons, ih, revenueStep_eq]
    cases h : revenueEntry lib period inv with
    | none => simp [List.filterMap_cons, h]
    | some kv => simp [List.filterMap_cons, h, accumulate]

theorem revenue_entries_at (lib : RFC3339Lib) (period : String) (invoices : List Invoice)
    (k : String) :
    (((invoices.filterMap (revenueEntry lib period)).filter (fun e => e.1 = k)).map
        (fun e => e.2)).sum
      = ((invoices.filter (fun inv => bucketOf lib period inv = some k)).map
          (fun inv => inv.Total)).sum := by
  induction invoices with
  | nil => rfl
  | cons inv rest ih =>
    unfold revenueEntry at ih ⊢
    cases hb : bucketOf lib period inv with
    | none => simp [List.filterMap_cons, List.filter_cons, hb, ih]
    | some k' =>
      by_cases hk : k' = k
      · simp [List.filterMap_cons, List.filter_cons, hb, hk, ih]
      · simp [List.filterMap_cons, List.filter_cons, hb, hk, ih]

theorem revenue_entries_sum (lib : RFC3339Lib) (period : String) (invoices : List Invoice) :
    ((invoices.filterMap (revenueEntry lib period)).map (fun e => e.2)).sum
      = ((invoices.filter (fun inv => (bucketOf lib period inv).isSome)).map
          (fun inv => inv.Total)).sum := by
  induction invoices with
  | nil => rfl
  | cons inv rest ih =>
    unfold revenueEntry at ih ⊢
    cases hb : bucketOf lib period inv with
    | none => simp [List.filterMap_cons, List.filter_cons, hb, ih]
    | some k' => simp [List.filterMap_cons, List.filter_cons, hb, ih]

/-- What `GetRevenueByPeriod` returns when the select succeeds: the entries of
the accumulated map in the order of the walk. -/
theorem revenue_result (lib : RFC3339Lib)
    (mapOrder : List (String × ℚ) → List (String × ℚ)) (rt : Remote) (s : Store)
    (period : String) (limit : Int) (hrt : rt.selectFails = false) :
    AnalyticsRepository.GetRevenueByPeriod lib mapOrder rt s period limit
      = .ok ((mapOrder (accumulate
          ((fetchPaidInvoices rt s limit).filterMap (revenueEntry lib period)) [])).map
            (fun e => { Period := e.1, Amount := e.2 })) := by
  unfold AnalyticsRepository.GetRevenueByPeriod
  simp only [hrt, Bool.false_eq_true, if_false, revenue_fold_eq]

/-- A permutation of a two-element list is the list or its reverse. -/
theorem perm_pair_cases {α : Type} {a b : α} {l : List α} (h : l.Perm [a, b]) :
    l = [a, b] ∨ l = [b, a] := by
  have hlen := h.length_eq
  match l, hlen with
  | [x, y], _ =>
    have hx : x ∈ [a, b] := h.subset (by simp)
    have hy : y ∈ [a, b] := h.subset (by simp)
    have ha : a ∈ [x, y] := h.symm.subset (by simp)
    have hb : b ∈ [x, y] := h.symm.subset (by simp)
    simp only [List.mem_cons, List.mem_singleton, List.not_mem_nil, or_false] at hx hy ha hb
    rcases hx with rfl | rfl <;> rcases hy with rfl | rfl <;> simp_all

/-- On `exLimitStore` the paid invoices of January 2026 total 150. -/
theorem exLimit_total : paidTotalInBucket exLib "monthly" exLimitStore "2026-01" = 150 := by
  have h1 : bucketOf exLib "monthly"
      { invoiceOf "i-1" 100 100 "paid" with CreatedAt := "2026-01-02T10:00:00Z" }
        = some "2026-01" := by decide
  have h2 : bucketOf exLib "monthly"
      { invoiceOf "i-2" 50 50 "paid" with CreatedAt := "2026-01-05T09:00:00Z" }
        = some "2026-01" := by decide
  simp only [paidTotalInBucket, exLimitStore, emptyStore, List.filter, h1, h2]
  norm_num [invoiceOf]

/-- C21. The limit of `GetRevenueByPeriod` is applied to the fetched invoices
before grouping: on a store with two paid invoices of January 2026 (totals 100
and 50), period `monthly` and limit 1, whatever the order of the fetched rows
and of the map walk, the only record returned is the bucket `2026-01` with an
amount strictly less than the sum of the totals of all paid invoices created in
that bucket. -/
theorem revenue_limit_undercounts
    (mapOrder : List (String × ℚ) → List (String × ℚ)) (rt : Remote)
    (horder : ∀ l, (mapOrder l).Perm l) (hrt : rt.selectFails = false)
    (hsorted : ∀ l, (rt.orderByCreatedAt l).Perm l) :
    ∃ r, AnalyticsRepository.GetRevenueByPeriod exLib mapOrder rt exLimitStore "monthly" 1
          = .ok [r] ∧
      r.Period = "2026-01" ∧
      r.Amount < paidTotalInBucket exLib "monthly" exLimitStore "2026-01" := by
  rw [revenue_result exLib mapOrder rt exLimitStore "monthly" 1 hrt, exLimit_total]
  have hfilter : exLimitStore.invoices.filter (fun r => r.PaymentStatus = "paid")
      = [{ invoiceOf "i-1" 100 100 "paid" with CreatedAt := "2026-01-02T10:00:00Z" },
         { invoiceOf "i-2" 50 50 "paid" with CreatedAt := "2026-01-05T09:00:00Z" }] := by
    decide
  have h1 : revenueEntry exLib "monthly"
      { invoiceOf "i-1" 100 100 "paid" with CreatedAt := "2026-01-02T10:00:00Z" }
        = some ("2026-01", 100) := by decide
  have h2 : revenueEntry exLib "monthly"
      { invoiceOf "i-2" 50 50 "paid" with CreatedAt := "2026-01-05T09:00:00Z" }
        = some ("2026-01", 50) := by decide
  have hacc : ∀ v : ℚ, accumulate [("2026-01", v)] [] = [("2026-01", v)] := by
    intro v
    simp [accumulate, mapAddAt]
  have hone : ∀ v : ℚ, mapOrder [("2026-01", v)] = [("2026-01", v)] :=
    fun v => List.perm_singleton.mp (horder _)
  unfold fetchPaidInvoices
  rw [hfilter]
  rcases perm_pair_cases (hsorted _) with h | h
  · refine ⟨{ Period := "2026-01", Amount := 100 }, ?_, rfl, by norm_num⟩
    rw [h]
    simp only [Int.toNat_one, List.take_succ_cons, List.take_zero, List.filterMap_cons, h1,
      List.filterMap_nil, hacc, hone, List.map_cons, List.map_nil]
  · refine ⟨{ Period := "2026-01", Amount := 50 }, ?_, rfl, by norm_num⟩
    rw [h]
    simp only [Int.toNat_one, List.take_succ_cons, List.take_zero, List.filterMap_cons, h2,
      List.filterMap_nil, hacc, hone, List.map_cons, List.map_nil]

/-- C21 with the store's own ordering and the map walked in insertion order. -/
theorem revenue_limit_undercounts_witness :
    ∃ r, AnalyticsRepository.GetRevenueByPeriod exLib id exRemote exLimitStore "monthly" 1
          = .ok [r] ∧
      r.Period = "2026-01" ∧
      r.Amount < paidTotalInBucket exLib "monthly" exLimitStore "2026-01" :=
  revenue_limit_undercounts id exRemote (fun l => List.Perm.refl l) rfl
    (fun l => List.perm_insertionSort _ l)

/-- C22. On a store whose only invoice has payment status `unpaid`, a due date
in the past and an open balance, `AnalyticsRepository.GetDashboardStats` reports
one overdue invoice with the open balance as overdue amount, while
`db.Client.GetDashboardStats` reports none and the amount 0: the two differ in
both overdue figures. -/
theorem dashboard_overdue_differs (tl : TimeLib) (rt : Remote) (inv : Invoice)
    (dueDate : Int) (hrt : rt.selectFails = false)
    (hstatus : inv.PaymentStatus = "unpaid") (hdue : inv.DueDate ≠ "")
    (hparse : tl.ParseDate inv.DueDate = some dueDate) (hpast : dueDate < tl.Now)
    (hopen : inv.Total ≠ inv.PaidAmount) :
    ∃ a b,
      AnalyticsRepository.GetDashboardStats tl rt { emptyStore with invoices := [inv] } ""
        = .ok a ∧
      db.Client.GetDashboardStats rt { emptyStore with invoices := [inv] } "" = .ok b ∧
      a.OverdueAmount = inv.Total - inv.PaidAmount ∧ b.OverdueAmount = 0 ∧
      a.OverdueInvoices = 1 ∧ b.OverdueInvoices = 0 ∧
      a.OverdueAmount ≠ b.OverdueAmount ∧ a.OverdueInvoices ≠ b.OverdueInvoices := by
  have hsel : selectByCurrency { emptyStore with invoices := [inv] } "" = [inv] := by
    simp [selectByCurrency]
  have hne : inv.Total - inv.PaidAmount ≠ 0 := sub_ne_zero.mpr hopen
  refine ⟨analyticsStep tl
      { TotalRevenue := 0, PaidAmount := 0, UnpaidAmount := 0, OverdueAmount := 0,
        TotalInvoices := 0, PaidInvoices := 0, UnpaidInvoices := 0, OverdueInvoices := 0 } inv,
    db.dashboardStep
      { TotalRevenue := 0, PaidAmount := 0, UnpaidAmount := 0, OverdueAmount := 0,
        TotalInvoices := 0, PaidInvoices := 0, UnpaidInvoices := 0, OverdueInvoices := 0,
        PartiallyPaid := 0, Currency := "" } inv, ?_, ?_, ?_, ?_, ?_, ?_, ?_, ?_⟩
  · unfold AnalyticsRepository.GetDashboardStats
    simp only [hrt, Bool.false_eq_true, if_false, hsel, List.foldl_cons, List.foldl_nil]
  · unfold db.Client.GetDashboardStats
    simp only [hrt, Bool.false_eq_true, if_false, hsel, List.foldl_cons, List.foldl_nil]
  · simp [analyticsStep, analyticsSwitch, analyticsOverdue, hstatus, hdue, hparse, hpast]
  · simp [db.dashboardStep, hstatus]
  · simp [analyticsStep, analyticsSwitch, analyticsOverdue, hstatus, hdue, hparse, hpast]
  · simp [db.dashboardStep, hstatus]
  · simp [analyticsStep, analyticsSwitch, analyticsOverdue, db.dashboardStep, hstatus, hdue,
      hparse, hpast, hne]
  · simp [analyticsStep, analyticsSwitch, analyticsOverdue, db.dashboardStep, hstatus, hdue,
      hparse, hpast]

/-- C22 on an unpaid invoice of total 100 that was due before now. -/
theorem dashboard_overdue_differs_witness :
    ∃ a b,
      AnalyticsRepository.GetDashboardStats exPastDue exRemote
        { emptyStore with invoices := [exOverdueInvoice] } "" = .ok a ∧
      db.Client.GetDashboardStats exRemote
        { emptyStore with invoices := [exOverdueInvoice] } "" = .ok b ∧
      a.OverdueAmount = exOverdueInvoice.Total - exOverdueInvoice.PaidAmount ∧
      b.OverdueAmount = 0 ∧
      a.OverdueInvoices = 1 ∧ b.OverdueInvoices = 0 ∧
      a.OverdueAmount ≠ b.OverdueAmount ∧ a.OverdueInvoices ≠ b.OverdueInvoices :=
  dashboard_overdue_differs exPastDue exRemote exOverdueInvoice 0 rfl rfl (by decide) rfl
    (by decide) (by decide)

/-- Some slice `s[i:i+len(sub)]` with `0 ≤ i ≤ len(s)-len(sub)` equals `sub`
exactly when `sub` occurs in `s` as a contiguous block. -/
theorem slices_any_iff_contained {α : Type} [DecidableEq α] (s sub : List α) :
    (List.range (((s.length : Int) - (sub.length : Int)) + 1).toNat).any
        (fun i => decide ((s.drop i).take sub.length = sub)) = true
      ↔ sub <:+: s := by
  rw [List.any_eq_true]
  constructor
  · rintro ⟨i, _, hi⟩
    have hi' : (s.drop i).take sub.length = sub := by simpa using hi
    have hs : s.take i ++ ((s.drop i).take sub.length ++ (s.drop i).drop sub.length) = s := by
      rw [List.take_append_drop, List.take_append_drop]
    rw [hi'] at hs
    exact ⟨s.take i, (s.drop i).drop sub.length, by rw [List.append_assoc]; exact hs⟩
  · rintro ⟨a, b, rfl⟩
    refine ⟨a.length, ?_, ?_⟩
    · rw [List.mem_range]
      simp only [List.length_append, Nat.cast_add]
      omega
    · simp

/-- What `containsIgnoreCase` computes: occurrence of the bytes of `substr` in
the bytes of `str`, compared as they are. -/
theorem containsIgnoreCase_iff (str substr : String) :
    containsIgnoreCase str substr = true ↔ goBytes substr <:+: goBytes str := by
  unfold containsIgnoreCase stringContains
  simp only [Bool.and_eq_true, Bool.or_eq_true, decide_eq_true_eq]
  rw [slices_any_iff_contained]
  constructor
  · rintro ⟨_, (h | h) | h⟩
    · rw [h]
    · rw [List.length_eq_zero.mp h]
      exact List.nil_infix
    · exact h
  · intro h
    exact ⟨h.length_le, Or.inr h⟩

/-- C25. `containsIgnoreCase` is true exactly when the bytes of `substr` occur
in the bytes of `str` as they are, letter case included: `containsIgnoreCase
"ABC" "abc"` is false (while `"ABC"` in `"ABC"` is found), and `FilterInvoices`
with the search term `acme` returns no row for an invoice whose notes read `ACME
order`, which the term `ACME` finds. -/
theorem contains_ignore_case_is_case_sensitive :
    (∀ str substr, containsIgnoreCase str substr = true ↔ goBytes substr <:+: goBytes str) ∧
    containsIgnoreCase "ABC" "abc" = false ∧
    containsIgnoreCase "ABC" "ABC" = true ∧
    db.Client.FilterInvoices exCreatedAtLe exRemote exSearchStore "" "acme" "" "" = .ok [] ∧
    db.Client.FilterInvoices exCreatedAtLe exRemote exSearchStore "" "ACME" "" ""
      = .ok exSearchStore.invoices := by
  exact ⟨containsIgnoreCase_iff, by decide, by decide, rfl, rfl⟩

/-- The grouping loop of the monolith is cut short exactly when some invoice has
a `created_at` of fewer than 10 bytes. -/
theorem revenueByPeriodLoop_none (invoices : List Invoice) :
    ∀ revenueMap, db.revenueByPeriodLoop invoices revenueMap = none
      ↔ ∃ inv ∈ invoices, (goBytes inv.CreatedAt).length < 10 := by
  induction invoices with
  | nil => intro m; simp [db.revenueByPeriodLoop]
  | cons inv rest ih =>
    intro m
    unfold db.revenueByPeriodLoop
    by_cases h : (goBytes inv.CreatedAt).length < 10
    · simp [h]
    · simp only [h, if_false, ih, List.mem_cons, exists_eq_or_imp, false_or]

/-- C30. When the select succeeds, `db.Client.GetRevenueByPeriod` returns a result
if and only if the `created_at` of every fetched invoice has at least 10 bytes,
and it panics on the slice `created_at[:10]` if and only if some fetched invoice
has a shorter (for instance empty) `created_at`. -/
theorem monolith_revenue_completes_iff
    (mapOrder : List db.RevenueByPeriod → List db.RevenueByPeriod) (rt : Remote) (s : Store)
    (period : String) (limit : Int) (hrt : rt.selectFails = false) :
    ((∃ res, db.Client.GetRevenueByPeriod mapOrder rt s period limit = .returned (.ok res))
      ↔ ∀ inv ∈ s.invoices, 10 ≤ (goBytes inv.CreatedAt).length) ∧
    ((∃ msg, db.Client.GetRevenueByPeriod mapOrder rt s period limit = .panicked msg)
      ↔ ∃ inv ∈ s.invoices, (goBytes inv.CreatedAt).length < 10) := by
  have hnone := revenueByPeriodLoop_none s.invoices []
  unfold db.Client.GetRevenueByPeriod
  simp only [hrt, Bool.false_eq_true, if_false]
  cases hloop : db.revenueByPeriodLoop s.invoices [] with
  | none =>
    have hshort := hnone.mp hloop
    refine ⟨⟨fun h => ?_, fun h => ?_⟩, ⟨fun _ => hshort, fun _ => ⟨_, rfl⟩⟩⟩
    · obtain ⟨res, hres⟩ := h
      cases hres
    · obtain ⟨inv, hinv, hlt⟩ := hshort
      exact absurd (h inv hinv) (by omega)
  | some m =>
    have hall : ¬ ∃ inv ∈ s.invoices, (goBytes inv.CreatedAt).length < 10 := by
      rw [← hnone, hloop]
      simp
    refine ⟨⟨fun _ inv hinv => ?_, fun _ => ⟨_, rfl⟩⟩, ⟨fun h => ?_, fun h => absurd h hall⟩⟩
    · by_contra hlt
      exact hall ⟨inv, hinv, by omega⟩
    · obtain ⟨msg, hmsg⟩ := h
      cases hmsg

/-- C30 on `exRevenueStore`, whose third invoice has an empty `created_at`. -/
theorem monolith_revenue_completes_iff_witness :
    ((∃ res, db.Client.GetRevenueByPeriod id exRemote exRevenueStore "daily" 30
        = .returned (.ok res))
      ↔ ∀ inv ∈ exRevenueStore.invoices, 10 ≤ (goBytes inv.CreatedAt).length) ∧
    ((∃ msg, db.Client.GetRevenueByPeriod id exRemote exRevenueStore "daily" 30
        = .panicked msg)
      ↔ ∃ inv ∈ exRevenueStore.invoices, (goBytes inv.CreatedAt).length < 10) :=
  monolith_revenue_completes_iff id exRemote exRevenueStore "daily" 30 rfl

/-- C24. `db.Client.GenerateInvoiceNumber` returns `INV-2026-` followed by the
number of all stored invoices plus one, padded to four digits: the year is the
constant 2026 whatever the current year, and the invoices of other years are
counted too. -/
theorem monolith_number_fixed_year (rt : Remote) (s : Store) (hrt : rt.selectFails = false) :
    db.Client.GenerateInvoiceNumber rt s
      = .ok ("INV-2026-" ++ sprintf04d ((s.invoices.length : Int) + 1)) := by
  unfold db.Client.GenerateInvoiceNumber
  simp only [hrt, Bool.false_eq_true, if_false]

/-- C24 at a store whose only invoice is numbered `INV-2025-0001`: the monolith
returns `INV-2026-0002`, where the numbering rule calls for `INV-2026-0001` in
2026 (as `InvoiceRepository.generateInvoiceNumber` returns) and for
`INV-2027-0001` in 2027. -/
theorem monolith_number_fixed_year_witness :
    db.Client.GenerateInvoiceNumber exRemote exOldYearStore = .ok "INV-2026-0002" ∧
    numberForYear 2026 exOldYearStore = "INV-2026-0001" ∧
    InvoiceRepository.generateInvoiceNumber exClock exRemote exOldYearStore
      = .ok (numberForYear 2026 exOldYearStore) ∧
    numberForYear 2027 exOldYearStore = "INV-2027-0001" :=
  ⟨(monolith_number_fixed_year exRemote exOldYearStore rfl).trans rfl, by decide, rfl,
    by decide⟩

/-- A run of `PaymentHandler.Create` in which every remote call succeeds. -/
theorem handler_run_ok (rt : Remote) (s : Store) (req : PaymentCreate) (inv : Invoice)
    (hins : rt.insertFails = false) (hupd : rt.updateFails = false)
    (hid : req.InvoiceID ≠ "") (hamount : 0 < req.Amount) (hmethod : req.PaymentMethod ≠ "")
    (hget : PaymentRepository.GetInvoice rt s req.InvoiceID = .ok inv) :
    PaymentHandler.Create rt s (some req)
      = (utils.Created (paymentRow rt req),
          { s with
            payments := s.payments ++ [paymentRow rt req],
            invoices := s.invoices.map (setPaymentFields req.InvoiceID
              (if inv.PaidAmount + req.Amount ≥ inv.Total then inv.Total
                else inv.PaidAmount + req.Amount)
              (if inv.PaidAmount + req.Amount ≥ inv.Total then "paid" else "partially_paid")
              req.PaymentDate) }) := by
  have hvalid : ¬ (req.InvoiceID = "" ∨ req.Amount ≤ 0 ∨ req.PaymentMethod = "") := by
    rintro (h | h | h)
    · exact hid h
    · exact absurd hamount (not_lt.mpr h)
    · exact hmethod h
  unfold PaymentHandler.Create
  simp only [hvalid, if_false, hget]
  unfold PaymentRepository.Create PaymentRepository.UpdateInvoice
  simp [hins, hupd]

/-- After the update by id, the invoice found under the id is the one found
before with the three payment fields set. -/
theorem GetInvoice_after_update (rt rt2 : Remote) (s : Store) (id : String) (inv : Invoice)
    (pa : ℚ) (ps pd : String) (payments : List Payment)
    (hsel : rt2.selectFails = false)
    (hget : PaymentRepository.GetInvoice rt s id = .ok inv) :
    PaymentRepository.GetInvoice rt2
        { s with payments := payments,
                 invoices := s.invoices.map (setPaymentFields id pa ps pd) } id
      = .ok { inv with PaidAmount := pa, PaymentStatus := ps, PaymentDate := pd } := by
  unfold PaymentRepository.GetInvoice at hget ⊢
  by_cases h1 : rt.selectFails = true
  · simp [h1] at hget
  · simp only [h1, hsel, Bool.false_eq_true, if_false] at hget ⊢
    have hfm : (s.invoices.map (setPaymentFields id pa ps pd)).filter (fun r => r.ID = id)
        = (s.invoices.filter (fun r => r.ID = id)).map (setPaymentFields id pa ps pd) := by
      rw [List.filter_map]
      congr 1
      apply List.filter_congr
      intro x _
      simp [setPaymentFields_ID]
    rw [hfm]
    cases hf : s.invoices.filter (fun r => r.ID = id) with
    | nil => simp [hf] at hget
    | cons r rest =>
      simp only [hf] at hget
      have hr : r = inv := by
        injection hget
      have hrid : r.ID = id := by
        have hmem : r ∈ s.invoices.filter (fun r => r.ID = id) := by
          rw [hf]; exact List.mem_cons_self _ _
        simpa using (List.mem_filter.mp hmem).2
      subst hr
      simp [setPaymentFields, hrid]

/-- Capping twice is capping the sum once, for a second amount that is not
negative. -/
theorem cap_twice (p a b t : ℚ) (hb : 0 ≤ b) :
    (if (if p + a ≥ t then t else p + a) + b ≥ t then t
      else (if p + a ≥ t then t else p + a) + b) = min (p + a + b) t ∧
    ((if p + a ≥ t then t else p + a) + b ≥ t ↔ p + a + b ≥ t) := by
  by_cases h1 : p + a ≥ t
  · have h2 : t + b ≥ t := by linarith
    have h3 : p + a + b ≥ t := by linarith
    simp only [h1, if_true, h2, h3, iff_true, and_true]
    exact (min_eq_right h3).symm
  · simp only [h1, if_false, iff_self, and_true]
    by_cases h2 : p + a + b ≥ t
    · simp only [h2, if_true]
      exact (min_eq_right h2).symm
    · simp only [h2, if_false]
      exact (min_eq_left (le_of_lt (not_le.mp h2))).symm

/-- An inserted payment row adds its amount to the recorded amount of its
invoice. -/
theorem recordedAmount_append (s : Store) (invoices : List Invoice) (p : Payment) :
    recordedAmount { s with payments := s.payments ++ [p], invoices := invoices } p.InvoiceID
      = recordedAmount s p.InvoiceID + p.Amount := by
  simp [recordedAmount, List.filter_append, List.filter_cons]

/-- C28 (as amended). For an invoice with `paid_amount = total` and payment
status `paid` and a payment of amount `> 0`, a run of `PaymentHandler.Create`
whose remote calls succeed answers 201 with the payment row, appends that row to
the payments, and leaves the invoice's `paid_amount` and `payment_status`
(`paid`) as they were; the recorded payment amounts of the invoice grow by the
amount, so they exceed `paid_amount` once they had reached it. -/
theorem overpayment_absorbed (rt : Remote) (s : Store) (req : PaymentCreate) (inv : Invoice)
    (h : rt.allSucceed)
    (hid : req.InvoiceID ≠ "") (hamount : 0 < req.Amount) (hmethod : req.PaymentMethod ≠ "")
    (hget : PaymentRepository.GetInvoice rt s req.InvoiceID = .ok inv)
    (hfull : inv.PaidAmount = inv.Total) (hpaid : inv.PaymentStatus = "paid") :
    (PaymentHandler.Create rt s (some req)).1 = utils.Created (paymentRow rt req) ∧
    (PaymentHandler.Create rt s (some req)).1.StatusCode = 201 ∧
    (PaymentHandler.Create rt s (some req)).2.payments = s.payments ++ [paymentRow rt req] ∧
    recordedAmount (PaymentHandler.Create rt s (some req)).2 req.InvoiceID
      = recordedAmount s req.InvoiceID + req.Amount ∧
    ∃ after,
      PaymentRepository.GetInvoice rt (PaymentHandler.Create rt s (some req)).2 req.InvoiceID
        = .ok after ∧
      after.PaidAmount = inv.PaidAmount ∧ after.PaymentStatus = inv.PaymentStatus ∧
      after.PaymentStatus = "paid" ∧
      (inv.PaidAmount ≤ recordedAmount s req.InvoiceID →
        after.PaidAmount < recordedAmount (PaymentHandler.Create rt s (some req)).2
          req.InvoiceID) := by
  obtain ⟨hs, hi, hu⟩ := h
  have hge : inv.PaidAmount + req.Amount ≥ inv.Total := by
    rw [hfull]; linarith
  have hrun := handler_run_ok rt s req inv hi hu hid hamount hmethod hget
  simp only [hge, if_true] at hrun
  have hfound := GetInvoice_after_update rt rt s req.InvoiceID inv inv.Total "paid"
    req.PaymentDate (s.payments ++ [paymentRow rt req]) hs hget
  have hrec := recordedAmount_append s
    (s.invoices.map (setPaymentFields req.InvoiceID inv.Total "paid" req.PaymentDate))
    (paymentRow rt req)
  have hrow : (paymentRow rt req).InvoiceID = req.InvoiceID := rfl
  have hrowa : (paymentRow rt req).Amount = req.Amount := rfl
  rw [hrow, hrowa] at hrec
  rw [hrun]
  refine ⟨rfl, rfl, rfl, hrec, _, hfound, hfull.symm, hpaid.symm, rfl, ?_⟩
  intro hle
  show inv.Total < _
  rw [hrec, ← hfull]
  linarith

/-- C28 on a paid invoice of total 100 with one payment of 100, and a further
payment of 5. -/
theorem overpayment_absorbed_witness :
    (PaymentHandler.Create exRemote exPaidStore (some (paymentOf "i-1" 5))).1
      = utils.Created (paymentRow exRemote (paymentOf "i-1" 5)) ∧
    (PaymentHandler.Create exRemote exPaidStore (some (paymentOf "i-1" 5))).1.StatusCode = 201 ∧
    (PaymentHandler.Create exRemote exPaidStore (some (paymentOf "i-1" 5))).2.payments
      = exPaidStore.payments ++ [paymentRow exRemote (paymentOf "i-1" 5)] ∧
    recordedAmount (PaymentHandler.Create exRemote exPaidStore (some (paymentOf "i-1" 5))).2
        (paymentOf "i-1" 5).InvoiceID
      = recordedAmount exPaidStore (paymentOf "i-1" 5).InvoiceID + (paymentOf "i-1" 5).Amount ∧
    ∃ after,
      PaymentRepository.GetInvoice exRemote
          (PaymentHandler.Create exRemote exPaidStore (some (paymentOf "i-1" 5))).2
          (paymentOf "i-1" 5).InvoiceID = .ok after ∧
      after.PaidAmount = (invoiceOf "i-1" 100 100 "paid").PaidAmount ∧
      after.PaymentStatus = (invoiceOf "i-1" 100 100 "paid").PaymentStatus ∧
      after.PaymentStatus = "paid" ∧
      ((invoiceOf "i-1" 100 100 "paid").PaidAmount
          ≤ recordedAmount exPaidStore (paymentOf "i-1" 5).InvoiceID →
        after.PaidAmount
          < recordedAmount (PaymentHandler.Create exRemote exPaidStore
              (some (paymentOf "i-1" 5))).2 (paymentOf "i-1" 5).InvoiceID) :=
  overpayment_absorbed exRemote exPaidStore (paymentOf "i-1" 5) (invoiceOf "i-1" 100 100 "paid")
    ⟨rfl, rfl, rfl⟩ (by decide) (by decide) (by decide) rfl rfl rfl

/-- C28 as stated fails for an invoice that has `paid_amount = total` without
being `paid`: the invoice created with discount 10 on a subtotal of 10 has total
0 = paid amount and status `unpaid`; a payment of 5 is recorded (201) and the
status becomes `paid`, so it is not left unchanged. -/
theorem overpayment_sets_status_paid :
    ∃ inv after,
      PaymentRepository.GetInvoice exRemoteB
          (InvoiceRepository.Create exClock exRemote emptyStore "c-1" exOneItem 0 10
            "" "" "" "").2 "n-1" = .ok inv ∧
      inv.PaidAmount = inv.Total ∧ inv.PaymentStatus = "unpaid" ∧
      0 < (paymentOf "n-1" 5).Amount ∧
      (PaymentHandler.Create exRemoteB
          (InvoiceRepository.Create exClock exRemote emptyStore "c-1" exOneItem 0 10
            "" "" "" "").2 (some (paymentOf "n-1" 5))).1.StatusCode = 201 ∧
      PaymentRepository.GetInvoice exRemoteB
          (PaymentHandler.Create exRemoteB
            (InvoiceRepository.Create exClock exRemote emptyStore "c-1" exOneItem 0 10
              "" "" "" "").2 (some (paymentOf "n-1" 5))).2 "n-1" = .ok after ∧
      after.PaymentStatus = "paid" ∧ after.PaymentStatus ≠ inv.PaymentStatus := by
  rw [create_discounted]
  have hget : PaymentRepository.GetInvoice exRemoteB
      { emptyStore with invoices := [exDiscounted 10] } (paymentOf "n-1" 5).InvoiceID
      = .ok (exDiscounted 10) := rfl
  have hrun := handler_run_ok exRemoteB { emptyStore with invoices := [exDiscounted 10] }
    (paymentOf "n-1" 5) (exDiscounted 10) rfl rfl (by decide) (by decide) (by decide) hget
  have hge : (exDiscounted 10).PaidAmount + (paymentOf "n-1" 5).Amount
      ≥ (exDiscounted 10).Total := by
    norm_num [exDiscounted, paymentOf]
  simp only [hge, if_true] at hrun
  have hfound := GetInvoice_after_update exRemoteB exRemoteB
    { emptyStore with invoices := [exDiscounted 10] }
    (paymentOf "n-1" 5).InvoiceID (exDiscounted 10)
    (exDiscounted 10).Total "paid" (paymentOf "n-1" 5).PaymentDate
    (emptyStore.payments ++ [paymentRow exRemoteB (paymentOf "n-1" 5)]) rfl hget
  have hfull : (exDiscounted 10).PaidAmount = (exDiscounted 10).Total := by
    norm_num [exDiscounted]
  rw [hrun]
  exact ⟨_, _, hget, hfull, rfl, by decide, rfl, hfound, rfl, by decide⟩

/-- Deleting the one row with a given id from rows with distinct ids lowers the
number of rows that satisfy `p` by one when that row satisfies `p`. -/
theorem filter_length_after_delete (p : Invoice → Bool) (d : Invoice) :
    ∀ l : List Invoice, (l.map (fun r => r.ID)).Nodup → d ∈ l → p d = true →
      ((l.filter (fun r => r.ID ≠ d.ID)).filter p).length + 1 = (l.filter p).length := by
  intro l
  induction l with
  | nil => intro _ hd; simp at hd
  | cons x xs ih =>
    intro hnd hd hp
    rw [List.map_cons, List.nodup_cons] at hnd
    obtain ⟨hx, hxs⟩ := hnd
    rcases List.mem_cons.mp hd with hdx | hdxs
    · subst hdx
      have hrest : ∀ r ∈ xs, r.ID ≠ d.ID := by
        intro r hr heq
        exact hx (List.mem_map.mpr ⟨r, hr, heq⟩)
      have hkeep := filter_id_ne_self xs (fun r => r.ID) d.ID hrest
      simp only [List.filter_cons, ne_eq, not_true_eq_false, decide_False, hp, if_true]
      simp only [Bool.false_eq_true, if_false]
      have hkeep2 : xs.filter (fun r => decide ¬ r.ID = d.ID) = xs := hkeep
      rw [hkeep2]
      rfl
    · have hne : x.ID ≠ d.ID := by
        intro heq
        exact hx (List.mem_map.mpr ⟨d, hdxs, heq.symm⟩)
      have ih2 := ih hxs hdxs hp
      simp only [ne_eq] at ih2
      simp only [List.filter_cons, ne_eq, hne, not_false_eq_true, decide_True, if_true]
      by_cases hpx : p x = true
      · simp only [hpx, if_true, List.length_cons]
        omega
      · simp only [hpx, if_false]
        exact ih2

/-- Two runs of `InvoiceRepository.Create` on the empty store in 2026 leave
`exTwoStore`: the invoices numbered 0001 and 0002. -/
theorem two_creates_example :
    (InvoiceRepository.Create exClock exRemoteB
      (InvoiceRepository.Create exClock exRemote emptyStore "c-1" exOneItem 0 0 "" "" "" "").2
      "c-1" exOneItem 0 0 "" "" "" "").2 = exTwoStore := by
  rw [create_discounted]
  have hn : InvoiceRepository.generateInvoiceNumber exClock exRemoteB
      { emptyStore with invoices := [exDiscounted 0] } = .ok "INV-2026-0002" := rfl
  simp only [InvoiceRepository.Create, hn]
  norm_num [exRemoteB, Remote.healthy, exDiscounted, exOneItem, subtotalStep, exClock,
    emptyStore, exTwoStore, exSecond]

/-- C29. In a store with distinct ids, let `latest` hold the number
`INV-<year>-<n>` with `n` the count of the year's invoices, and let `victim` be
another invoice of that year. After `InvoiceRepository.Delete` of `victim` and
one more `InvoiceRepository.Create` in the same year, all remote calls
succeeding, the new invoice has the invoice number of `latest`, which is still
stored: a collision with no concurrency. -/
theorem sequential_numbering_collides (clk : Clock) (rtD rtC : Remote) (s : Store)
    (victim latest : Invoice) (customerID : String) (items : List Item) (tax discount : ℚ)
    (status notes dueDate currency : String)
    (hdelItems : rtD.deleteItemsFails = false) (hdel : rtD.deleteFails = false)
    (hsel : rtC.selectFails = false) (hins : rtC.insertFails = false)
    (hids : (s.invoices.map (fun r => r.ID)).Nodup)
    (hvictim : victim ∈ s.invoices) (hlatest : latest ∈ s.invoices)
    (hne : latest.ID ≠ victim.ID)
    (hyear : HasPrefix victim.InvoiceNumber ("INV-" ++ sprintfD clk.Year ++ "-") = true)
    (hnum : latest.InvoiceNumber
      = "INV-" ++ sprintfD clk.Year ++ "-"
          ++ sprintf04d (Int.ofNat (countForYear s clk.Year))) :
    (InvoiceRepository.Delete rtD s victim.ID).1 = .ok () ∧
    latest ∈ (InvoiceRepository.Delete rtD s victim.ID).2.invoices ∧
    ∃ row,
      (InvoiceRepository.Create clk rtC (InvoiceRepository.Delete rtD s victim.ID).2
        customerID items tax discount status notes dueDate currency).1 = .ok row ∧
      row.ID = rtC.newID ∧ row.InvoiceNumber = latest.InvoiceNumber ∧
      row ∈ (InvoiceRepository.Create clk rtC (InvoiceRepository.Delete rtD s victim.ID).2
        customerID items tax discount status notes dueDate currency).2.invoices ∧
      latest ∈ (InvoiceRepository.Create clk rtC (InvoiceRepository.Delete rtD s victim.ID).2
        customerID items tax discount status notes dueDate currency).2.invoices := by
  have hdelete : InvoiceRepository.Delete rtD s victim.ID
      = (.ok (), { s with
          invoice_items := s.invoice_items.filter (fun r => r.1 ≠ victim.ID),
          invoices := s.invoices.filter (fun r => r.ID ≠ victim.ID) }) := by
    unfold InvoiceRepository.Delete
    simp only [hdelItems, hdel, Bool.false_eq_true, if_false]
  have hkept : latest ∈ s.invoices.filter (fun r => r.ID ≠ victim.ID) :=
    List.mem_filter.mpr ⟨hlatest, by simpa using hne⟩
  have hcount : countForYear { s with
        invoice_items := s.invoice_items.filter (fun r => r.1 ≠ victim.ID),
        invoices := s.invoices.filter (fun r => r.ID ≠ victim.ID) } clk.Year + 1
      = countForYear s clk.Year := by
    unfold countForYear
    exact filter_length_after_delete
      (fun r => HasPrefix r.InvoiceNumber ("INV-" ++ sprintfD clk.Year ++ "-")) victim
      s.invoices hids hvictim hyear
  rw [hdelete]
  refine ⟨rfl, hkept, ?_⟩
  rw [create_eq_generate_then_insert, generateInvoiceNumber_eq clk rtC _ hsel, hcount]
  obtain ⟨row, hrow1, hrow2, hrow3⟩ := insertNumbered_ok clk rtC
    { s with
      invoice_items := s.invoice_items.filter (fun r => r.1 ≠ victim.ID),
      invoices := s.invoices.filter (fun r => r.ID ≠ victim.ID) }
    customerID items tax discount status notes dueDate currency
    ("INV-" ++ sprintfD clk.Year ++ "-" ++ sprintf04d (Int.ofNat (countForYear s clk.Year)))
    hins
  refine ⟨row, ?_, hrow1, hrow2.trans hnum.symm, ?_, ?_⟩
  · simp only [hrow3]
  · simp only [hrow3]
    exact List.mem_append_right _ (List.mem_singleton_self _)
  · simp only [hrow3]
    exact List.mem_append_left _ hkept

/-- C29 on the history create 0001, create 0002, delete 0001, create: the new
invoice is numbered 0002 again. -/
theorem sequential_numbering_collides_witness :
    (InvoiceRepository.Delete exRemote exTwoStore (exDiscounted 0).ID).1 = .ok () ∧
    exSecond ∈ (InvoiceRepository.Delete exRemote exTwoStore (exDiscounted 0).ID).2.invoices ∧
    ∃ row,
      (InvoiceRepository.Create exClock exRemoteC
        (InvoiceRepository.Delete exRemote exTwoStore (exDiscounted 0).ID).2
        "c-1" exOneItem 0 0 "" "" "" "").1 = .ok row ∧
      row.ID = exRemoteC.newID ∧ row.InvoiceNumber = exSecond.InvoiceNumber ∧
      row ∈ (InvoiceRepository.Create exClock exRemoteC
        (InvoiceRepository.Delete exRemote exTwoStore (exDiscounted 0).ID).2
        "c-1" exOneItem 0 0 "" "" "" "").2.invoices ∧
      exSecond ∈ (InvoiceRepository.Create exClock exRemoteC
        (InvoiceRepository.Delete exRemote exTwoStore (exDiscounted 0).ID).2
        "c-1" exOneItem 0 0 "" "" "" "").2.invoices :=
  sequential_numbering_collides exClock exRemote exRemoteC exTwoStore (exDiscounted 0) exSecond
    "c-1" exOneItem 0 0 "" "" "" "" rfl rfl rfl rfl (by decide)
    (List.mem_cons_self _ _) (List.mem_cons_of_mem _ (List.mem_singleton_self _))
    (by decide) (by decide) (by decide)

/-- The monolith's revenue aggregation panics on `exRevenueStore` (one empty
`created_at`) and returns the two dates of `exLimitStore`. -/
theorem monolith_revenue_examples :
    db.Client.GetRevenueByPeriod id exRemote exRevenueStore "daily" 30
      = .panicked "slice bounds out of range" ∧
    ∃ res, db.Client.GetRevenueByPeriod id exRemote exLimitStore "daily" 30
        = .returned (.ok res) ∧
      res.map (fun e => e.Date) = [goBytes "2026-01-02", goBytes "2026-01-05"] :=
  ⟨rfl, _, rfl, by decide⟩

/-- The exact value of a finite `float64`, scaled by `2^-emin`, is its signed
numerator. -/
theorem float64.scaled_cast (neg : Bool) (m : Nat) (e emin : Int) (h : emin ≤ e) :
    ((float64.scaled neg m e emin : Int) : ℚ)
      = float64.toRat (.finite neg m e) * (2 : ℚ) ^ (-emin) := by
  have h2 : (2 : ℚ) ≠ 0 := by norm_num
  have hpow : ((2 : ℚ) ^ (e - emin).toNat) = (2 : ℚ) ^ e * (2 : ℚ) ^ (-emin) := by
    rw [← zpow_natCast, Int.toNat_of_nonneg (sub_nonneg.mpr h), sub_eq_add_neg, zpow_add₀ h2]
  unfold float64.scaled float64.toRat
  cases neg
  · simp only [Bool.false_eq_true, if_false]
    push_cast
    rw [hpow]; ring
  · simp only [if_true]
    push_cast
    rw [hpow]; ring

/-- On finite values `x <= y` compares the exact values. -/
theorem float64.le_iff_toRat (x y : float64) (hx : x.isFinite = true) (hy : y.isFinite = true) :
    float64.le x y = true ↔ x.toRat ≤ y.toRat := by
  cases x with
  | nan => simp [float64.isFinite] at hx
  | inf a => simp [float64.isFinite] at hx
  | finite n1 m1 e1 =>
    cases y with
    | nan => simp [float64.isFinite] at hy
    | inf a => simp [float64.isFinite] at hy
    | finite n2 m2 e2 =>
      have hpos : (0 : ℚ) < (2 : ℚ) ^ (-(min e1 e2)) := by positivity
      have h1 := float64.scaled_cast n1 m1 e1 (min e1 e2) (min_le_left _ _)
      have h2 := float64.scaled_cast n2 m2 e2 (min e1 e2) (min_le_right _ _)
      simp only [float64.le, decide_eq_true_eq]
      rw [← mul_le_mul_right hpos, ← h1, ← h2]
      exact Int.cast_le.symm

/-- A finite sum has finite operands. -/
theorem float64.isFinite_of_add (x y : float64) (h : (x + y).isFinite = true) :
    x.isFinite = true ∧ y.isFinite = true := by
  cases x <;> cases y <;>
    first
      | exact ⟨rfl, rfl⟩
      | (exfalso
         revert h
         show (float64.add _ _).isFinite = true → False
         simp only [float64.add]
         try split
         all_goals simp [float64.isFinite])

/-- On finite values, keeping `t` when `x >= t` and `x` otherwise gives the
smaller of the two exact values. -/
theorem float64.cap_toRat (x t : float64) (hx : x.isFinite = true) (ht : t.isFinite = true) :
    (if float64.ge x t then t else x).toRat = min x.toRat t.toRat := by
  have h := float64.le_iff_toRat t x ht hx
  unfold float64.ge
  by_cases hc : float64.le t x = true
  · simp only [hc, if_true]
    exact (min_eq_right (h.mp hc)).symm
  · have hlt : ¬ t.toRat ≤ x.toRat := fun hh => hc (h.mpr hh)
    simp only [hc, Bool.false_eq_true, if_false]
    exact (min_eq_left (le_of_lt (not_le.mp hlt))).symm

theorem fp_GetInvoice_mem {rt : Remote} {s : fp.Store} {id : String} {inv : fp.Invoice}
    (h : fp.PaymentRepository.GetInvoice rt s id = .ok inv) :
    inv ∈ s.invoices ∧ inv.ID = id := by
  unfold fp.PaymentRepository.GetInvoice at h
  split at h
  · cases h
  · split at h
    · cases h
    · rename_i r rest heq
      cases h
      have hm : inv ∈ s.invoices.filter (fun r => r.ID = id) := by
        rw [heq]; exact List.mem_cons_self _ _
      simpa using hm

theorem fp_setPaymentFields_of_id {id : String} {pa : float64} {ps pd : String}
    {r x : fp.Invoice}
    (hx : x = fp.setPaymentFields id pa ps pd r) (hid : x.ID = id) :
    x.PaidAmount = pa ∧ x.PaymentStatus = ps ∧ x.Total = r.Total ∧ r.ID = id := by
  subst hx
  unfold fp.setPaymentFields at hid ⊢
  by_cases h : r.ID = id
  · simp [h]
  · simp [h] at hid

theorem fp_handler_created_store {rt : Remote} {s : fp.Store} {req : fp.PaymentCreate}
    {inv : fp.Invoice}
    (hget : fp.PaymentRepository.GetInvoice rt s req.InvoiceID = .ok inv)
    (hok : (fp.PaymentHandler.Create rt s (some req)).1.StatusCode = 201) :
    (fp.PaymentHandler.Create rt s (some req)).2.invoices =
      s.invoices.map (fp.setPaymentFields req.InvoiceID
        (if float64.ge (inv.PaidAmount + req.Amount) inv.Total then inv.Total
          else inv.PaidAmount + req.Amount)
        (if float64.ge (inv.PaidAmount + req.Amount) inv.Total then "paid"
          else "partially_paid")
        req.PaymentDate) := by
  unfold fp.PaymentHandler.Create at hok ⊢
  simp only [hget] at hok ⊢
  split at hok
  · simp [utils.BadRequest, utils.Error] at hok
  · rename_i hv
    simp only [hv, if_false]
    unfold fp.PaymentRepository.Create fp.PaymentRepository.UpdateInvoice at hok ⊢
    by_cases hf : req.Amount.isFinite = true
    · by_cases hi : rt.insertFails = true
      · simp [hf, hi, utils.InternalError, utils.Error] at hok
      · by_cases hf2 : (if float64.ge (inv.PaidAmount + req.Amount) inv.Total then inv.Total
            else inv.PaidAmount + req.Amount).isFinite = true
        · by_cases hu : rt.updateFails = true
          · simp [hf, hi, hf2, hu, utils.InternalError, utils.Error] at hok
          · simp [hf, hi, hf2, hu]
        · simp [hf, hi, hf2, utils.InternalError, utils.Error] at hok
    · simp [hf, utils.InternalError, utils.Error] at hok

theorem fp_monolith_recorded_store {rt : Remote} {s : fp.Store} {req : fp.PaymentCreate}
    {inv : fp.Invoice} {pay : fp.Payment}
    (hget : fp.db.Client.GetInvoice rt s req.InvoiceID = .ok inv)
    (hok : (fp.db.Client.RecordPayment rt s req).1 = .ok pay) :
    (fp.db.Client.RecordPayment rt s req).2.invoices =
      s.invoices.map (fp.setPaymentFields req.InvoiceID
        (if float64.ge (inv.PaidAmount + req.Amount) inv.Total then inv.Total
          else inv.PaidAmount + req.Amount)
        (if float64.ge (inv.PaidAmount + req.Amount) inv.Total then "paid"
          else "partially_paid")
        req.PaymentDate) := by
  have hget1 : fp.db.Client.GetInvoice rt
      { s with payments := s.payments ++ [fp.paymentRow rt req] } req.InvoiceID = .ok inv := by
    simpa [fp.db.Client.GetInvoice] using hget
  unfold fp.db.Client.RecordPayment at hok ⊢
  by_cases hf : req.Amount.isFinite = true
  · by_cases hi : rt.insertFails = true
    · simp [hf, hi] at hok
    · simp only [hf, hi, hget1] at hok ⊢
      by_cases hf2 : (if float64.ge (inv.PaidAmount + req.Amount) inv.Total then inv.Total
          else inv.PaidAmount + req.Amount).isFinite = true
      · by_cases hu : rt.updateFails = true
        · simp [hf2, hu] at hok
        · simp [hf2, hu]
      · simp [hf2] at hok
  · simp [hf] at hok

/-- C1 (as amended). Recording a payment of amount `a` on an invoice with prior
paid amount `p` and total `t` writes `paid_amount = t` when `p + a ≥ t` and
`p + a` otherwise, which is the minimum of the two when both are finite, and
`payment_status` `"paid"` iff `p + a ≥ t`, otherwise `"partially_paid"`, where
`p + a` is the `float64` sum and `≥` the `float64` comparison; both in
`PaymentHandler.Create` (answer 201) and in the monolith's `RecordPayment`. -/
theorem record_payment_writes_float64_min (rt : Remote) (s : fp.Store)
    (req : fp.PaymentCreate) (inv : fp.Invoice) :
    (fp.PaymentRepository.GetInvoice rt s req.InvoiceID = .ok inv →
      (fp.PaymentHandler.Create rt s (some req)).1.StatusCode = 201 →
      (∃ r ∈ (fp.PaymentHandler.Create rt s (some req)).2.invoices, r.ID = req.InvoiceID) ∧
      ∀ r ∈ (fp.PaymentHandler.Create rt s (some req)).2.invoices, r.ID = req.InvoiceID →
        r.PaidAmount
          = (if float64.ge (inv.PaidAmount + req.Amount) inv.Total then inv.Total
              else inv.PaidAmount + req.Amount) ∧
        (r.PaymentStatus = "paid" ↔ float64.ge (inv.PaidAmount + req.Amount) inv.Total = true) ∧
        r.PaymentStatus =
          (if float64.ge (inv.PaidAmount + req.Amount) inv.Total then "paid"
            else "partially_paid") ∧
        ((inv.PaidAmount + req.Amount).isFinite = true → inv.Total.isFinite = true →
          r.PaidAmount.toRat = min (inv.PaidAmount + req.Amount).toRat inv.Total.toRat)) ∧
    (∀ pay, fp.db.Client.GetInvoice rt s req.InvoiceID = .ok inv →
      (fp.db.Client.RecordPayment rt s req).1 = .ok pay →
      (∃ r ∈ (fp.db.Client.RecordPayment rt s req).2.invoices, r.ID = req.InvoiceID) ∧
      ∀ r ∈ (fp.db.Client.RecordPayment rt s req).2.invoices, r.ID = req.InvoiceID →
        r.PaidAmount
          = (if float64.ge (inv.PaidAmount + req.Amount) inv.Total then inv.Total
              else inv.PaidAmount + req.Amount) ∧
        (r.PaymentStatus = "paid" ↔ float64.ge (inv.PaidAmount + req.Amount) inv.Total = true) ∧
        r.PaymentStatus =
          (if float64.ge (inv.PaidAmount + req.Amount) inv.Total then "paid"
            else "partially_paid") ∧
        ((inv.PaidAmount + req.Amount).isFinite = true → inv.Total.isFinite = true →
          r.PaidAmount.toRat = min (inv.PaidAmount + req.Amount).toRat inv.Total.toRat)) := by
  have key : ∀ rows : List fp.Invoice,
      rows = s.invoices.map (fp.setPaymentFields req.InvoiceID
        (if float64.ge (inv.PaidAmount + req.Amount) inv.Total then inv.Total
          else inv.PaidAmount + req.Amount)
        (if float64.ge (inv.PaidAmount + req.Amount) inv.Total then "paid"
          else "partially_paid")
        req.PaymentDate) →
      inv ∈ s.invoices → inv.ID = req.InvoiceID →
      (∃ r ∈ rows, r.ID = req.InvoiceID) ∧
      ∀ r ∈ rows, r.ID = req.InvoiceID →
        r.PaidAmount
          = (if float64.ge (inv.PaidAmount + req.Amount) inv.Total then inv.Total
              else inv.PaidAmount + req.Amount) ∧
        (r.PaymentStatus = "paid" ↔ float64.ge (inv.PaidAmount + req.Amount) inv.Total = true) ∧
        r.PaymentStatus =
          (if float64.ge (inv.PaidAmount + req.Amount) inv.Total then "paid"
            else "partially_paid") ∧
        ((inv.PaidAmount + req.Amount).isFinite = true → inv.Total.isFinite = true →
          r.PaidAmount.toRat = min (inv.PaidAmount + req.Amount).toRat inv.Total.toRat) := by
    intro rows hrows hmem hid
    subst hrows
    constructor
    · refine ⟨_, List.mem_map.mpr ⟨inv, hmem, rfl⟩, ?_⟩
      simp [fp.setPaymentFields, hid]
    · intro r hr hrid
      obtain ⟨r0, _, hr0⟩ := List.mem_map.mp hr
      obtain ⟨h1, h2, _, _⟩ := fp_setPaymentFields_of_id hr0.symm hrid
      refine ⟨h1, ?_, h2, ?_⟩
      · rw [h2]
        by_cases h : float64.ge (inv.PaidAmount + req.Amount) inv.Total = true
        · simp [h]
        · simp [h]
      · intro hsum ht
        rw [h1]
        exact float64.cap_toRat _ _ hsum ht
  constructor
  · intro hget hok
    obtain ⟨hmem, hid⟩ := fp_GetInvoice_mem hget
    exact key _ (fp_handler_created_store hget hok) hmem hid
  · intro pay hget hok
    have hm : inv ∈ s.invoices ∧ inv.ID = req.InvoiceID := by
      unfold fp.db.Client.GetInvoice at hget
      split at hget
      · cases hget
      · split at hget
        · rename_i r heq
          cases hget
          have hmem : inv ∈ s.invoices.filter (fun r => r.ID = req.InvoiceID) := by
            rw [heq]; exact List.mem_singleton_self _
          simpa using hmem
        · cases hget
    exact key _ (fp_monolith_recorded_store hget hok) hm.1 hm.2

/-- C1 (as amended) on an invoice of total 100 with 30 paid and a payment of 50. -/
theorem record_payment_writes_float64_min_witness :
    ((∃ r ∈ (fp.PaymentHandler.Create exRemote
          (fp.exStore (float64.ofInt 100) (float64.ofInt 30))
          (some (fp.paymentOf "inv-1" (float64.ofInt 50)))).2.invoices, r.ID = "inv-1") ∧
      ∀ r ∈ (fp.PaymentHandler.Create exRemote
          (fp.exStore (float64.ofInt 100) (float64.ofInt 30))
          (some (fp.paymentOf "inv-1" (float64.ofInt 50)))).2.invoices, r.ID = "inv-1" →
        r.PaidAmount
          = (if float64.ge (float64.ofInt 30 + float64.ofInt 50) (float64.ofInt 100)
              then float64.ofInt 100 else float64.ofInt 30 + float64.ofInt 50) ∧
        (r.PaymentStatus = "paid" ↔
          float64.ge (float64.ofInt 30 + float64.ofInt 50) (float64.ofInt 100) = true) ∧
        r.PaymentStatus =
          (if float64.ge (float64.ofInt 30 + float64.ofInt 50) (float64.ofInt 100)
            then "paid" else "partially_paid") ∧
        r.PaidAmount.toRat
          = min (float64.ofInt 30 + float64.ofInt 50).toRat (float64.ofInt 100).toRat) ∧
    ((∃ r ∈ (fp.db.Client.RecordPayment exRemote
          (fp.exStore (float64.ofInt 100) (float64.ofInt 30))
          (fp.paymentOf "inv-1" (float64.ofInt 50))).2.invoices, r.ID = "inv-1") ∧
      ∀ r ∈ (fp.db.Client.RecordPayment exRemote
          (fp.exStore (float64.ofInt 100) (float64.ofInt 30))
          (fp.paymentOf "inv-1" (float64.ofInt 50))).2.invoices, r.ID = "inv-1" →
        r.PaidAmount
          = (if float64.ge (float64.ofInt 30 + float64.ofInt 50) (float64.ofInt 100)
              then float64.ofInt 100 else float64.ofInt 30 + float64.ofInt 50) ∧
        (r.PaymentStatus = "paid" ↔
          float64.ge (float64.ofInt 30 + float64.ofInt 50) (float64.ofInt 100) = true) ∧
        r.PaymentStatus =
          (if float64.ge (float64.ofInt 30 + float64.ofInt 50) (float64.ofInt 100)
            then "paid" else "partially_paid") ∧
        r.PaidAmount.toRat
          = min (float64.ofInt 30 + float64.ofInt 50).toRat (float64.ofInt 100).toRat) := by
  have h := record_payment_writes_float64_min exRemote
    (fp.exStore (float64.ofInt 100) (float64.ofInt 30))
    (fp.paymentOf "inv-1" (float64.ofInt 50))
    (fp.exInvoice (float64.ofInt 100) (float64.ofInt 30))
  have hA := h.1 rfl (by decide)
  have hB := h.2 (fp.paymentRow exRemote (fp.paymentOf "inv-1" (float64.ofInt 50))) rfl rfl
  refine ⟨⟨hA.1, fun r hr hid => ?_⟩, ⟨hB.1, fun r hr hid => ?_⟩⟩
  · obtain ⟨a, b, c, d⟩ := hA.2 r hr hid
    exact ⟨a, b, c, d (by decide) (by decide)⟩
  · obtain ⟨a, b, c, d⟩ := hB.2 r hr hid
    exact ⟨a, b, c, d (by decide) (by decide)⟩

/-- C1 fails on the exact amounts. On an invoice of total 0.04 with 0.01 paid, a
payment of 0.03 is recorded (201, and `.ok` in the monolith) with status `paid`
and paid amount 0.04, although the exact sum of 0.01 and 0.03 is below the exact
total. On an invoice of total 0.8 with 0.7 paid, a payment of 0.1 leaves the
status `partially_paid` and the paid amount 0.7999999999999999, which is not the
exact sum of the `float64` values 0.7 and 0.1, a sum that is below the total,
while the decimal numbers 0.7 and 0.1 add up to 0.8. -/
theorem record_payment_rounds_the_sum :
    (fp.PaymentHandler.Create exRemote (fp.exStore (fp.dec 4 2) (fp.dec 1 2))
      (some (fp.paymentOf "inv-1" (fp.dec 3 2)))).1.StatusCode = 201 ∧
    (fp.PaymentHandler.Create exRemote (fp.exStore (fp.dec 4 2) (fp.dec 1 2))
      (some (fp.paymentOf "inv-1" (fp.dec 3 2)))).2.invoices.map
        (fun r => (r.ID, r.PaymentStatus, r.PaidAmount))
      = [("inv-1", "paid", fp.dec 4 2)] ∧
    (fp.db.Client.RecordPayment exRemote (fp.exStore (fp.dec 4 2) (fp.dec 1 2))
      (fp.paymentOf "inv-1" (fp.dec 3 2))).1
      = .ok (fp.paymentRow exRemote (fp.paymentOf "inv-1" (fp.dec 3 2))) ∧
    (fp.db.Client.RecordPayment exRemote (fp.exStore (fp.dec 4 2) (fp.dec 1 2))
      (fp.paymentOf "inv-1" (fp.dec 3 2))).2.invoices.map
        (fun r => (r.ID, r.PaymentStatus, r.PaidAmount))
      = [("inv-1", "paid", fp.dec 4 2)] ∧
    (fp.dec 1 2).toRat + (fp.dec 3 2).toRat < (fp.dec 4 2).toRat ∧
    (fp.PaymentHandler.Create exRemote (fp.exStore (fp.dec 8 1) (fp.dec 7 1))
      (some (fp.paymentOf "inv-1" (fp.dec 1 1)))).2.invoices.map
        (fun r => (r.ID, r.PaymentStatus, r.PaidAmount))
      = [("inv-1", "partially_paid", fp.dec 7999999999999999 16)] ∧
    (fp.dec 7 1).toRat + (fp.dec 1 1).toRat < (fp.dec 8 1).toRat ∧
    (fp.dec 7999999999999999 16).toRat ≠ (fp.dec 7 1).toRat + (fp.dec 1 1).toRat ∧
    (7 / 10 : ℚ) + 1 / 10 ≥ 8 / 10 := by
  have h1 : fp.dec 1 2 = .finite false 5764607523034235 (-59) := by decide
  have h3 : fp.dec 3 2 = .finite false 8646911284551352 (-58) := by decide
  have h4 : fp.dec 4 2 = .finite false 5764607523034235 (-57) := by decide
  have h7 : fp.dec 7 1 = .finite false 6305039478318694 (-53) := by decide
  have h01 : fp.dec 1 1 = .finite false 7205759403792794 (-56) := by decide
  have h8 : fp.dec 8 1 = .finite false 7205759403792794 (-53) := by decide
  have h79 : fp.dec 7999999999999999 16 = .finite false 7205759403792793 (-53) := by decide
  refine ⟨by decide, by decide, rfl, by decide, ?_, by decide, ?_, ?_, by norm_num⟩
  · rw [h1, h3, h4]; norm_num [float64.toRat]
  · rw [h7, h01, h8]; norm_num [float64.toRat]
  · rw [h7, h01, h79]; norm_num [float64.toRat]

theorem fp_foldl_subtotalStep (items : List fp.Item) (acc : float64) :
    items.foldl fp.subtotalStep acc =
      (items.map (fun it => float64.ofInt it.Quantity * it.UnitPrice)).foldl
        (fun acc x => acc + x) acc := by
  induction items generalizing acc with
  | nil => rfl
  | cons it rest ih =>
    simp only [List.foldl_cons, List.map_cons, ih]
    rfl

theorem fp_foldl_monolith_subtotal (items : List fp.db.Item) (acc : float64) :
    items.foldl (fun subtotal item => subtotal + float64.ofInt item.Quantity * item.UnitPrice)
        acc =
      (items.map (fun it => float64.ofInt it.Quantity * it.UnitPrice)).foldl
        (fun acc x => acc + x) acc := by
  induction items generalizing acc with
  | nil => rfl
  | cons it rest ih =>
    simp only [List.foldl_cons, List.map_cons, ih]

theorem fp_repository_create_ok {clk : Clock} {rt : Remote} {s : fp.Store}
    {customerID : String} {items : List fp.Item} {tax discount : float64}
    {status notes dueDate currency : String} {inv : fp.Invoice}
    (h : (fp.InvoiceRepository.Create clk rt s customerID items tax discount status notes
      dueDate currency).1 = .ok inv) :
    inv.Subtotal = items.foldl fp.subtotalStep 0 ∧
    inv.Total = inv.Subtotal + inv.Subtotal * (tax / float64.ofInt 100) - discount ∧
    inv.PaidAmount = 0 ∧ inv.PaymentStatus = "unpaid" ∧ inv.ID = rt.newID ∧
    inv.Items = items ∧
    (fp.InvoiceRepository.Create clk rt s customerID items tax discount status notes
      dueDate currency).2.invoices = s.invoices ++ [inv] := by
  unfold fp.InvoiceRepository.Create at h ⊢
  cases hg : fp.InvoiceRepository.generateInvoiceNumber clk rt s with
  | error e => simp [hg] at h
  | ok num =>
    simp only [hg] at h ⊢
    split at h
    · cases h
    · rename_i hfin
      simp only [hfin, if_false]
      by_cases hi : rt.insertFails = true
      · simp [hi] at h
      · simp only [hi] at h ⊢
        simp only [Bool.false_eq_true, if_false, Except.ok.injEq] at h ⊢
        subst h
        simp

theorem fp_db_create_ok {rt : Remote} {s : fp.Store} {customerID : String}
    {subtotal tax discount total : float64} {items : List fp.db.Item}
    {status notes dueDate currency : String} {inv : fp.Invoice}
    (h : (fp.db.Client.CreateInvoice rt s customerID subtotal tax discount total items
      status notes dueDate currency).1 = .ok inv) :
    inv.Subtotal = subtotal ∧ inv.Total = total ∧
    (fp.db.Client.CreateInvoice rt s customerID subtotal tax discount total items
      status notes dueDate currency).2.invoices = s.invoices ++ [inv] := by
  unfold fp.db.Client.CreateInvoice at h ⊢
  cases hg : fp.db.Client.GenerateInvoiceNumber rt s with
  | error e => simp [hg] at h
  | ok num =>
    simp only [hg] at h ⊢
    split at h
    · cases h
    · rename_i hfin
      simp only [hfin, if_false]
      by_cases hi : rt.insertFails = true
      · simp [hi] at h
      · simp only [hi] at h ⊢
        simp only [Bool.false_eq_true, if_false, Except.ok.injEq] at h ⊢
        subst h
        simp

theorem fp_monolith_create_ok {srv : Server} {generatePDF : fp.Invoice → Except String String}
    {rt : Remote} {s : fp.Store} {req : fp.MonolithInvoiceRequest}
    {ans : fp.CreateInvoiceAnswer}
    (h : (fp.Server.createInvoice srv generatePDF rt s (some req)).1 = .json 201 ans) :
    ∃ inv : fp.Invoice,
      (fp.Server.createInvoice srv generatePDF rt s (some req)).2.invoices
        = s.invoices ++ [inv] ∧
      inv.Subtotal = req.Items.foldl
        (fun subtotal item => subtotal + float64.ofInt item.Quantity * item.UnitPrice) 0 ∧
      inv.Total = inv.Subtotal + inv.Subtotal * (req.Tax / float64.ofInt 100) - req.Discount ∧
      ans.total = inv.Total := by
  unfold fp.Server.createInvoice at h ⊢
  by_cases hc : srv.dbConfigured = true
  · simp only [hc, not_true_eq_false, if_false] at h ⊢
    split at h
    · simp at h
    · rename_i hv
      simp only [hv, if_false]
      cases hcust : fp.db.Client.GetCustomer rt s req.CustomerID with
      | error e => simp [hcust] at h
      | ok c =>
        simp only [hcust] at h ⊢
        split at h
        · simp at h
        · rename_i invRecord s1 hcreate
          obtain ⟨h1, h2, h3⟩ := fp_db_create_ok (congrArg Prod.fst hcreate)
          rw [hcreate] at h3
          split at h
          · simp at h
          · rename_i pdfBytes hpdf
            simp only [hpdf]
            simp only [HttpResult.json.injEq, true_and] at h
            subst h
            refine ⟨invRecord, h3, h1, ?_, rfl⟩
            rw [h2, h1]
  · simp [hc] at h

/-- C2 (as amended). Invoice creation computes, in `float64` arithmetic, the
subtotal as the sum accumulated from zero in list order of
`float64(quantity) * unit_price`, the tax amount as `subtotal * (tax / 100)`, and
stores `total = subtotal + tax amount - discount`; in `InvoiceRepository.Create`
and in the monolith's `createInvoice` handler. -/
theorem invoice_creation_float64_totals (clk : Clock) (rt : Remote) (s : fp.Store)
    (customerID : String) (items : List fp.Item) (tax discount : float64)
    (status notes dueDate currency : String)
    (srv : Server) (generatePDF : fp.Invoice → Except String String)
    (req : fp.MonolithInvoiceRequest) :
    (∀ inv, (fp.InvoiceRepository.Create clk rt s customerID items tax discount status notes
        dueDate currency).1 = .ok inv →
      inv.Subtotal
        = fp.sum (items.map (fun it => float64.ofInt it.Quantity * it.UnitPrice)) ∧
      inv.Total = inv.Subtotal + inv.Subtotal * (tax / float64.ofInt 100) - discount ∧
      (fp.InvoiceRepository.Create clk rt s customerID items tax discount status notes
        dueDate currency).2.invoices = s.invoices ++ [inv]) ∧
    (∀ ans, (fp.Server.createInvoice srv generatePDF rt s (some req)).1 = .json 201 ans →
      ∃ inv : fp.Invoice,
        (fp.Server.createInvoice srv generatePDF rt s (some req)).2.invoices
          = s.invoices ++ [inv] ∧
        inv.Subtotal
          = fp.sum (req.Items.map (fun it => float64.ofInt it.Quantity * it.UnitPrice)) ∧
        inv.Total
          = inv.Subtotal + inv.Subtotal * (req.Tax / float64.ofInt 100) - req.Discount ∧
        ans.total = inv.Total) := by
  constructor
  · intro inv h
    obtain ⟨h1, h2, _, _, _, _, h3⟩ := fp_repository_create_ok h
    refine ⟨?_, h2, h3⟩
    rw [h1, fp_foldl_subtotalStep]; rfl
  · intro ans h
    obtain ⟨inv, h1, h2, h3, h4⟩ := fp_monolith_create_ok h
    refine ⟨inv, h1, ?_, h3, h4⟩
    rw [h2, fp_foldl_monolith_subtotal]; rfl

set_option maxRecDepth 8000 in
/-- C2 (as amended) at 2 × 10 and 3 × 2.5 with tax 10 and discount 5: subtotal
27.5, total 25.25. -/
theorem invoice_creation_float64_totals_witness :
    (fp.exCreated.Subtotal
        = fp.sum (fp.exItems.map (fun it => float64.ofInt it.Quantity * it.UnitPrice)) ∧
      fp.exCreated.Total
        = fp.exCreated.Subtotal
            + fp.exCreated.Subtotal * (float64.ofInt 10 / float64.ofInt 100)
            - float64.ofInt 5 ∧
      (fp.InvoiceRepository.Create exClock exRemote fp.exCustomerStore "c-1" fp.exItems
        (float64.ofInt 10) (float64.ofInt 5) "" "" "" "").2.invoices
        = fp.exCustomerStore.invoices ++ [fp.exCreated]) ∧
    (∃ inv : fp.Invoice,
      (fp.Server.createInvoice { dbConfigured := true } fp.exPDF exRemote fp.exCustomerStore
        (some fp.exMonolithRequest)).2.invoices = fp.exCustomerStore.invoices ++ [inv] ∧
      inv.Subtotal
        = fp.sum (fp.exMonolithRequest.Items.map
            (fun it => float64.ofInt it.Quantity * it.UnitPrice)) ∧
      inv.Total
        = inv.Subtotal + inv.Subtotal * (fp.exMonolithRequest.Tax / float64.ofInt 100)
            - fp.exMonolithRequest.Discount ∧
      fp.dec 2525 2 = inv.Total) :=
  ⟨(invoice_creation_float64_totals exClock exRemote fp.exCustomerStore "c-1" fp.exItems
      (float64.ofInt 10) (float64.ofInt 5) "" "" "" ""
      { dbConfigured := true } fp.exPDF fp.exMonolithRequest).1 fp.exCreated
      (congrArg Except.ok (by decide)),
   (invoice_creation_float64_totals exClock exRemote fp.exCustomerStore "c-1" fp.exItems
      (float64.ofInt 10) (float64.ofInt 5) "" "" "" ""
      { dbConfigured := true } fp.exPDF fp.exMonolithRequest).2
      { id := "n-1", customer_id := "c-1", total := fp.dec 2525 2,
        items := fp.exMonolithRequest.Items.map fp.db.Item.toRow, currency := "USD",
        pdf_data := "%PDF", created_at := "2026-01-05T09:00:00Z" }
      (congrArg (HttpResult.json 201) (by decide))⟩

set_option maxRecDepth 8000 in
/-- C2 fails on the exact amounts. For one item of quantity 2^53 + 1 at unit
price 1 (tax 0, discount 0) both implementations store subtotal and total
9007199254740992, not 9007199254740993; for one item 3 × 1 with tax 19 both
store the total 3.5700000000000003, not 3.57, and `subtotal * (tax / 100)`
differs from `subtotal * tax / 100`. -/
theorem invoice_creation_rounds :
    ((fp.InvoiceRepository.Create exClock exRemote fp.exCustomerStore "c-1"
        (fp.oneItem (2 ^ 53 + 1) (float64.ofInt 1)) 0 0 "" "" "" "").2.invoices.map
        (fun r => (r.Subtotal, r.Total)))
      = [(float64.ofInt (2 ^ 53), float64.ofInt (2 ^ 53))] ∧
    ((fp.Server.createInvoice { dbConfigured := true } fp.exPDF exRemote fp.exCustomerStore
        (some { CustomerID := "c-1",
                Items := [{ Description := "a", Quantity := 2 ^ 53 + 1,
                            UnitPrice := float64.ofInt 1 }],
                Tax := 0, Discount := 0, Status := "", Notes := "", DueDate := "",
                Currency := "" })).2.invoices.map (fun r => (r.Subtotal, r.Total)))
      = [(float64.ofInt (2 ^ 53), float64.ofInt (2 ^ 53))] ∧
    (float64.ofInt (2 ^ 53)).toRat = 9007199254740992 ∧
    ((fp.InvoiceRepository.Create exClock exRemote fp.exCustomerStore "c-1"
        (fp.oneItem 3 (float64.ofInt 1)) (float64.ofInt 19) 0 "" "" "" "").2.invoices.map
        (fun r => (r.Subtotal, r.Total)))
      = [(float64.ofInt 3, fp.dec 35700000000000003 16)] ∧
    float64.eq (fp.dec 35700000000000003 16) (fp.dec 357 2) = false ∧
    float64.eq (float64.ofInt 3 * (float64.ofInt 19 / float64.ofInt 100))
      (float64.ofInt 3 * float64.ofInt 19 / float64.ofInt 100) = false := by
  refine ⟨by decide, by decide, ?_, by decide, by decide, by decide⟩
  have h : float64.ofInt (2 ^ 53) = .finite false 4503599627370496 1 := by decide
  rw [h]; norm_num [float64.toRat]

/-- On finite values `x < y` compares the exact values. -/
theorem float64.lt_iff_toRat (x y : float64) (hx : x.isFinite = true) (hy : y.isFinite = true) :
    float64.lt x y = true ↔ x.toRat < y.toRat := by
  cases x with
  | nan => simp [float64.isFinite] at hx
  | inf a => simp [float64.isFinite] at hx
  | finite n1 m1 e1 =>
    cases y with
    | nan => simp [float64.isFinite] at hy
    | inf a => simp [float64.isFinite] at hy
    | finite n2 m2 e2 =>
      have hpos : (0 : ℚ) < (2 : ℚ) ^ (-(min e1 e2)) := by positivity
      have h1 := float64.scaled_cast n1 m1 e1 (min e1 e2) (min_le_left _ _)
      have h2 := float64.scaled_cast n2 m2 e2 (min e1 e2) (min_le_right _ _)
      simp only [float64.lt, decide_eq_true_eq]
      rw [← mul_lt_mul_right hpos, ← h1, ← h2]
      exact Int.cast_lt.symm

/-- The exact value of the `float64` zero. -/
theorem float64.toRat_zero : (0 : float64).toRat = 0 := by
  show float64.toRat (.finite false 0 0) = 0
  simp [float64.toRat]

/-- A finite amount greater than zero passes the check `amount <= 0` of the
handler and has a positive exact value. -/
theorem float64.pos_of_gt_zero (a : float64) (hf : a.isFinite = true)
    (h : float64.gt a 0 = true) : float64.le a 0 = false ∧ 0 < a.toRat := by
  have h0 : (0 : float64).isFinite = true := rfl
  have hlt : (0 : float64).toRat < a.toRat :=
    (float64.lt_iff_toRat 0 a h0 hf).mp h
  rw [float64.toRat_zero] at hlt
  refine ⟨?_, hlt⟩
  cases hle : float64.le a 0 with
  | false => rfl
  | true =>
    have := (float64.le_iff_toRat a 0 hf h0).mp hle
    rw [float64.toRat_zero] at this
    exact absurd hlt (not_lt.mpr this)

/-- The addition `x + y` does not round exactly when the sum is finite and its
exact value is the sum of the exact values. -/
theorem float64.exactAdd_iff (x y : float64) :
    float64.exactAdd x y = true ↔
      (x + y).isFinite = true ∧ (x + y).toRat = x.toRat + y.toRat := by
  constructor
  · intro h
    unfold float64.exactAdd at h
    split at h
    · rename_i n1 m1 e1 n2 m2 e2 n3 m3 e3 hs
      rw [hs]
      refine ⟨rfl, ?_⟩
      have hpos : (2 : ℚ) ^ (-(min (min e1 e2) e3)) ≠ 0 := by positivity
      have h1 := float64.scaled_cast n1 m1 e1 (min (min e1 e2) e3)
        (le_trans (min_le_left _ _) (min_le_left _ _))
      have h2 := float64.scaled_cast n2 m2 e2 (min (min e1 e2) e3)
        (le_trans (min_le_left _ _) (min_le_right _ _))
      have h3 := float64.scaled_cast n3 m3 e3 (min (min e1 e2) e3) (min_le_right _ _)
      have hq : ((float64.scaled n3 m3 e3 (min (min e1 e2) e3) : Int) : ℚ)
          = ((float64.scaled n1 m1 e1 (min (min e1 e2) e3) : Int) : ℚ)
            + ((float64.scaled n2 m2 e2 (min (min e1 e2) e3) : Int) : ℚ) := by
        rw [of_decide_eq_true h]; push_cast; rfl
      rw [h1, h2, h3, ← add_mul] at hq
      exact mul_right_cancel₀ hpos hq
    · cases h
  · rintro ⟨hfin, hval⟩
    obtain ⟨hx, hy⟩ := float64.isFinite_of_add x y hfin
    cases x with
    | nan => simp [float64.isFinite] at hx
    | inf a => simp [float64.isFinite] at hx
    | finite n1 m1 e1 =>
      cases y with
      | nan => simp [float64.isFinite] at hy
      | inf a => simp [float64.isFinite] at hy
      | finite n2 m2 e2 =>
        cases hs : float64.finite n1 m1 e1 + float64.finite n2 m2 e2 with
        | nan => rw [hs] at hfin; simp [float64.isFinite] at hfin
        | inf a => rw [hs] at hfin; simp [float64.isFinite] at hfin
        | finite n3 m3 e3 =>
          rw [hs] at hval
          unfold float64.exactAdd
          simp only [hs, decide_eq_true_eq]
          have h1 := float64.scaled_cast n1 m1 e1 (min (min e1 e2) e3)
            (le_trans (min_le_left _ _) (min_le_left _ _))
          have h2 := float64.scaled_cast n2 m2 e2 (min (min e1 e2) e3)
            (le_trans (min_le_left _ _) (min_le_right _ _))
          have h3 := float64.scaled_cast n3 m3 e3 (min (min e1 e2) e3) (min_le_right _ _)
          have hq : ((float64.scaled n3 m3 e3 (min (min e1 e2) e3) : Int) : ℚ)
              = ((float64.scaled n1 m1 e1 (min (min e1 e2) e3)
                  + float64.scaled n2 m2 e2 (min (min e1 e2) e3) : Int) : ℚ) := by
            push_cast
            rw [h1, h2, h3, hval, add_mul]
          exact_mod_cast hq

/-- When `p + a` does not round, the capped amount is finite, its exact value is
the cap of the exact sum, and the comparison with the total is the exact one. -/
theorem capped_exact (p a t : float64) (ht : t.isFinite = true)
    (h : float64.exactAdd p a = true) :
    (fp.capped p a t).isFinite = true ∧
    (fp.capped p a t).toRat
      = (if p.toRat + a.toRat ≥ t.toRat then t.toRat else p.toRat + a.toRat) ∧
    (float64.ge (p + a) t = true ↔ p.toRat + a.toRat ≥ t.toRat) := by
  obtain ⟨hfin, hval⟩ := (float64.exactAdd_iff p a).mp h
  have hge : float64.ge (p + a) t = true ↔ p.toRat + a.toRat ≥ t.toRat := by
    unfold float64.ge
    rw [float64.le_iff_toRat t (p + a) ht hfin, hval]
  unfold fp.capped
  by_cases hc : float64.ge (p + a) t = true
  · have hq := hge.mp hc
    simp only [hc, if_true, hq, ht, true_and]
  · have hq : ¬ p.toRat + a.toRat ≥ t.toRat := fun hh => hc (hge.mpr hh)
    simp only [hc, if_false, hq, hfin, hval, true_and, Bool.false_eq_true]

/-- A run of `PaymentHandler.Create` in which every remote call succeeds and the
amounts written are finite. -/
theorem fp_handler_run_ok (rt : Remote) (s : fp.Store) (req : fp.PaymentCreate)
    (inv : fp.Invoice)
    (hins : rt.insertFails = false) (hupd : rt.updateFails = false)
    (hid : req.InvoiceID ≠ "") (hamount : float64.le req.Amount 0 = false)
    (hfin : req.Amount.isFinite = true)
    (hcap : (fp.capped inv.PaidAmount req.Amount inv.Total).isFinite = true)
    (hmethod : req.PaymentMethod ≠ "")
    (hget : fp.PaymentRepository.GetInvoice rt s req.InvoiceID = .ok inv) :
    fp.PaymentHandler.Create rt s (some req)
      = (utils.Created (fp.paymentRow rt req),
          { s with
            payments := s.payments ++ [fp.paymentRow rt req],
            invoices := s.invoices.map (fp.setPaymentFields req.InvoiceID
              (fp.capped inv.PaidAmount req.Amount inv.Total)
              (fp.statusAfter inv.PaidAmount req.Amount inv.Total)
              req.PaymentDate) }) := by
  have hvalid : ¬ (req.InvoiceID = "" ∨ float64.le req.Amount 0 = true ∨
      req.PaymentMethod = "") := by
    rintro (h | h | h)
    · exact hid h
    · rw [hamount] at h; cases h
    · exact hmethod h
  unfold fp.capped at hcap
  unfold fp.PaymentHandler.Create
  simp only [hvalid, if_false, hget]
  unfold fp.PaymentRepository.Create fp.PaymentRepository.UpdateInvoice
  simp [hins, hupd, hfin, hcap, fp.capped, fp.statusAfter]

/-- The update by id keeps the ids. -/
theorem fp_setPaymentFields_ID (id : String) (pa : float64) (ps pd : String) (r : fp.Invoice) :
    (fp.setPaymentFields id pa ps pd r).ID = r.ID := by
  unfold fp.setPaymentFields
  split <;> rfl

/-- After the update by id, the invoice found under the id is the one found
before with the three payment fields set. -/
theorem fp_GetInvoice_after_update (rt rt2 : Remote) (s : fp.Store) (id : String)
    (inv : fp.Invoice) (pa : float64) (ps pd : String) (payments : List fp.Payment)
    (hsel : rt2.selectFails = false)
    (hget : fp.PaymentRepository.GetInvoice rt s id = .ok inv) :
    fp.PaymentRepository.GetInvoice rt2
        { s with payments := payments,
                 invoices := s.invoices.map (fp.setPaymentFields id pa ps pd) } id
      = .ok { inv with PaidAmount := pa, PaymentStatus := ps, PaymentDate := pd } := by
  unfold fp.PaymentRepository.GetInvoice at hget ⊢
  by_cases h1 : rt.selectFails = true
  · simp [h1] at hget
  · simp only [h1, hsel, Bool.false_eq_true, if_false] at hget ⊢
    have hfm : (s.invoices.map (fp.setPaymentFields id pa ps pd)).filter (fun r => r.ID = id)
        = (s.invoices.filter (fun r => r.ID = id)).map (fp.setPaymentFields id pa ps pd) := by
      rw [List.filter_map]
      congr 1
      apply List.filter_congr
      intro x _
      simp [fp_setPaymentFields_ID]
    rw [hfm]
    cases hf : s.invoices.filter (fun r => r.ID = id) with
    | nil => simp [hf] at hget
    | cons r rest =>
      simp only [hf] at hget
      have hr : r = inv := by
        injection hget
      have hrid : r.ID = id := by
        have hmem : r ∈ s.invoices.filter (fun r => r.ID = id) := by
          rw [hf]; exact List.mem_cons_self _ _
        simpa using (List.mem_filter.mp hmem).2
      subst hr
      simp [fp.setPaymentFields, hrid]

/-- The invoice found under an id does not depend on the run, as long as the
select succeeds. -/
theorem fp_GetInvoice_congr (rt rt2 : Remote) (s : fp.Store) (id : String)
    (h1 : rt.selectFails = false) (h2 : rt2.selectFails = false) :
    fp.PaymentRepository.GetInvoice rt s id = fp.PaymentRepository.GetInvoice rt2 s id := by
  unfold fp.PaymentRepository.GetInvoice
  simp only [h1, h2, Bool.false_eq_true, if_false]

/-- Two successful recordings on one invoice, one after the other: the second
run finds the amount the first one wrote. -/
theorem fp_two_payments_recorded (rt rt1 rt2 : Remote) (s : fp.Store)
    (req1 req2 : fp.PaymentCreate) (inv : fp.Invoice)
    (h : rt.allSucceed) (h1 : rt1.allSucceed) (h2 : rt2.allSucceed)
    (hid : req1.InvoiceID ≠ "") (hsame : req2.InvoiceID = req1.InvoiceID)
    (ha1 : float64.le req1.Amount 0 = false) (ha2 : float64.le req2.Amount 0 = false)
    (hf1 : req1.Amount.isFinite = true) (hf2 : req2.Amount.isFinite = true)
    (hc1 : (fp.capped inv.PaidAmount req1.Amount inv.Total).isFinite = true)
    (hc2 : (fp.capped (fp.capped inv.PaidAmount req1.Amount inv.Total) req2.Amount
      inv.Total).isFinite = true)
    (hm1 : req1.PaymentMethod ≠ "") (hm2 : req2.PaymentMethod ≠ "")
    (hget : fp.PaymentRepository.GetInvoice rt s req1.InvoiceID = .ok inv) :
    ∃ r, fp.PaymentRepository.GetInvoice rt (fp.recordAll s [(rt1, req1), (rt2, req2)])
          req1.InvoiceID = .ok r ∧
      r.PaidAmount
        = fp.capped (fp.capped inv.PaidAmount req1.Amount inv.Total) req2.Amount inv.Total ∧
      r.PaymentStatus
        = fp.statusAfter (fp.capped inv.PaidAmount req1.Amount inv.Total) req2.Amount
            inv.Total := by
  obtain ⟨hs, _, _⟩ := h
  obtain ⟨hs1, hi1, hu1⟩ := h1
  obtain ⟨hs2, hi2, hu2⟩ := h2
  have hget1 : fp.PaymentRepository.GetInvoice rt1 s req1.InvoiceID = .ok inv := by
    rw [← hget]; exact fp_GetInvoice_congr rt1 rt s _ hs1 hs
  have hrun1 := fp_handler_run_ok rt1 s req1 inv hi1 hu1 hid ha1 hf1 hc1 hm1 hget1
  have hfound1 := fp_GetInvoice_after_update rt1 rt2 s req1.InvoiceID inv
    (fp.capped inv.PaidAmount req1.Amount inv.Total)
    (fp.statusAfter inv.PaidAmount req1.Amount inv.Total)
    req1.PaymentDate (s.payments ++ [fp.paymentRow rt1 req1]) hs2 hget1
  rw [← hsame] at hfound1
  have hid2 : req2.InvoiceID ≠ "" := by rw [hsame]; exact hid
  have hrun2 := fp_handler_run_ok rt2 _ req2 _ hi2 hu2 hid2 ha2 hf2 hc2 hm2 hfound1
  have hfound2 := fp_GetInvoice_after_update rt2 rt _ req2.InvoiceID _
    (fp.capped (fp.capped inv.PaidAmount req1.Amount inv.Total) req2.Amount inv.Total)
    (fp.statusAfter (fp.capped inv.PaidAmount req1.Amount inv.Total) req2.Amount inv.Total)
    req2.PaymentDate
    ((s.payments ++ [fp.paymentRow rt1 req1]) ++ [fp.paymentRow rt2 req2]) hs hfound1
  rw [hsame] at hrun2 hfound2
  refine ⟨_, Eq.trans ?_ hfound2, rfl, rfl⟩
  simp only [fp.recordAll, hrun1, hrun2]

/-- C26 (as amended). For an invoice with finite total `t` and paid amount `p`
found under an id and two payments of finite amounts `a > 0` and `b > 0` on it,
each recorded by a run of `PaymentHandler.Create` whose remote calls succeed:
when none of the four `float64` additions made (`p + a`, then the capped amount
plus `b`; `p + b`, then the capped amount plus `a`) rounds, recording `a` then
`b` and recording `b` then `a` leave equal paid amounts (Go's `==`) and the same
payment status, namely the amount of exact value `min (p + a + b) t` and status
`paid` iff `p + a + b ≥ t` on the exact values. -/
theorem payment_order_independent_when_exact (rt rtA rtB : Remote) (s : fp.Store)
    (reqA reqB : fp.PaymentCreate) (inv : fp.Invoice)
    (h : rt.allSucceed) (hA : rtA.allSucceed) (hB : rtB.allSucceed)
    (hid : reqA.InvoiceID ≠ "") (hsame : reqB.InvoiceID = reqA.InvoiceID)
    (ha : float64.gt reqA.Amount 0 = true) (hb : float64.gt reqB.Amount 0 = true)
    (hmA : reqA.PaymentMethod ≠ "") (hmB : reqB.PaymentMethod ≠ "")
    (hget : fp.PaymentRepository.GetInvoice rt s reqA.InvoiceID = .ok inv)
    (ht : inv.Total.isFinite = true)
    (e1 : float64.exactAdd inv.PaidAmount reqA.Amount = true)
    (e2 : float64.exactAdd (fp.capped inv.PaidAmount reqA.Amount inv.Total) reqB.Amount
      = true)
    (e3 : float64.exactAdd inv.PaidAmount reqB.Amount = true)
    (e4 : float64.exactAdd (fp.capped inv.PaidAmount reqB.Amount inv.Total) reqA.Amount
      = true) :
    ∃ ab ba,
      fp.PaymentRepository.GetInvoice rt (fp.recordAll s [(rtA, reqA), (rtB, reqB)])
        reqA.InvoiceID = .ok ab ∧
      fp.PaymentRepository.GetInvoice rt (fp.recordAll s [(rtB, reqB), (rtA, reqA)])
        reqA.InvoiceID = .ok ba ∧
      float64.eq ab.PaidAmount ba.PaidAmount = true ∧
      ab.PaymentStatus = ba.PaymentStatus ∧
      ab.PaidAmount.toRat
        = min (inv.PaidAmount.toRat + reqA.Amount.toRat + reqB.Amount.toRat)
            inv.Total.toRat ∧
      (ab.PaymentStatus = "paid" ↔
        inv.PaidAmount.toRat + reqA.Amount.toRat + reqB.Amount.toRat ≥ inv.Total.toRat) := by
  have hfa : reqA.Amount.isFinite = true :=
    (float64.isFinite_of_add _ _ ((float64.exactAdd_iff _ _).mp e1).1).2
  have hfb : reqB.Amount.isFinite = true :=
    (float64.isFinite_of_add _ _ ((float64.exactAdd_iff _ _).mp e3).1).2
  obtain ⟨hla, hpa⟩ := float64.pos_of_gt_zero _ hfa ha
  obtain ⟨hlb, hpb⟩ := float64.pos_of_gt_zero _ hfb hb
  obtain ⟨hc1, hv1, _⟩ := capped_exact _ _ _ ht e1
  obtain ⟨hc2, hv2, hs2⟩ := capped_exact _ _ _ ht e2
  obtain ⟨hc3, hv3, _⟩ := capped_exact _ _ _ ht e3
  obtain ⟨hc4, hv4, hs4⟩ := capped_exact _ _ _ ht e4
  obtain ⟨ab, hab, habp, habs⟩ :=
    fp_two_payments_recorded rt rtA rtB s reqA reqB inv h hA hB hid hsame hla hlb hfa hfb
      hc1 hc2 hmA hmB hget
  have hidB : reqB.InvoiceID ≠ "" := by rw [hsame]; exact hid
  have hgetB : fp.PaymentRepository.GetInvoice rt s reqB.InvoiceID = .ok inv := by
    rw [hsame]; exact hget
  obtain ⟨ba, hba, hbap, hbas⟩ :=
    fp_two_payments_recorded rt rtB rtA s reqB reqA inv h hB hA hidB hsame.symm hlb hla hfb hfa
      hc3 hc4 hmB hmA hgetB
  rw [hsame] at hba
  obtain ⟨hcapA, hstA⟩ := cap_twice inv.PaidAmount.toRat reqA.Amount.toRat
    reqB.Amount.toRat inv.Total.toRat (le_of_lt hpb)
  obtain ⟨hcapB, hstB⟩ := cap_twice inv.PaidAmount.toRat reqB.Amount.toRat
    reqA.Amount.toRat inv.Total.toRat (le_of_lt hpa)
  have hsum : inv.PaidAmount.toRat + reqB.Amount.toRat + reqA.Amount.toRat
      = inv.PaidAmount.toRat + reqA.Amount.toRat + reqB.Amount.toRat := add_right_comm _ _ _
  rw [hsum] at hcapB hstB
  have hvalA : ab.PaidAmount.toRat
      = min (inv.PaidAmount.toRat + reqA.Amount.toRat + reqB.Amount.toRat)
          inv.Total.toRat := by
    rw [habp, hv2, hv1]; exact hcapA
  have hvalB : ba.PaidAmount.toRat
      = min (inv.PaidAmount.toRat + reqA.Amount.toRat + reqB.Amount.toRat)
          inv.Total.toRat := by
    rw [hbap, hv4, hv3]; exact hcapB
  have hpaidA : ab.PaymentStatus = "paid" ↔
      inv.PaidAmount.toRat + reqA.Amount.toRat + reqB.Amount.toRat ≥ inv.Total.toRat := by
    rw [habs, ← hstA, ← hv1, ← hs2]
    unfold fp.statusAfter
    by_cases hc : float64.ge (fp.capped inv.PaidAmount reqA.Amount inv.Total + reqB.Amount)
        inv.Total = true
    · simp [hc]
    · simp [hc]
  have hpaidB : ba.PaymentStatus = "paid" ↔
      inv.PaidAmount.toRat + reqA.Amount.toRat + reqB.Amount.toRat ≥ inv.Total.toRat := by
    rw [hbas, ← hstB, ← hv3, ← hs4]
    unfold fp.statusAfter
    by_cases hc : float64.ge (fp.capped inv.PaidAmount reqB.Amount inv.Total + reqA.Amount)
        inv.Total = true
    · simp [hc]
    · simp [hc]
  have hfinA : ab.PaidAmount.isFinite = true := by rw [habp]; exact hc2
  have hfinB : ba.PaidAmount.isFinite = true := by rw [hbap]; exact hc4
  refine ⟨ab, ba, hab, hba, ?_, ?_, hvalA, hpaidA⟩
  · unfold float64.eq
    rw [Bool.and_eq_true, float64.le_iff_toRat _ _ hfinA hfinB,
      float64.le_iff_toRat _ _ hfinB hfinA, hvalA, hvalB]
    exact ⟨le_refl _, le_refl _⟩
  · have hcases : ∀ r : fp.Invoice, ∀ x y z : float64,
        r.PaymentStatus = fp.statusAfter x y z →
        r.PaymentStatus = "paid" ∨ r.PaymentStatus = "partially_paid" := by
      intro r x y z hr
      rw [hr]; unfold fp.statusAfter
      split
      · exact Or.inl rfl
      · exact Or.inr rfl
    rcases hcases ab _ _ _ habs with h1 | h1 <;> rcases hcases ba _ _ _ hbas with h2 | h2
    · rw [h1, h2]
    · exact absurd (hpaidB.mpr (hpaidA.mp h1)) (by rw [h2]; decide)
    · exact absurd (hpaidA.mpr (hpaidB.mp h2)) (by rw [h1]; decide)
    · rw [h1, h2]

/-- C26 (as amended) on an invoice of total 100 with 30 paid and payments of 50
and 40. -/
theorem payment_order_independent_when_exact_witness :
    ∃ ab ba,
      fp.PaymentRepository.GetInvoice exRemote
        (fp.recordAll (fp.exStore (float64.ofInt 100) (float64.ofInt 30))
          [(exRemote, fp.paymentOf "inv-1" (float64.ofInt 50)),
           (exRemoteB, fp.paymentOf "inv-1" (float64.ofInt 40))])
        "inv-1" = .ok ab ∧
      fp.PaymentRepository.GetInvoice exRemote
        (fp.recordAll (fp.exStore (float64.ofInt 100) (float64.ofInt 30))
          [(exRemoteB, fp.paymentOf "inv-1" (float64.ofInt 40)),
           (exRemote, fp.paymentOf "inv-1" (float64.ofInt 50))])
        "inv-1" = .ok ba ∧
      float64.eq ab.PaidAmount ba.PaidAmount = true ∧
      ab.PaymentStatus = ba.PaymentStatus ∧
      ab.PaidAmount.toRat
        = min ((float64.ofInt 30).toRat + (float64.ofInt 50).toRat + (float64.ofInt 40).toRat)
            (float64.ofInt 100).toRat ∧
      (ab.PaymentStatus = "paid" ↔
        (float64.ofInt 30).toRat + (float64.ofInt 50).toRat + (float64.ofInt 40).toRat
          ≥ (float64.ofInt 100).toRat) :=
  payment_order_independent_when_exact exRemote exRemote exRemoteB
    (fp.exStore (float64.ofInt 100) (float64.ofInt 30))
    (fp.paymentOf "inv-1" (float64.ofInt 50)) (fp.paymentOf "inv-1" (float64.ofInt 40))
    (fp.exInvoice (float64.ofInt 100) (float64.ofInt 30))
    ⟨rfl, rfl, rfl⟩ ⟨rfl, rfl, rfl⟩ ⟨rfl, rfl, rfl⟩
    (by decide) rfl (by decide) (by decide) (by decide) (by decide) rfl (by decide)
    (by decide) (by decide) (by decide) (by decide)

/-- C26 fails on the code: on an invoice of total 0.8 with 0.5 paid, recording
0.1 then 0.2 ends `paid` with paid amount 0.8, recording 0.2 then 0.1 ends
`partially_paid` with paid amount 0.7999999999999999 (all remote calls succeed,
both amounts are greater than zero and 0 <= 0.5 <= 0.8). -/
theorem payment_order_matters :
    float64.gt (fp.dec 1 1) 0 = true ∧ float64.gt (fp.dec 2 1) 0 = true ∧
    float64.le 0 (fp.dec 5 1) = true ∧ float64.le (fp.dec 5 1) (fp.dec 8 1) = true ∧
    (fp.PaymentHandler.Create exRemote (fp.exStore (fp.dec 8 1) (fp.dec 5 1))
      (some (fp.paymentOf "inv-1" (fp.dec 1 1)))).1.StatusCode = 201 ∧
    (fp.PaymentHandler.Create exRemoteB
      (fp.PaymentHandler.Create exRemote (fp.exStore (fp.dec 8 1) (fp.dec 5 1))
        (some (fp.paymentOf "inv-1" (fp.dec 1 1)))).2
      (some (fp.paymentOf "inv-1" (fp.dec 2 1)))).1.StatusCode = 201 ∧
    (fp.PaymentHandler.Create exRemoteB (fp.exStore (fp.dec 8 1) (fp.dec 5 1))
      (some (fp.paymentOf "inv-1" (fp.dec 2 1)))).1.StatusCode = 201 ∧
    (fp.PaymentHandler.Create exRemote
      (fp.PaymentHandler.Create exRemoteB (fp.exStore (fp.dec 8 1) (fp.dec 5 1))
        (some (fp.paymentOf "inv-1" (fp.dec 2 1)))).2
      (some (fp.paymentOf "inv-1" (fp.dec 1 1)))).1.StatusCode = 201 ∧
    (fp.recordAll (fp.exStore (fp.dec 8 1) (fp.dec 5 1))
        [(exRemote, fp.paymentOf "inv-1" (fp.dec 1 1)),
         (exRemoteB, fp.paymentOf "inv-1" (fp.dec 2 1))]).invoices.map
      (fun r => (r.ID, r.PaymentStatus, r.PaidAmount))
      = [("inv-1", "paid", fp.dec 8 1)] ∧
    (fp.recordAll (fp.exStore (fp.dec 8 1) (fp.dec 5 1))
        [(exRemoteB, fp.paymentOf "inv-1" (fp.dec 2 1)),
         (exRemote, fp.paymentOf "inv-1" (fp.dec 1 1))]).invoices.map
      (fun r => (r.ID, r.PaymentStatus, r.PaidAmount))
      = [("inv-1", "partially_paid", fp.dec 7999999999999999 16)] ∧
    float64.eq (fp.dec 8 1) (fp.dec 7999999999999999 16) = false := by
  refine ⟨by decide, by decide, by decide, by decide, by decide, by decide, by decide,
    by decide, by decide, by decide, by decide⟩

/-- A field that each turn of a loop leaves alone or adds a part of the element
to ends as the sum, accumulated in list order, of the parts. -/
theorem foldl_field_eq {σ ι : Type} (step : σ → ι → σ) (get : σ → float64)
    (part : ι → Option float64)
    (hstep : ∀ st x, get (step st x)
      = match part x with
        | some v => get st + v
        | none => get st)
    (l : List ι) :
    ∀ st, get (l.foldl step st) = (l.filterMap part).foldl (fun acc x => acc + x) (get st) := by
  induction l with
  | nil => intro st; rfl
  | cons x rest ih =>
    intro st
    rw [List.foldl_cons, ih (step st x), hstep st x]
    cases hp : part x with
    | none => simp [List.filterMap_cons, hp]
    | some v => simp [List.filterMap_cons, hp]

theorem fp_analyticsOverdue_fields (tl : TimeLib) (stats : fp.DashboardStats)
    (inv : fp.Invoice) :
    (fp.analyticsOverdue tl stats inv).TotalRevenue = stats.TotalRevenue ∧
    (fp.analyticsOverdue tl stats inv).PaidAmount = stats.PaidAmount ∧
    (fp.analyticsOverdue tl stats inv).UnpaidAmount = stats.UnpaidAmount := by
  unfold fp.analyticsOverdue
  split
  · split
    · split <;> simp
    · simp
  · simp

theorem fp_analyticsStep_fields (tl : TimeLib) (stats : fp.DashboardStats) (inv : fp.Invoice) :
    (fp.analyticsStep tl stats inv).TotalRevenue = stats.TotalRevenue + inv.Total ∧
    (fp.analyticsStep tl stats inv).PaidAmount
      = (match fp.paidPart inv with
        | some v => stats.PaidAmount + v
        | none => stats.PaidAmount) ∧
    (fp.analyticsStep tl stats inv).UnpaidAmount
      = (match fp.unpaidPart inv with
        | some v => stats.UnpaidAmount + v
        | none => stats.UnpaidAmount) := by
  unfold fp.analyticsStep
  obtain ⟨h1, h2, h3⟩ := fp_analyticsOverdue_fields tl
    (fp.analyticsSwitch { stats with TotalRevenue := stats.TotalRevenue + inv.Total,
                                     TotalInvoices := stats.TotalInvoices + 1 } inv) inv
  simp only [h1, h2, h3]
  unfold fp.analyticsSwitch fp.paidPart fp.unpaidPart
  by_cases hp : inv.PaymentStatus = "paid"
  · simp [hp]
  · by_cases hu : inv.PaymentStatus = "unpaid"
    · simp [hu]
    · by_cases hpp : inv.PaymentStatus = "partially_paid"
      · simp [hpp]
      · simp [hp, hu, hpp]

theorem fp_dashboardStep_fields (stats : fp.db.DashboardStats) (inv : fp.Invoice) :
    (fp.db.dashboardStep stats inv).TotalRevenue = stats.TotalRevenue + inv.Total ∧
    (fp.db.dashboardStep stats inv).PaidAmount
      = (match fp.paidPart inv with
        | some v => stats.PaidAmount + v
        | none => stats.PaidAmount) ∧
    (fp.db.dashboardStep stats inv).UnpaidAmount
      = (match fp.unpaidPart inv with
        | some v => stats.UnpaidAmount + v
        | none => stats.UnpaidAmount) := by
  unfold fp.db.dashboardStep fp.paidPart fp.unpaidPart
  by_cases hp : inv.PaymentStatus = "paid"
  · simp [hp]
  · by_cases hpp : inv.PaymentStatus = "partially_paid"
    · simp [hpp]
    · by_cases ho : inv.PaymentStatus = "overdue"
      · simp [ho]
      · by_cases hu : inv.PaymentStatus = "unpaid"
        · simp [hu]
        · simp [hp, hu, hpp, ho]

theorem fp_analytics_fold_fields (tl : TimeLib) (invoices : List fp.Invoice)
    (stats : fp.DashboardStats)
    (h0 : stats.TotalRevenue = 0 ∧ stats.PaidAmount = 0 ∧ stats.UnpaidAmount = 0) :
    (invoices.foldl (fp.analyticsStep tl) stats).TotalRevenue
      = fp.sum (invoices.map (fun r => r.Total)) ∧
    (invoices.foldl (fp.analyticsStep tl) stats).PaidAmount
      = fp.sum (invoices.filterMap fp.paidPart) ∧
    (invoices.foldl (fp.analyticsStep tl) stats).UnpaidAmount
      = fp.sum (invoices.filterMap fp.unpaidPart) := by
  obtain ⟨z1, z2, z3⟩ := h0
  refine ⟨?_, ?_, ?_⟩
  · have h := foldl_field_eq (fp.analyticsStep tl) (fun st => st.TotalRevenue)
      (fun r => some r.Total) (fun st x => (fp_analyticsStep_fields tl st x).1) invoices stats
    rw [h, z1]
    have hm : invoices.filterMap (fun r => some r.Total) = invoices.map (fun r => r.Total) :=
      congrFun (List.filterMap_eq_map (fun r : fp.Invoice => r.Total)) invoices
    rw [hm]; rfl
  · have h := foldl_field_eq (fp.analyticsStep tl) (fun st => st.PaidAmount)
      fp.paidPart (fun st x => (fp_analyticsStep_fields tl st x).2.1) invoices stats
    rw [h, z2]; rfl
  · have h := foldl_field_eq (fp.analyticsStep tl) (fun st => st.UnpaidAmount)
      fp.unpaidPart (fun st x => (fp_analyticsStep_fields tl st x).2.2) invoices stats
    rw [h, z3]; rfl

theorem fp_monolith_fold_fields (invoices : List fp.Invoice) (stats : fp.db.DashboardStats)
    (h0 : stats.TotalRevenue = 0 ∧ stats.PaidAmount = 0 ∧ stats.UnpaidAmount = 0) :
    (invoices.foldl fp.db.dashboardStep stats).TotalRevenue
      = fp.sum (invoices.map (fun r => r.Total)) ∧
    (invoices.foldl fp.db.dashboardStep stats).PaidAmount
      = fp.sum (invoices.filterMap fp.paidPart) ∧
    (invoices.foldl fp.db.dashboardStep stats).UnpaidAmount
      = fp.sum (invoices.filterMap fp.unpaidPart) := by
  obtain ⟨z1, z2, z3⟩ := h0
  refine ⟨?_, ?_, ?_⟩
  · have h := foldl_field_eq fp.db.dashboardStep (fun st => st.TotalRevenue)
      (fun r => some r.Total) (fun st x => (fp_dashboardStep_fields st x).1) invoices stats
    rw [h, z1]
    have hm : invoices.filterMap (fun r => some r.Total) = invoices.map (fun r => r.Total) :=
      congrFun (List.filterMap_eq_map (fun r : fp.Invoice => r.Total)) invoices
    rw [hm]; rfl
  · have h := foldl_field_eq fp.db.dashboardStep (fun st => st.PaidAmount)
      fp.paidPart (fun st x => (fp_dashboardStep_fields st x).2.1) invoices stats
    rw [h, z2]; rfl
  · have h := foldl_field_eq fp.db.dashboardStep (fun st => st.UnpaidAmount)
      fp.unpaidPart (fun st x => (fp_dashboardStep_fields st x).2.2) invoices stats
    rw [h, z3]; rfl

/-- C4 (as amended). Both `GetDashboardStats` return, over the fetched invoices
and in `float64` arithmetic, total_revenue = the sum accumulated in list order of
the totals, paid_amount = the sum accumulated in list order of the total of each
paid and the paid amount of each partially paid invoice, unpaid_amount = the sum
accumulated in list order of the total of each unpaid and `total - paid_amount`
of each partially paid invoice; on [{100, paid}, {50, 20 paid, partially_paid}]
that is 150, 120 and 30. -/
theorem dashboard_stats_float64_sums (tl : TimeLib) (rt : Remote) (s : fp.Store)
    (currency : String) (hrt : rt.selectFails = false) :
    (∃ stats, fp.AnalyticsRepository.GetDashboardStats tl rt s currency = .ok stats ∧
      stats.TotalRevenue = fp.sum ((fp.selectByCurrency s currency).map (fun r => r.Total)) ∧
      stats.PaidAmount = fp.sum ((fp.selectByCurrency s currency).filterMap fp.paidPart) ∧
      stats.UnpaidAmount
        = fp.sum ((fp.selectByCurrency s currency).filterMap fp.unpaidPart)) ∧
    (∃ stats, fp.db.Client.GetDashboardStats rt s currency = .ok stats ∧
      stats.TotalRevenue = fp.sum ((fp.selectByCurrency s currency).map (fun r => r.Total)) ∧
      stats.PaidAmount = fp.sum ((fp.selectByCurrency s currency).filterMap fp.paidPart) ∧
      stats.UnpaidAmount
        = fp.sum ((fp.selectByCurrency s currency).filterMap fp.unpaidPart)) ∧
    (∃ stats, fp.AnalyticsRepository.GetDashboardStats tl rt fp.exDashboardStore "ALL"
        = .ok stats ∧
      stats.TotalRevenue = float64.ofInt 150 ∧ stats.PaidAmount = float64.ofInt 120 ∧
      stats.UnpaidAmount = float64.ofInt 30) ∧
    (∃ stats, fp.db.Client.GetDashboardStats rt fp.exDashboardStore "ALL" = .ok stats ∧
      stats.TotalRevenue = float64.ofInt 150 ∧ stats.PaidAmount = float64.ofInt 120 ∧
      stats.UnpaidAmount = float64.ofInt 30) := by
  have hA : ∀ (s : fp.Store) (currency : String),
      ∃ stats, fp.AnalyticsRepository.GetDashboardStats tl rt s currency = .ok stats ∧
      stats.TotalRevenue = fp.sum ((fp.selectByCurrency s currency).map (fun r => r.Total)) ∧
      stats.PaidAmount = fp.sum ((fp.selectByCurrency s currency).filterMap fp.paidPart) ∧
      stats.UnpaidAmount
        = fp.sum ((fp.selectByCurrency s currency).filterMap fp.unpaidPart) := by
    intro s currency
    refine ⟨_, ?_, fp_analytics_fold_fields tl (fp.selectByCurrency s currency)
      { TotalRevenue := 0, PaidAmount := 0, UnpaidAmount := 0, OverdueAmount := 0,
        TotalInvoices := 0, PaidInvoices := 0, UnpaidInvoices := 0, OverdueInvoices := 0 }
      ⟨rfl, rfl, rfl⟩⟩
    unfold fp.AnalyticsRepository.GetDashboardStats
    simp only [hrt, Bool.false_eq_true, if_false]
  have hM : ∀ (s : fp.Store) (currency : String),
      ∃ stats, fp.db.Client.GetDashboardStats rt s currency = .ok stats ∧
      stats.TotalRevenue = fp.sum ((fp.selectByCurrency s currency).map (fun r => r.Total)) ∧
      stats.PaidAmount = fp.sum ((fp.selectByCurrency s currency).filterMap fp.paidPart) ∧
      stats.UnpaidAmount
        = fp.sum ((fp.selectByCurrency s currency).filterMap fp.unpaidPart) := by
    intro s currency
    refine ⟨_, ?_, fp_monolith_fold_fields (fp.selectByCurrency s currency)
      { TotalRevenue := 0, PaidAmount := 0, UnpaidAmount := 0, OverdueAmount := 0,
        TotalInvoices := 0, PaidInvoices := 0, UnpaidInvoices := 0, OverdueInvoices := 0,
        PartiallyPaid := 0, Currency := currency } ⟨rfl, rfl, rfl⟩⟩
    unfold fp.db.Client.GetDashboardStats
    simp only [hrt, Bool.false_eq_true, if_false]
  refine ⟨hA s currency, hM s currency, ?_, ?_⟩
  · obtain ⟨stats, hst, h1, h2, h3⟩ := hA fp.exDashboardStore "ALL"
    refine ⟨stats, hst, ?_, ?_, ?_⟩
    · rw [h1]; decide
    · rw [h2]; decide
    · rw [h3]; decide
  · obtain ⟨stats, hst, h1, h2, h3⟩ := hM fp.exDashboardStore "ALL"
    refine ⟨stats, hst, ?_, ?_, ?_⟩
    · rw [h1]; decide
    · rw [h2]; decide
    · rw [h3]; decide

/-- C4 (as amended) with a healthy remote store on three paid invoices of totals
0.1, 0.2 and 0.3. -/
theorem dashboard_stats_float64_sums_witness :
    (∃ stats, fp.AnalyticsRepository.GetDashboardStats exTime exRemote fp.exTenthsStore "USD"
        = .ok stats ∧
      stats.TotalRevenue
        = fp.sum ((fp.selectByCurrency fp.exTenthsStore "USD").map (fun r => r.Total)) ∧
      stats.PaidAmount
        = fp.sum ((fp.selectByCurrency fp.exTenthsStore "USD").filterMap fp.paidPart) ∧
      stats.UnpaidAmount
        = fp.sum ((fp.selectByCurrency fp.exTenthsStore "USD").filterMap fp.unpaidPart)) ∧
    (∃ stats, fp.db.Client.GetDashboardStats exRemote fp.exTenthsStore "USD" = .ok stats ∧
      stats.TotalRevenue
        = fp.sum ((fp.selectByCurrency fp.exTenthsStore "USD").map (fun r => r.Total)) ∧
      stats.PaidAmount
        = fp.sum ((fp.selectByCurrency fp.exTenthsStore "USD").filterMap fp.paidPart) ∧
      stats.UnpaidAmount
        = fp.sum ((fp.selectByCurrency fp.exTenthsStore "USD").filterMap fp.unpaidPart)) ∧
    (∃ stats, fp.AnalyticsRepository.GetDashboardStats exTime exRemote fp.exDashboardStore
        "ALL" = .ok stats ∧
      stats.TotalRevenue = float64.ofInt 150 ∧ stats.PaidAmount = float64.ofInt 120 ∧
      stats.UnpaidAmount = float64.ofInt 30) ∧
    (∃ stats, fp.db.Client.GetDashboardStats exRemote fp.exDashboardStore "ALL" = .ok stats ∧
      stats.TotalRevenue = float64.ofInt 150 ∧ stats.PaidAmount = float64.ofInt 120 ∧
      stats.UnpaidAmount = float64.ofInt 30) :=
  dashboard_stats_float64_sums exTime exRemote fp.exTenthsStore "USD" rfl

/-- C4 fails on the exact amounts: for three paid invoices of totals 0.1, 0.2 and
0.3 both `GetDashboardStats` return total_revenue and paid_amount
0.6000000000000001, which is neither the `float64` 0.6 nor the exact sum of the
three totals. -/
theorem dashboard_sums_round :
    (fp.AnalyticsRepository.GetDashboardStats exTime exRemote fp.exTenthsStore "ALL").toOption.map
        (fun st => (st.TotalRevenue, st.PaidAmount))
      = some (fp.dec 6000000000000001 16, fp.dec 6000000000000001 16) ∧
    (fp.db.Client.GetDashboardStats exRemote fp.exTenthsStore "ALL").toOption.map
        (fun st => (st.TotalRevenue, st.PaidAmount))
      = some (fp.dec 6000000000000001 16, fp.dec 6000000000000001 16) ∧
    float64.eq (fp.dec 6000000000000001 16) (fp.dec 6 1) = false ∧
    (fp.dec 6000000000000001 16).toRat
      ≠ (fp.dec 1 1).toRat + (fp.dec 2 1).toRat + (fp.dec 3 1).toRat := by
  have h1 : fp.dec 1 1 = .finite false 7205759403792794 (-56) := by decide
  have h2 : fp.dec 2 1 = .finite false 7205759403792794 (-55) := by decide
  have h3 : fp.dec 3 1 = .finite false 5404319552844595 (-54) := by decide
  have h6 : fp.dec 6000000000000001 16 = .finite false 5404319552844596 (-53) := by decide
  refine ⟨by decide, by decide, by decide, ?_⟩
  rw [h1, h2, h3, h6]; norm_num [float64.toRat]

/-- The exact value of `-x`. -/
theorem float64.toRat_neg (x : float64) : (float64.neg x).toRat = -x.toRat := by
  cases x with
  | nan => simp [float64.neg, float64.toRat]
  | inf a => simp [float64.neg, float64.toRat]
  | finite n m e => cases n <;> simp [float64.neg, float64.toRat]

/-- A subtraction that does not round is finite and exact. -/
theorem float64.exactSub_exact (x y : float64) (h : float64.exactSub x y = true) :
    (x - y).isFinite = true ∧ (x - y).toRat = x.toRat - y.toRat := by
  obtain ⟨h1, h2⟩ := (float64.exactAdd_iff x (float64.neg y)).mp h
  refine ⟨h1, ?_⟩
  have h3 : (x - y).toRat = (x + float64.neg y).toRat := rfl
  rw [h3, h2, float64.toRat_neg]; ring

/-- One turn of the monolith dashboard loop counts the invoice once in the
total and once under its status. -/
theorem fp_dashboardStep_counts (stats : fp.db.DashboardStats) (inv : fp.Invoice) :
    (fp.db.dashboardStep stats inv).TotalInvoices = stats.TotalInvoices + 1 ∧
    (fp.db.dashboardStep stats inv).PaidInvoices
      = stats.PaidInvoices + (if inv.PaymentStatus = "paid" then 1 else 0) ∧
    (fp.db.dashboardStep stats inv).PartiallyPaid
      = stats.PartiallyPaid + (if inv.PaymentStatus = "partially_paid" then 1 else 0) ∧
    (fp.db.dashboardStep stats inv).UnpaidInvoices
      = stats.UnpaidInvoices + (if inv.PaymentStatus = "unpaid" then 1 else 0) ∧
    (fp.db.dashboardStep stats inv).OverdueInvoices
      = stats.OverdueInvoices + (if inv.PaymentStatus = "overdue" then 1 else 0) := by
  unfold fp.db.dashboardStep
  by_cases hp : inv.PaymentStatus = "paid"
  · simp [hp]
  · by_cases hpp : inv.PaymentStatus = "partially_paid"
    · simp [hpp]
    · by_cases ho : inv.PaymentStatus = "overdue"
      · simp [ho]
      · by_cases hu : inv.PaymentStatus = "unpaid"
        · simp [hu]
        · simp [hp, hu, hpp, ho]

/-- The counters of the monolith dashboard loop. -/
theorem fp_dashboard_fold_counts (invoices : List fp.Invoice) :
    ∀ stats : fp.db.DashboardStats,
      (invoices.foldl fp.db.dashboardStep stats).TotalInvoices
        = stats.TotalInvoices + invoices.length ∧
      (invoices.foldl fp.db.dashboardStep stats).PaidInvoices
        = stats.PaidInvoices + invoices.countP (fun r => r.PaymentStatus = "paid") ∧
      (invoices.foldl fp.db.dashboardStep stats).PartiallyPaid
        = stats.PartiallyPaid
          + invoices.countP (fun r => r.PaymentStatus = "partially_paid") ∧
      (invoices.foldl fp.db.dashboardStep stats).UnpaidInvoices
        = stats.UnpaidInvoices + invoices.countP (fun r => r.PaymentStatus = "unpaid") ∧
      (invoices.foldl fp.db.dashboardStep stats).OverdueInvoices
        = stats.OverdueInvoices + invoices.countP (fun r => r.PaymentStatus = "overdue") := by
  induction invoices with
  | nil => intro stats; simp
  | cons inv rest ih =>
    intro stats
    obtain ⟨h1, h2, h3, h4, h5⟩ := ih (fp.db.dashboardStep stats inv)
    obtain ⟨g1, g2, g3, g4, g5⟩ := fp_dashboardStep_counts stats inv
    simp only [List.foldl_cons, List.length_cons, List.countP_cons]
    rw [h1, h2, h3, h4, h5, g1, g2, g3, g4, g5]
    refine ⟨?_, ?_, ?_, ?_, ?_⟩
    · push_cast; ring
    · by_cases h : inv.PaymentStatus = "paid"
      · simp [h]; ring
      · simp [h]
    · by_cases h : inv.PaymentStatus = "partially_paid"
      · simp [h]; ring
      · simp [h]
    · by_cases h : inv.PaymentStatus = "unpaid"
      · simp [h]; ring
      · simp [h]
    · by_cases h : inv.PaymentStatus = "overdue"
      · simp [h]; ring
      · simp [h]

/-- The four statuses split a list: the four counts add up to its length. -/
theorem status_counts_add_up (invoices : List fp.Invoice)
    (h : ∀ inv ∈ invoices, inv.PaymentStatus = "paid" ∨
      inv.PaymentStatus = "partially_paid" ∨ inv.PaymentStatus = "unpaid" ∨
      inv.PaymentStatus = "overdue") :
    invoices.countP (fun r => r.PaymentStatus = "paid")
      + invoices.countP (fun r => r.PaymentStatus = "partially_paid")
      + invoices.countP (fun r => r.PaymentStatus = "unpaid")
      + invoices.countP (fun r => r.PaymentStatus = "overdue") = invoices.length := by
  induction invoices with
  | nil => rfl
  | cons inv rest ih =>
    have ih2 := ih (fun r hr => h r (List.mem_cons_of_mem _ hr))
    simp only [List.countP_cons, List.length_cons]
    rcases h inv (List.mem_cons_self _ _) with h1 | h1 | h1 | h1 <;>
      simp [h1] <;> omega

/-- One turn of the monolith dashboard loop in which nothing rounds keeps the
balance of the exact amounts, when the status is one of the four. -/
theorem fp_dashboardStep_balance (stats : fp.db.DashboardStats) (inv : fp.Invoice)
    (h : inv.PaymentStatus = "paid" ∨ inv.PaymentStatus = "partially_paid" ∨
      inv.PaymentStatus = "unpaid" ∨ inv.PaymentStatus = "overdue")
    (hex : fp.db.stepExact stats inv = true) :
    (fp.db.dashboardStep stats inv).PaidAmount.toRat
        + (fp.db.dashboardStep stats inv).UnpaidAmount.toRat
        + (fp.db.dashboardStep stats inv).OverdueAmount.toRat
        - (fp.db.dashboardStep stats inv).TotalRevenue.toRat
      = stats.PaidAmount.toRat + stats.UnpaidAmount.toRat + stats.OverdueAmount.toRat
        - stats.TotalRevenue.toRat := by
  unfold fp.db.stepExact at hex
  rw [Bool.and_eq_true] at hex
  obtain ⟨hT, hrest⟩ := hex
  have eT := ((float64.exactAdd_iff _ _).mp hT).2
  unfold fp.db.dashboardStep
  rcases h with h | h | h | h
  · simp only [h, if_true] at hrest ⊢
    have e1 := ((float64.exactAdd_iff _ _).mp hrest).2
    simp only [e1, eT]
    ring
  · have h1 : ¬ ("partially_paid" = "paid") := by decide
    simp only [h, h1, if_true, if_false, Bool.and_eq_true] at hrest ⊢
    obtain ⟨⟨hP, hS⟩, hU⟩ := hrest
    have e1 := ((float64.exactAdd_iff _ _).mp hP).2
    have e2 := (float64.exactSub_exact _ _ hS).2
    have e3 := ((float64.exactAdd_iff _ _).mp hU).2
    simp only [e1, e3, e2, eT]
    ring
  · have h1 : ¬ ("unpaid" = "paid") := by decide
    have h2 : ¬ ("unpaid" = "partially_paid") := by decide
    have h3 : ¬ ("unpaid" = "overdue") := by decide
    simp only [h, h1, h2, h3, if_true, if_false] at hrest ⊢
    have e1 := ((float64.exactAdd_iff _ _).mp hrest).2
    simp only [e1, eT]
    ring
  · have h1 : ¬ ("overdue" = "paid") := by decide
    have h2 : ¬ ("overdue" = "partially_paid") := by decide
    simp only [h, h1, h2, if_true, if_false] at hrest ⊢
    have e1 := ((float64.exactAdd_iff _ _).mp hrest).2
    simp only [e1, eT]
    ring

/-- The monolith dashboard loop keeps the balance of the exact amounts as long
as nothing rounds. -/
theorem fp_dashboard_fold_balance (invoices : List fp.Invoice) :
    ∀ stats : fp.db.DashboardStats,
      (∀ inv ∈ invoices, inv.PaymentStatus = "paid" ∨ inv.PaymentStatus = "partially_paid" ∨
        inv.PaymentStatus = "unpaid" ∨ inv.PaymentStatus = "overdue") →
      fp.db.loopExact stats invoices = true →
      (invoices.foldl fp.db.dashboardStep stats).PaidAmount.toRat
          + (invoices.foldl fp.db.dashboardStep stats).UnpaidAmount.toRat
          + (invoices.foldl fp.db.dashboardStep stats).OverdueAmount.toRat
          - (invoices.foldl fp.db.dashboardStep stats).TotalRevenue.toRat
        = stats.PaidAmount.toRat + stats.UnpaidAmount.toRat + stats.OverdueAmount.toRat
          - stats.TotalRevenue.toRat := by
  induction invoices with
  | nil => intro stats _ _; rfl
  | cons inv rest ih =>
    intro stats h hex
    simp only [List.foldl_cons]
    simp only [fp.db.loopExact, Bool.and_eq_true] at hex
    have h1 := ih (fp.db.dashboardStep stats inv)
      (fun r hr => h r (List.mem_cons_of_mem _ hr)) hex.2
    have h3 := fp_dashboardStep_balance stats inv (h inv (List.mem_cons_self _ _)) hex.1
    exact h1.trans h3

/-- One turn of the monolith dashboard loop adds the total of an overdue invoice
to the overdue amount and leaves it alone otherwise. -/
theorem fp_dashboardStep_overdue (stats : fp.db.DashboardStats) (inv : fp.Invoice) :
    (fp.db.dashboardStep stats inv).OverdueAmount
      = (match fp.db.overduePart inv with
        | some v => stats.OverdueAmount + v
        | none => stats.OverdueAmount) := by
  unfold fp.db.dashboardStep fp.db.overduePart
  by_cases hp : inv.PaymentStatus = "paid"
  · simp [hp]
  · by_cases hpp : inv.PaymentStatus = "partially_paid"
    · simp [hpp]
    · by_cases ho : inv.PaymentStatus = "overdue"
      · simp [ho]
      · by_cases hu : inv.PaymentStatus = "unpaid"
        · simp [hu]
        · simp [hp, hu, hpp, ho]

/-- C27 (as amended). When every selected invoice has one of the payment
statuses `paid`, `partially_paid`, `unpaid`, `overdue`, the result of
`db.Client.GetDashboardStats` partitions the invoices by count: total_invoices is
the number of selected invoices, each of the four counters is the number of
invoices of its status, and the four counters add up to total_invoices. Each of
the four amounts is the `float64` sum, accumulated in list order, of what the
invoices add to it (total revenue: every total; paid: the total of a paid, the
paid amount of a partially paid invoice; unpaid: the total of an unpaid, the
difference of a partially paid invoice; overdue: the total of an overdue one),
and paid + unpaid + overdue amount = total revenue holds for the exact values
whenever no `float64` addition or subtraction of the loop rounds. -/
theorem monolith_dashboard_count_partition (rt : Remote) (s : fp.Store) (currency : String)
    (hrt : rt.selectFails = false)
    (hstatus : ∀ inv ∈ fp.selectByCurrency s currency,
      inv.PaymentStatus = "paid" ∨ inv.PaymentStatus = "partially_paid" ∨
      inv.PaymentStatus = "unpaid" ∨ inv.PaymentStatus = "overdue") :
    ∃ stats, fp.db.Client.GetDashboardStats rt s currency = .ok stats ∧
      stats.PaidInvoices + stats.PartiallyPaid + stats.UnpaidInvoices + stats.OverdueInvoices
        = stats.TotalInvoices ∧
      stats.TotalInvoices = (fp.selectByCurrency s currency).length ∧
      stats.PaidInvoices
        = (fp.selectByCurrency s currency).countP (fun r => r.PaymentStatus = "paid") ∧
      stats.PartiallyPaid
        = (fp.selectByCurrency s currency).countP
            (fun r => r.PaymentStatus = "partially_paid") ∧
      stats.UnpaidInvoices
        = (fp.selectByCurrency s currency).countP (fun r => r.PaymentStatus = "unpaid") ∧
      stats.OverdueInvoices
        = (fp.selectByCurrency s currency).countP (fun r => r.PaymentStatus = "overdue") ∧
      stats.TotalRevenue = fp.sum ((fp.selectByCurrency s currency).map (fun r => r.Total)) ∧
      stats.PaidAmount = fp.sum ((fp.selectByCurrency s currency).filterMap fp.paidPart) ∧
      stats.UnpaidAmount = fp.sum ((fp.selectByCurrency s currency).filterMap fp.unpaidPart) ∧
      stats.OverdueAmount
        = fp.sum ((fp.selectByCurrency s currency).filterMap fp.db.overduePart) ∧
      (fp.db.loopExact (fp.db.zeroStats currency) (fp.selectByCurrency s currency) = true →
        stats.PaidAmount.toRat + stats.UnpaidAmount.toRat + stats.OverdueAmount.toRat
          = stats.TotalRevenue.toRat) := by
  obtain ⟨c1, c2, c3, c4, c5⟩ :=
    fp_dashboard_fold_counts (fp.selectByCurrency s currency) (fp.db.zeroStats currency)
  have hsum := status_counts_add_up (fp.selectByCurrency s currency) hstatus
  obtain ⟨a1, a2, a3⟩ :=
    fp_monolith_fold_fields (fp.selectByCurrency s currency) (fp.db.zeroStats currency)
      ⟨rfl, rfl, rfl⟩
  simp only [fp.db.zeroStats, zero_add] at c1 c2 c3 c4 c5
  refine ⟨(fp.selectByCurrency s currency).foldl fp.db.dashboardStep
      (fp.db.zeroStats currency), ?_, ?_, c1, c2, c3, c4, c5, a1, a2, a3, ?_, ?_⟩
  · unfold fp.db.Client.GetDashboardStats
    simp only [hrt, Bool.false_eq_true, if_false]
    rfl
  · simp only [fp.db.zeroStats]
    rw [c1, c2, c3, c4, c5]
    exact_mod_cast hsum
  · have h := foldl_field_eq fp.db.dashboardStep (fun st => st.OverdueAmount)
      fp.db.overduePart fp_dashboardStep_overdue
      (fp.selectByCurrency s currency) (fp.db.zeroStats currency)
    rw [h]; rfl
  · intro hex
    have h := fp_dashboard_fold_balance (fp.selectByCurrency s currency)
      (fp.db.zeroStats currency) hstatus hex
    have hz : (0 : float64).toRat = 0 := float64.toRat_zero
    simp only [fp.db.zeroStats, hz, add_zero, sub_zero] at h
    exact sub_eq_zero.mp h

/-- C27 (as amended) on four invoices, one of each status (100 paid, 50 with 20
paid, 30 unpaid, 7 overdue), with amounts that no addition rounds: the counters
partition the four invoices, the amounts are 187, 120, 60 and 7, and they
balance. -/
theorem monolith_dashboard_count_partition_witness :
    fp.db.loopExact (fp.db.zeroStats "USD") (fp.selectByCurrency fp.exFourStore "USD") = true ∧
    ∃ stats, fp.db.Client.GetDashboardStats exRemote fp.exFourStore "USD" = .ok stats ∧
      stats.PaidInvoices + stats.PartiallyPaid + stats.UnpaidInvoices + stats.OverdueInvoices
        = stats.TotalInvoices ∧
      stats.TotalInvoices = 4 ∧
      stats.PaidInvoices = 1 ∧ stats.PartiallyPaid = 1 ∧ stats.UnpaidInvoices = 1 ∧
      stats.OverdueInvoices = 1 ∧
      stats.TotalRevenue = float64.ofInt 187 ∧
      stats.PaidAmount = float64.ofInt 120 ∧
      stats.UnpaidAmount = float64.ofInt 60 ∧
      stats.OverdueAmount = float64.ofInt 7 ∧
      stats.PaidAmount.toRat + stats.UnpaidAmount.toRat + stats.OverdueAmount.toRat
        = stats.TotalRevenue.toRat := by
  obtain ⟨stats, h0, h1, h2, h3, h4, h5, h6, h7, h8, h9, h10, h11⟩ :=
    monolith_dashboard_count_partition exRemote fp.exFourStore "USD" rfl (by decide)
  exact ⟨by decide, stats, h0, h1, h2, h3, h4, h5, h6, h7.trans (by decide),
    h8.trans (by decide), h9.trans (by decide), h10.trans (by decide), h11 (by decide)⟩

/-- C27 fails on the amounts: for one partially paid invoice of total 0.33 with
0.03 paid, `db.Client.GetDashboardStats` returns paid amount 0.03, unpaid amount
0.30000000000000004, overdue amount 0 and total revenue 0.33; the three amounts
add up to 0.33000000000000007 in `float64` and their exact values do not add up
to the exact total revenue. -/
theorem monolith_dashboard_amounts_unbalanced :
    (fp.db.Client.GetDashboardStats exRemote fp.exPartialStore "ALL").toOption.map
        (fun st => (st.PaidAmount, st.UnpaidAmount, st.OverdueAmount, st.TotalRevenue))
      = some (fp.dec 3 2, fp.dec 30000000000000004 17, 0, fp.dec 33 2) ∧
    fp.dec 3 2 + fp.dec 30000000000000004 17 + 0 = fp.dec 33000000000000007 17 ∧
    float64.eq (fp.dec 3 2 + fp.dec 30000000000000004 17 + 0) (fp.dec 33 2) = false ∧
    (fp.dec 3 2).toRat + (fp.dec 30000000000000004 17).toRat + (0 : float64).toRat
      ≠ (fp.dec 33 2).toRat := by
  have h1 : fp.dec 3 2 = .finite false 8646911284551352 (-58) := by decide
  have h2 : fp.dec 30000000000000004 17 = .finite false 5404319552844596 (-54) := by decide
  have h3 : fp.dec 33 2 = .finite false 5944751508129055 (-54) := by decide
  refine ⟨by decide, by decide, by decide, ?_⟩
  rw [h1, h2, h3, float64.toRat_zero]; norm_num [float64.toRat]

theorem mapAddAt_go_eq {β : Type} [Add β] [Zero β] (m : List (String × β)) (k : String)
    (v : β) :
    mapAddAt m k v
      = bumpAt k v (if k ∈ m.map (fun e => e.1) then m else m ++ [(k, 0)]) := by
  unfold mapAddAt bumpAt
  by_cases h : k ∈ m.map (fun e => e.1)
  · have h' := (any_key_iff m k).mpr h
    simp only [h', h, if_true]
  · have h' : (m.any (fun e => decide (e.1 = k))) = false := by
      cases hh : m.any (fun e => decide (e.1 = k))
      · rfl
      · exact absurd ((any_key_iff m k).mp hh) h
    simp only [h', h, if_false, Bool.false_eq_true]

theorem mapAddAt_go_keys {β : Type} [Add β] [Zero β] (m : List (String × β)) (k : String)
    (v : β) :
    (mapAddAt m k v).map (fun e => e.1)
      = if k ∈ m.map (fun e => e.1) then m.map (fun e => e.1)
        else m.map (fun e => e.1) ++ [k] := by
  rw [mapAddAt_go_eq, bumpAt_keys]
  by_cases h : k ∈ m.map (fun e => e.1) <;> simp [h]

theorem mapAddAt_go_nodup {β : Type} [Add β] [Zero β] (m : List (String × β)) (k : String)
    (v : β) (hnd : (m.map (fun e => e.1)).Nodup) :
    ((mapAddAt m k v).map (fun e => e.1)).Nodup := by
  rw [mapAddAt_go_keys]
  by_cases h : k ∈ m.map (fun e => e.1)
  · simpa [h] using hnd
  · simp only [h, if_false]
    rw [List.nodup_append]
    refine ⟨hnd, List.nodup_singleton k, ?_⟩
    intro a ha hb
    have : a = k := by simpa using hb
    exact h (this ▸ ha)

theorem accumulate_go_nodup {β : Type} [Add β] [Zero β] (kvs : List (String × β)) :
    ∀ m : List (String × β), (m.map (fun e => e.1)).Nodup →
      ((accumulate kvs m).map (fun e => e.1)).Nodup := by
  induction kvs with
  | nil => intro m h; exact h
  | cons kv kvs ih =>
    intro m h
    exact ih _ (mapAddAt_go_nodup m kv.1 kv.2 h)

theorem accumulate_go_keys {β : Type} [Add β] [Zero β] (kvs : List (String × β)) :
    ∀ (m : List (String × β)) (k : String),
      k ∈ (accumulate kvs m).map (fun e => e.1)
        ↔ k ∈ m.map (fun e => e.1) ∨ k ∈ kvs.map (fun e => e.1) := by
  induction kvs with
  | nil => intro m k; simp [accumulate]
  | cons kv kvs ih =>
    intro m k
    have h := ih (mapAddAt m kv.1 kv.2) k
    have hstep : accumulate (kv :: kvs) m = accumulate kvs (mapAddAt m kv.1 kv.2) := rfl
    rw [hstep, h, mapAddAt_go_keys]
    by_cases hk : kv.1 ∈ m.map (fun e => e.1)
    · simp only [hk, if_true, List.map_cons, List.mem_cons]
      constructor
      · rintro (h1 | h1)
        · exact Or.inl h1
        · exact Or.inr (Or.inr h1)
      · rintro (h1 | h1 | h1)
        · exact Or.inl h1
        · exact Or.inl (h1 ▸ hk)
        · exact Or.inr h1
    · simp only [hk, if_false, List.map_cons, List.mem_cons, List.mem_append,
        List.mem_singleton]
      tauto

/-- Reading a key after `bumpAt`: the value read before, plus `v` when the key
is the bumped one and is in the map. -/
theorem goLookup_bumpAt {β : Type} [Add β] [Zero β] (k : String) (v : β)
    (m : List (String × β)) (k' : String) :
    goLookup (bumpAt k v m) k'
      = if k' = k ∧ k ∈ m.map (fun e => e.1) then goLookup m k' + v else goLookup m k' := by
  induction m with
  | nil => simp [bumpAt, goLookup]
  | cons e m ih =>
    have hb : bumpAt k v (e :: m) = (if e.1 = k then (e.1, e.2 + v) else e) :: bumpAt k v m :=
      rfl
    rw [hb]
    by_cases hek' : e.1 = k'
    · by_cases hek : e.1 = k
      · have hkk : k' = k := hek' ▸ hek
        subst hkk
        simp [goLookup, List.find?_cons, hek']
      · have hkk : ¬ k' = k := fun h => hek (hek'.trans h)
        simp [goLookup, List.find?_cons, hek', hek, hkk]
    · have hrec : ∀ (x : String × β) (l : List (String × β)), ¬ x.1 = k' →
          goLookup (x :: l) k' = goLookup l k' := by
        intro x l hx
        simp [goLookup, List.find?_cons, hx]
      have hhead : ¬ (if e.1 = k then (e.1, e.2 + v) else e).1 = k' := by
        by_cases hek : e.1 = k <;> simp [hek, hek']
        exact fun h => hek' (hek.trans h)
      rw [hrec _ _ hhead, hrec _ _ hek', ih]
      by_cases hkk : k' = k
      · have hiff : (k ∈ (e :: m).map (fun e => e.1)) ↔ (k ∈ m.map (fun e => e.1)) := by
          rw [List.map_cons, List.mem_cons]
          constructor
          · rintro (h | h)
            · exact absurd (hkk ▸ h.symm) hek'
            · exact h
          · exact Or.inr
        simp only [hkk, true_and, hiff]
      · simp [hkk]

/-- The Go statement `m[k] += v` adds `v` to what is read at `k` and leaves what
is read at every other key. -/
theorem goLookup_mapAddAt {β : Type} [Add β] [Zero β] (m : List (String × β)) (k : String)
    (v : β) (k' : String) :
    goLookup (mapAddAt m k v) k' = if k' = k then goLookup m k' + v else goLookup m k' := by
  rw [mapAddAt_go_eq, goLookup_bumpAt]
  have happ : ∀ k'', k'' ∈ m.map (fun e => e.1) →
      goLookup (m ++ [(k, (0 : β))]) k'' = goLookup m k'' := by
    intro k'' hk''
    obtain ⟨e, he, hek⟩ := List.mem_map.mp hk''
    unfold goLookup
    rw [List.find?_append]
    cases hf : m.find? (fun e => decide (e.1 = k'')) with
    | some x => simp
    | none =>
      have := List.find?_eq_none.mp hf e he
      simp [hek] at this
  have hnew : ∀ k'', k'' ∉ m.map (fun e => e.1) →
      goLookup (m ++ [(k, (0 : β))]) k'' = 0 := by
    intro k'' hk''
    have hf : m.find? (fun e => decide (e.1 = k'')) = none := by
      rw [List.find?_eq_none]
      intro e he
      have : e.1 ≠ k'' := fun h => hk'' (h ▸ List.mem_map_of_mem (fun e => e.1) he)
      simpa using this
    unfold goLookup
    rw [List.find?_append, hf]
    by_cases hkk : k = k'' <;> simp [List.find?_cons, hkk]
  have hold : ∀ k'', k'' ∉ m.map (fun e => e.1) → goLookup m k'' = 0 := by
    intro k'' hk''
    have hf : m.find? (fun e => decide (e.1 = k'')) = none := by
      rw [List.find?_eq_none]
      intro e he
      have : e.1 ≠ k'' := fun h => hk'' (h ▸ List.mem_map_of_mem (fun e => e.1) he)
      simpa using this
    unfold goLookup
    rw [hf]
  by_cases h : k ∈ m.map (fun e => e.1)
  · simp only [h, if_true, and_true]
  · simp only [h, if_false]
    have hin : k ∈ (m ++ [(k, (0 : β))]).map (fun e => e.1) := by simp
    simp only [hin, and_true]
    by_cases hkk : k' = k
    · subst hkk
      simp only [if_true]
      rw [hnew k' h, hold k' h]
    · simp only [hkk, if_false]
      by_cases hk' : k' ∈ m.map (fun e => e.1)
      · exact happ k' hk'
      · rw [hnew k' hk', hold k' hk']

/-- What is read at a key after accumulation: what was read before, with the
values added at that key added one after the other, in order. -/
theorem goLookup_accumulate {β : Type} [Add β] [Zero β] (kvs : List (String × β)) :
    ∀ (m : List (String × β)) (k : String),
      goLookup (accumulate kvs m) k
        = ((kvs.filter (fun e => e.1 = k)).map (fun e => e.2)).foldl
            (fun acc x => acc + x) (goLookup m k) := by
  induction kvs with
  | nil => intro m k; rfl
  | cons kv kvs ih =>
    intro m k
    have hstep : accumulate (kv :: kvs) m = accumulate kvs (mapAddAt m kv.1 kv.2) := rfl
    rw [hstep, ih, goLookup_mapAddAt]
    by_cases hk : kv.1 = k
    · subst hk
      simp [List.filter_cons]
    · have hk' : ¬ k = kv.1 := fun h => hk h.symm
      simp [List.filter_cons, hk, hk']

/-- In a map without repeated keys the value read at the key of an entry is the
entry's value. -/
theorem goLookup_of_mem {β : Type} [Zero β] (m : List (String × β))
    (hnd : (m.map (fun e => e.1)).Nodup) (e : String × β) (he : e ∈ m) :
    goLookup m e.1 = e.2 := by
  induction m with
  | nil => cases he
  | cons a m ih =>
    rw [List.map_cons, List.nodup_cons] at hnd
    rcases List.mem_cons.mp he with h | h
    · subst h
      simp [goLookup, List.find?_cons]
    · have hne : a.1 ≠ e.1 := by
        intro heq
        exact hnd.1 (heq ▸ List.mem_map_of_mem (fun e => e.1) h)
      have := ih hnd.2 h
      simpa [goLookup, List.find?_cons, hne] using this

theorem fp_revenueStep_eq (lib : RFC3339Lib) (period : String) (m : List (String × float64))
    (inv : fp.Invoice) :
    fp.revenueStep lib period m inv
      = match fp.revenueEntry lib period inv with
        | none => m
        | some kv => mapAddAt m kv.1 kv.2 := by
  unfold fp.revenueStep fp.revenueEntry fp.bucketOf
  by_cases h : inv.CreatedAt = ""
  · simp [h]
  · simp only [h, if_false]
    cases lib.Parse inv.CreatedAt <;> rfl

theorem fp_revenue_fold_eq (lib : RFC3339Lib) (period : String) (invoices : List fp.Invoice) :
    ∀ m : List (String × float64),
      invoices.foldl (fp.revenueStep lib period) m
        = accumulate (invoices.filterMap (fp.revenueEntry lib period)) m := by
  induction invoices with
  | nil => intro m; rfl
  | cons inv rest ih =>
    intro m
    rw [List.foldl_cons, ih, fp_revenueStep_eq]
    cases h : fp.revenueEntry lib period inv with
    | none => simp [List.filterMap_cons, h]
    | some kv => simp [List.filterMap_cons, h, accumulate]

theorem fp_revenueEntry_some (lib : RFC3339Lib) (period : String) (inv : fp.Invoice)
    (kv : String × float64) :
    fp.revenueEntry lib period inv = some kv
      ↔ fp.bucketOf lib period inv = some kv.1 ∧ kv.2 = inv.Total := by
  unfold fp.revenueEntry
  cases hb : fp.bucketOf lib period inv with
  | none => simp
  | some k =>
    simp only [Option.map_some', Option.some.injEq]
    constructor
    · rintro rfl; exact ⟨rfl, rfl⟩
    · rintro ⟨h1, h2⟩
      exact Prod.ext h1 h2.symm

theorem fp_revenue_entries_at (lib : RFC3339Lib) (period : String)
    (invoices : List fp.Invoice) (k : String) :
    ((invoices.filterMap (fp.revenueEntry lib period)).filter (fun e => e.1 = k)).map
        (fun e => e.2)
      = (invoices.filter (fun inv => fp.bucketOf lib period inv = some k)).map
          (fun inv => inv.Total) := by
  induction invoices with
  | nil => rfl
  | cons inv rest ih =>
    unfold fp.revenueEntry at ih ⊢
    cases hb : fp.bucketOf lib period inv with
    | none => simp [List.filterMap_cons, List.filter_cons, hb, ih]
    | some k' =>
      by_cases hk : k' = k
      · simp [List.filterMap_cons, List.filter_cons, hb, hk, ih]
      · simp [List.filterMap_cons, List.filter_cons, hb, hk, ih]

theorem fp_revenue_entries_keys (lib : RFC3339Lib) (period : String)
    (invoices : List fp.Invoice) (k : String) :
    k ∈ (invoices.filterMap (fp.revenueEntry lib period)).map (fun e => e.1)
      ↔ ∃ inv ∈ invoices, fp.bucketOf lib period inv = some k := by
  rw [List.mem_map]
  constructor
  · rintro ⟨kv, hkv, rfl⟩
    obtain ⟨inv, hinv, he⟩ := List.mem_filterMap.mp hkv
    exact ⟨inv, hinv, ((fp_revenueEntry_some lib period inv kv).mp he).1⟩
  · rintro ⟨inv, hinv, hb⟩
    refine ⟨(k, inv.Total), List.mem_filterMap.mpr ⟨inv, hinv, ?_⟩, rfl⟩
    exact (fp_revenueEntry_some lib period inv (k, inv.Total)).mpr ⟨hb, rfl⟩

/-- C19 (as amended). For every fetched invoice list and every period,
`GetRevenueByPeriod` emits one record per distinct bucket key, no key twice; the
amount of a record is the `float64` sum, accumulated in the order of the fetch,
of the totals of the fetched invoices assigned to its key; invoices with an empty
or unparsable created_at are assigned to no key; and every fetched invoice that
is assigned to a key is counted in exactly one record. -/
theorem revenue_by_period_float64_buckets (lib : RFC3339Lib)
    (mapOrder : List (String × float64) → List (String × float64))
    (orderByCreatedAt : List fp.Invoice → List fp.Invoice) (rt : Remote) (s : fp.Store)
    (period : String) (limit : Int)
    (horder : ∀ l, (mapOrder l).Perm l) (hrt : rt.selectFails = false) :
    ∃ res, fp.AnalyticsRepository.GetRevenueByPeriod lib mapOrder orderByCreatedAt rt s
        period limit = .ok res ∧
      (res.map (fun r => r.Period)).Nodup ∧
      (∀ k, k ∈ res.map (fun r => r.Period)
        ↔ ∃ inv ∈ fp.fetchPaidInvoices orderByCreatedAt s limit,
            fp.bucketOf lib period inv = some k) ∧
      (∀ r ∈ res, r.Amount
        = fp.sum (((fp.fetchPaidInvoices orderByCreatedAt s limit).filter
            (fun inv => fp.bucketOf lib period inv = some r.Period)).map
              (fun inv => inv.Total))) ∧
      (∀ inv : fp.Invoice, inv.CreatedAt = "" ∨ lib.Parse inv.CreatedAt = none →
        fp.bucketOf lib period inv = none) ∧
      (∀ inv ∈ fp.fetchPaidInvoices orderByCreatedAt s limit, ∀ k,
        fp.bucketOf lib period inv = some k → ∃! r, r ∈ res ∧ r.Period = k) := by
  have hnil : (([] : List (String × float64)).map (fun e => e.1)).Nodup := List.nodup_nil
  have hM := fp_revenue_fold_eq lib period (fp.fetchPaidInvoices orderByCreatedAt s limit) []
  have hnd := accumulate_go_nodup
    ((fp.fetchPaidInvoices orderByCreatedAt s limit).filterMap (fp.revenueEntry lib period))
    [] hnil
  have hperm := horder (accumulate
    ((fp.fetchPaidInvoices orderByCreatedAt s limit).filterMap (fp.revenueEntry lib period))
    [])
  have hnodup : (((mapOrder (accumulate
      ((fp.fetchPaidInvoices orderByCreatedAt s limit).filterMap
        (fp.revenueEntry lib period)) [])).map
        (fun e => ({ Period := e.1, Amount := e.2 } : fp.RevenueData))).map
          (fun r => r.Period)).Nodup := by
    rw [List.map_map]
    exact (hperm.map _).nodup_iff.mpr hnd
  have hkeys : ∀ k, k ∈ ((mapOrder (accumulate
      ((fp.fetchPaidInvoices orderByCreatedAt s limit).filterMap
        (fp.revenueEntry lib period)) [])).map
        (fun e => ({ Period := e.1, Amount := e.2 } : fp.RevenueData))).map
          (fun r => r.Period)
      ↔ ∃ inv ∈ fp.fetchPaidInvoices orderByCreatedAt s limit,
          fp.bucketOf lib period inv = some k := by
    intro k
    rw [List.map_map]
    have h1 : k ∈ (mapOrder (accumulate
          ((fp.fetchPaidInvoices orderByCreatedAt s limit).filterMap
            (fp.revenueEntry lib period)) [])).map
            ((fun r : fp.RevenueData => r.Period) ∘ fun e => { Period := e.1, Amount := e.2 })
        ↔ k ∈ (accumulate
          ((fp.fetchPaidInvoices orderByCreatedAt s limit).filterMap
            (fp.revenueEntry lib period)) []).map (fun e => e.1) :=
      (hperm.map _).mem_iff
    rw [h1, accumulate_go_keys, fp_revenue_entries_keys]
    simp
  refine ⟨(mapOrder (accumulate
      ((fp.fetchPaidInvoices orderByCreatedAt s limit).filterMap
        (fp.revenueEntry lib period)) [])).map
        (fun e => { Period := e.1, Amount := e.2 }), ?_, hnodup, hkeys, ?_, ?_, ?_⟩
  · unfold fp.AnalyticsRepository.GetRevenueByPeriod
    simp only [hrt, Bool.false_eq_true, if_false, hM]
  · intro r hr
    obtain ⟨e, he, rfl⟩ := List.mem_map.mp hr
    have hem := hperm.subset he
    have hv := goLookup_of_mem _ hnd e hem
    rw [goLookup_accumulate, fp_revenue_entries_at] at hv
    simp only
    rw [← hv]
    rfl
  · intro inv h
    unfold fp.bucketOf
    rcases h with h | h
    · simp [h]
    · simp [h]
  · intro inv hinv k hk
    obtain ⟨r, hr, hrk⟩ := List.mem_map.mp ((hkeys k).mpr ⟨inv, hinv, hk⟩)
    refine ⟨r, ⟨hr, hrk⟩, ?_⟩
    rintro r' ⟨hr', hrk'⟩
    exact List.inj_on_of_nodup_map hnodup hr' hr (hrk'.trans hrk.symm)

/-- C19 (as amended) on `fp.exRevenueStore`, daily, limit 30, rows and map in
insertion order. -/
theorem revenue_by_period_float64_buckets_witness :
    ∃ res, fp.AnalyticsRepository.GetRevenueByPeriod exLib id id exRemote fp.exRevenueStore
        "daily" 30 = .ok res ∧
      (res.map (fun r => r.Period)).Nodup ∧
      (∀ k, k ∈ res.map (fun r => r.Period)
        ↔ ∃ inv ∈ fp.fetchPaidInvoices id fp.exRevenueStore 30,
            fp.bucketOf exLib "daily" inv = some k) ∧
      (∀ r ∈ res, r.Amount
        = fp.sum (((fp.fetchPaidInvoices id fp.exRevenueStore 30).filter
            (fun inv => fp.bucketOf exLib "daily" inv = some r.Period)).map
              (fun inv => inv.Total))) ∧
      (∀ inv : fp.Invoice, inv.CreatedAt = "" ∨ exLib.Parse inv.CreatedAt = none →
        fp.bucketOf exLib "daily" inv = none) ∧
      (∀ inv ∈ fp.fetchPaidInvoices id fp.exRevenueStore 30, ∀ k,
        fp.bucketOf exLib "daily" inv = some k → ∃! r, r ∈ res ∧ r.Period = k) :=
  revenue_by_period_float64_buckets exLib id id exRemote fp.exRevenueStore "daily" 30
    (fun l => List.Perm.refl l) rfl

/-- C19 fails on the amounts: for invoices of 0.1 on one day and of 0.1 and 0.4
on another, the records are 0.1 and 0.5; their `float64` sum is 0.6 while the
`float64` sum of the three totals is 0.6000000000000001, and the record 0.5 is
not the exact sum of 0.1 and 0.4. -/
theorem revenue_amounts_round :
    fp.AnalyticsRepository.GetRevenueByPeriod exLib id id exRemote fp.exRevenueStore
        "daily" 30
      = .ok [{ Period := "2026-01-02", Amount := fp.dec 1 1 },
             { Period := "2026-01-05", Amount := fp.dec 5 1 }] ∧
    fp.sum [fp.dec 1 1, fp.dec 5 1] = fp.dec 6 1 ∧
    fp.sum ((fp.fetchPaidInvoices id fp.exRevenueStore 30).map (fun inv => inv.Total))
      = fp.dec 6000000000000001 16 ∧
    float64.eq (fp.dec 6 1) (fp.dec 6000000000000001 16) = false ∧
    (fp.dec 5 1).toRat ≠ (fp.dec 1 1).toRat + (fp.dec 4 1).toRat := by
  have h1 : fp.dec 1 1 = .finite false 7205759403792794 (-56) := by decide
  have h4 : fp.dec 4 1 = .finite false 7205759403792794 (-54) := by decide
  have h5 : fp.dec 5 1 = .finite false 4503599627370496 (-53) := by decide
  refine ⟨?_, by decide, by decide, by decide, ?_⟩
  · exact congrArg Except.ok (by decide)
  · rw [h1, h4, h5]; norm_num [float64.toRat]

theorem fp_swapIfGreater_at (pre done ys : List fp.TopCustomer) (m y : fp.TopCustomer)
    (i j : Nat) (hi : i = pre.length) (hj : j = pre.length + 1 + done.length) :
    fp.swapIfGreater (pre ++ m :: (done ++ y :: ys)) i j =
      if float64.gt y.TotalRevenue m.TotalRevenue = true then pre ++ y :: (done ++ m :: ys)
      else pre ++ m :: (done ++ y :: ys) := by
  have e1 : (pre ++ m :: (done ++ y :: ys))[i]? = some m := getElem?_at _ _ _ _ hi
  have e2 : pre ++ m :: (done ++ y :: ys) = (pre ++ m :: done) ++ y :: ys := by simp
  have hj2 : j = (pre ++ m :: done).length := by simp [hj]; omega
  have e3 : (pre ++ m :: (done ++ y :: ys))[j]? = some y := by
    rw [e2]; exact getElem?_at _ _ _ _ hj2
  unfold fp.swapIfGreater
  simp only [e1, e3]
  by_cases h : float64.gt y.TotalRevenue m.TotalRevenue = true
  · simp only [h, if_true]
    rw [set_at _ _ _ _ _ hi]
    have e4 : pre ++ y :: (done ++ y :: ys) = (pre ++ y :: done) ++ y :: ys := by simp
    have hj3 : j = (pre ++ y :: done).length := by simp [hj]; omega
    rw [e4, set_at _ _ _ _ _ hj3]
    simp
  · simp only [h, if_false, Bool.false_eq_true]

/-- The inner loop at position `i` leaves the positions before `i` alone and
permutes the rest. -/
theorem fp_inner_loop_perm (todo : List fp.TopCustomer) :
    ∀ (pre done : List fp.TopCustomer) (m : fp.TopCustomer) (i j : Nat),
      i = pre.length → j = pre.length + 1 + done.length →
      ∃ m' rest,
        (List.range' j todo.length).foldl (fun r j => fp.swapIfGreater r i j)
            (pre ++ m :: (done ++ todo)) = pre ++ m' :: rest ∧
        (m' :: rest).Perm (m :: (done ++ todo)) := by
  induction todo with
  | nil =>
    intro pre done m i j _ _
    refine ⟨m, done, ?_, ?_⟩
    · simp
    · simp
  | cons y ys ih =>
    intro pre done m i j hi hj
    have hr : List.range' j (y :: ys).length = j :: List.range' (j + 1) ys.length := by
      simp [List.range'_succ]
    rw [hr, List.foldl_cons, fp_swapIfGreater_at pre done ys m y i j hi hj]
    by_cases h : float64.gt y.TotalRevenue m.TotalRevenue = true
    · simp only [h, if_true]
      have e : pre ++ y :: (done ++ m :: ys) = pre ++ y :: ((done ++ [m]) ++ ys) := by simp
      rw [e]
      obtain ⟨m', rest, h1, h2⟩ := ih pre (done ++ [m]) y i (j + 1) hi
        (by simp [hj]; omega)
      refine ⟨m', rest, h1, h2.trans ?_⟩
      have p1 : (y :: ((done ++ [m]) ++ ys)).Perm (y :: (m :: (done ++ ys))) := by
        apply List.Perm.cons
        have : (done ++ [m]).Perm (m :: done) := List.perm_append_singleton m done
        exact (List.Perm.append_right ys this).trans (by simp)
      have p2 : (y :: (m :: (done ++ ys))).Perm (m :: (y :: (done ++ ys))) :=
        List.Perm.swap m y _
      have p3 : (m :: (y :: (done ++ ys))).Perm (m :: (done ++ y :: ys)) :=
        List.Perm.cons m List.perm_middle.symm
      exact p1.trans (p2.trans p3)
    · simp only [h, if_false]
      have e : pre ++ m :: (done ++ y :: ys) = pre ++ m :: ((done ++ [y]) ++ ys) := by simp
      rw [e]
      obtain ⟨m', rest, h1, h2⟩ := ih pre (done ++ [y]) m i (j + 1) hi
        (by simp [hj]; omega)
      refine ⟨m', rest, h1, ?_⟩
      have e2 : m :: (done ++ y :: ys) = m :: ((done ++ [y]) ++ ys) := by simp
      rw [e2]
      exact h2

/-- The outer loop from position `i` on returns a permutation. -/
theorem fp_outer_loop_perm (k : Nat) :
    ∀ (pre suf : List fp.TopCustomer) (i : Nat),
      i = pre.length → k = suf.length - 1 →
      ((List.range' i k).foldl fp.sortInner (pre ++ suf)).Perm (pre ++ suf) := by
  induction k with
  | zero =>
    intro pre suf i _ _
    simp only [List.range'_zero, List.foldl_nil]
    exact List.Perm.refl _
  | succ k ih =>
    intro pre suf i hi hk
    match suf, hk with
    | [], hk => simp at hk
    | m :: todo, hk =>
      have hlen : todo.length = k + 1 := by simp at hk; omega
      have hr : List.range' i (k + 1) = i :: List.range' (i + 1) k := by
        simp [List.range'_succ]
      rw [hr, List.foldl_cons]
      have hinner : fp.sortInner (pre ++ m :: todo) i =
          (List.range' (i + 1) todo.length).foldl (fun r j => fp.swapIfGreater r i j)
            (pre ++ m :: ([] ++ todo)) := by
        unfold fp.sortInner
        have : (pre ++ m :: todo).length - (i + 1) = todo.length := by
          simp [hi]
          omega
        rw [this]
        simp
      obtain ⟨m', rest, h1, h2⟩ := fp_inner_loop_perm todo pre [] m i (i + 1) hi
        (by simp [hi])
      rw [hinner, h1]
      have h2' : (m' :: rest).Perm (m :: todo) := by simpa using h2
      have e : pre ++ m' :: rest = (pre ++ [m']) ++ rest := by simp
      have hrest : rest.length = k + 1 := by
        have := h2'.length_eq
        simp at this
        omega
      have g1 := ih (pre ++ [m']) rest (i + 1) (by simp [hi]) (by omega)
      rw [e]
      refine g1.trans ?_
      rw [← e]
      exact List.Perm.append_left pre h2'

/-- The exchange sort of `GetTopCustomers` returns a permutation of its input. -/
theorem fp_sortByRevenue_perm (result : List fp.TopCustomer) :
    (fp.sortByRevenue result).Perm result := by
  have h := fp_outer_loop_perm (result.length - 1) [] result 0 rfl rfl
  unfold fp.sortByRevenue
  rw [List.range_eq_range']
  simpa using h

theorem fp_groupStep_revenue (m : List fp.TopCustomer) (inv : fp.Invoice) :
    (fp.groupStep m inv).map fp.revenueOfRecord
      = mapAddAt (m.map fp.revenueOfRecord) inv.CustomerID inv.Total := by
  unfold fp.groupStep mapAddAt
  have hany : (m.map fp.revenueOfRecord).any (fun e => decide (e.1 = inv.CustomerID))
      = m.any (fun c => decide (c.CustomerID = inv.CustomerID)) := by
    induction m with
    | nil => rfl
    | cons c m ih => simp only [List.map_cons, List.any_cons, ih, fp.revenueOfRecord]
  simp only [hany]
  cases m.any (fun c => decide (c.CustomerID = inv.CustomerID))
  · simp only [Bool.false_eq_true, if_false, List.map_append, List.map_map, List.map_cons,
      List.map_nil]
    congr 1
    apply List.map_congr_left
    intro c _
    by_cases h : c.CustomerID = inv.CustomerID <;> simp [fp.revenueOfRecord, h]
  · simp only [if_true, List.map_map]
    apply List.map_congr_left
    intro c _
    by_cases h : c.CustomerID = inv.CustomerID <;> simp [fp.revenueOfRecord, h]

theorem fp_groupStep_count (m : List fp.TopCustomer) (inv : fp.Invoice) :
    (fp.groupStep m inv).map fp.countOfRecord
      = mapAddAt (m.map fp.countOfRecord) inv.CustomerID 1 := by
  unfold fp.groupStep mapAddAt
  have hany : (m.map fp.countOfRecord).any (fun e => decide (e.1 = inv.CustomerID))
      = m.any (fun c => decide (c.CustomerID = inv.CustomerID)) := by
    induction m with
    | nil => rfl
    | cons c m ih => simp only [List.map_cons, List.any_cons, ih, fp.countOfRecord]
  simp only [hany]
  cases m.any (fun c => decide (c.CustomerID = inv.CustomerID))
  · simp only [Bool.false_eq_true, if_false, List.map_append, List.map_map, List.map_cons,
      List.map_nil]
    congr 1
    apply List.map_congr_left
    intro c _
    by_cases h : c.CustomerID = inv.CustomerID <;> simp [fp.countOfRecord, h]
  · simp only [if_true, List.map_map]
    apply List.map_congr_left
    intro c _
    by_cases h : c.CustomerID = inv.CustomerID <;> simp [fp.countOfRecord, h]

theorem fp_group_fold_revenue (invoices : List fp.Invoice) :
    ∀ m : List fp.TopCustomer,
      (invoices.foldl fp.groupStep m).map fp.revenueOfRecord
        = accumulate (invoices.map (fun inv => (inv.CustomerID, inv.Total)))
            (m.map fp.revenueOfRecord) := by
  induction invoices with
  | nil => intro m; rfl
  | cons inv rest ih =>
    intro m
    rw [List.foldl_cons, ih, fp_groupStep_revenue]
    rfl

theorem fp_group_fold_count (invoices : List fp.Invoice) :
    ∀ m : List fp.TopCustomer,
      (invoices.foldl fp.groupStep m).map fp.countOfRecord
        = accumulate (invoices.map (fun inv => (inv.CustomerID, (1 : Int))))
            (m.map fp.countOfRecord) := by
  induction invoices with
  | nil => intro m; rfl
  | cons inv rest ih =>
    intro m
    rw [List.foldl_cons, ih, fp_groupStep_count]
    rfl

theorem fp_groupStep_names (m : List fp.TopCustomer) (inv : fp.Invoice)
    (h : ∀ c ∈ m, c.CustomerName = "" ∧ c.CustomerEmail = "") :
    ∀ c ∈ fp.groupStep m inv, c.CustomerName = "" ∧ c.CustomerEmail = "" := by
  intro c hc
  unfold fp.groupStep at hc
  obtain ⟨c0, hc0, rfl⟩ := List.mem_map.mp hc
  have h0 : c0.CustomerName = "" ∧ c0.CustomerEmail = "" := by
    split at hc0
    · exact h c0 hc0
    · rcases List.mem_append.mp hc0 with h1 | h1
      · exact h c0 h1
      · have : c0 = _ := List.mem_singleton.mp h1
        subst this
        exact ⟨rfl, rfl⟩
  by_cases hid : c0.CustomerID = inv.CustomerID
  · simpa [hid] using h0
  · simpa [hid] using h0

theorem fp_group_fold_names (invoices : List fp.Invoice) :
    ∀ m : List fp.TopCustomer, (∀ c ∈ m, c.CustomerName = "" ∧ c.CustomerEmail = "") →
      ∀ c ∈ invoices.foldl fp.groupStep m, c.CustomerName = "" ∧ c.CustomerEmail = "" := by
  induction invoices with
  | nil => intro m h; exact h
  | cons inv rest ih =>
    intro m h
    exact ih _ (fp_groupStep_names m inv h)

theorem fp_fetchDetails_fields (rt : Remote) (s : fp.Store) (c : fp.TopCustomer) :
    (fp.fetchDetails rt s c).CustomerID = c.CustomerID ∧
    (fp.fetchDetails rt s c).TotalRevenue = c.TotalRevenue ∧
    (fp.fetchDetails rt s c).InvoiceCount = c.InvoiceCount ∧
    ((rt.customerLookupFails c.CustomerID = true ∨ ∀ r ∈ s.customers, r.ID ≠ c.CustomerID) →
      (fp.fetchDetails rt s c).CustomerName = c.CustomerName ∧
      (fp.fetchDetails rt s c).CustomerEmail = c.CustomerEmail) := by
  unfold fp.fetchDetails
  by_cases hf : rt.customerLookupFails c.CustomerID = true
  · simp [hf]
  · simp only [hf, Bool.false_eq_true, if_false]
    cases hrows : s.customers.filter (fun r => r.ID = c.CustomerID) with
    | nil => simp
    | cons r rest =>
      refine ⟨rfl, rfl, rfl, ?_⟩
      rintro (h | h)
      · exact h.elim
      · have hr : r ∈ s.customers.filter (fun r => r.ID = c.CustomerID) := by
          rw [hrows]; exact List.mem_cons_self _ _
        have hr2 := List.mem_filter.mp hr
        exact absurd (by simpa using hr2.2) (h r hr2.1)

theorem fp_grouped_revenue (rt : Remote) (s : fp.Store) :
    (fp.groupedCustomers rt s).map fp.revenueOfRecord
      = accumulate (s.invoices.map (fun inv => (inv.CustomerID, inv.Total))) [] := by
  unfold fp.groupedCustomers
  rw [List.map_map]
  have h : (s.invoices.foldl fp.groupStep []).map (fp.revenueOfRecord ∘ fp.fetchDetails rt s)
      = (s.invoices.foldl fp.groupStep []).map fp.revenueOfRecord := by
    apply List.map_congr_left
    intro c _
    obtain ⟨h1, h2, _, _⟩ := fp_fetchDetails_fields rt s c
    simp [fp.revenueOfRecord, h1, h2]
  rw [h, fp_group_fold_revenue]
  rfl

theorem fp_grouped_count (rt : Remote) (s : fp.Store) :
    (fp.groupedCustomers rt s).map fp.countOfRecord
      = accumulate (s.invoices.map (fun inv => (inv.CustomerID, (1 : Int)))) [] := by
  unfold fp.groupedCustomers
  rw [List.map_map]
  have h : (s.invoices.foldl fp.groupStep []).map (fp.countOfRecord ∘ fp.fetchDetails rt s)
      = (s.invoices.foldl fp.groupStep []).map fp.countOfRecord := by
    apply List.map_congr_left
    intro c _
    obtain ⟨h1, _, h3, _⟩ := fp_fetchDetails_fields rt s c
    simp [fp.countOfRecord, h1, h3]
  rw [h, fp_group_fold_count]
  rfl

theorem fp_grouped_keys (rt : Remote) (s : fp.Store) :
    ((fp.groupedCustomers rt s).map (fun c => c.CustomerID)).Nodup ∧
    ∀ id, id ∈ (fp.groupedCustomers rt s).map (fun c => c.CustomerID)
      ↔ id ∈ s.invoices.map (fun inv => inv.CustomerID) := by
  have hk : (fp.groupedCustomers rt s).map (fun c => c.CustomerID)
      = ((fp.groupedCustomers rt s).map fp.revenueOfRecord).map (fun e => e.1) := by
    rw [List.map_map]; rfl
  rw [hk, fp_grouped_revenue]
  refine ⟨accumulate_go_nodup _ [] List.nodup_nil, ?_⟩
  intro id
  rw [accumulate_go_keys, List.map_map]
  simp

theorem fp_grouped_record (rt : Remote) (s : fp.Store) (c : fp.TopCustomer)
    (hc : c ∈ fp.groupedCustomers rt s) :
    c.TotalRevenue
      = fp.sum ((s.invoices.filter (fun inv => inv.CustomerID = c.CustomerID)).map
        (fun inv => inv.Total)) ∧
    c.InvoiceCount
      = ((s.invoices.filter (fun inv => inv.CustomerID = c.CustomerID)).length : Int) := by
  have hnil : ∀ β : Type, (([] : List (String × β)).map (fun e => e.1)).Nodup :=
    fun _ => List.nodup_nil
  constructor
  · have hmem : fp.revenueOfRecord c ∈ accumulate
        (s.invoices.map (fun inv => (inv.CustomerID, inv.Total))) [] := by
      rw [← fp_grouped_revenue rt s]; exact List.mem_map_of_mem _ hc
    have hv := goLookup_of_mem _ (accumulate_go_nodup _ [] (hnil float64)) _ hmem
    rw [goLookup_accumulate] at hv
    have hv' : c.TotalRevenue = _ := hv.symm
    rw [hv']
    simp [fp.revenueOfRecord, List.filter_map, Function.comp_def, fp.sum, goLookup]
  · have hmem : fp.countOfRecord c ∈ accumulate
        (s.invoices.map (fun inv => (inv.CustomerID, (1 : Int)))) [] := by
      rw [← fp_grouped_count rt s]; exact List.mem_map_of_mem _ hc
    have hv := valueAt_of_mem _ (accumulate_nodup _ [] (hnil Int)) _ hmem
    rw [accumulate_valueAt _ [] _ (hnil Int)] at hv
    have hv' : c.InvoiceCount = _ := hv.symm
    rw [hv']
    simp [valueAt, fp.countOfRecord, List.filter_map, Function.comp_def]

theorem fp_grouped_names (rt : Remote) (s : fp.Store) (c : fp.TopCustomer)
    (hc : c ∈ fp.groupedCustomers rt s)
    (h : rt.customerLookupFails c.CustomerID = true ∨ ∀ r ∈ s.customers, r.ID ≠ c.CustomerID) :
    c.CustomerName = "" ∧ c.CustomerEmail = "" := by
  unfold fp.groupedCustomers at hc
  obtain ⟨c0, hc0, rfl⟩ := List.mem_map.mp hc
  obtain ⟨h1, _, _, h4⟩ := fp_fetchDetails_fields rt s c0
  rw [h1] at h
  obtain ⟨hn, he⟩ := h4 h
  obtain ⟨hn0, he0⟩ := fp_group_fold_names s.invoices [] (by simp) c0 hc0
  exact ⟨hn.trans hn0, he.trans he0⟩

theorem fp_grouped_count_sum (rt : Remote) (s : fp.Store) :
    ((fp.groupedCustomers rt s).map (fun c => c.InvoiceCount)).sum
      = (s.invoices.length : Int) := by
  have hk : (fp.groupedCustomers rt s).map (fun c => c.InvoiceCount)
      = ((fp.groupedCustomers rt s).map fp.countOfRecord).map (fun e => e.2) := by
    rw [List.map_map]; rfl
  rw [hk, fp_grouped_count, accumulate_sum _ [] List.nodup_nil, List.map_map]
  simp [Function.comp_def]

/-- C20 (as amended). With a limit not below the number of distinct customer ids,
`GetTopCustomers` returns one record per distinct customer id of the invoices;
its total revenue is the `float64` sum, accumulated in the order of the fetch, of
that customer's invoice totals and its invoice count their number; a failed or
empty lookup leaves name and email empty and the record in place, so the invoice
counts of the records add up to the number of all invoices. -/
theorem top_customers_float64_grouping
    (mapOrder : List fp.TopCustomer → List fp.TopCustomer)
    (rt : Remote) (s : fp.Store) (limit : Int)
    (horder : ∀ l, (mapOrder l).Perm l) (hrt : rt.selectFails = false)
    (hlimit : (((s.invoices.map (fun inv => inv.CustomerID)).dedup.length : Nat) : Int)
      ≤ limit) :
    ∃ res, fp.AnalyticsRepository.GetTopCustomers mapOrder rt s limit = .ok res ∧
      (res.map (fun c => c.CustomerID)).Nodup ∧
      (∀ id, id ∈ res.map (fun c => c.CustomerID)
        ↔ id ∈ s.invoices.map (fun inv => inv.CustomerID)) ∧
      (∀ c ∈ res,
        c.TotalRevenue
          = fp.sum ((s.invoices.filter (fun inv => inv.CustomerID = c.CustomerID)).map
            (fun inv => inv.Total)) ∧
        c.InvoiceCount
          = ((s.invoices.filter (fun inv => inv.CustomerID = c.CustomerID)).length : Int)) ∧
      (∀ c ∈ res,
        (rt.customerLookupFails c.CustomerID = true ∨
          ∀ r ∈ s.customers, r.ID ≠ c.CustomerID) →
        c.CustomerName = "" ∧ c.CustomerEmail = "") ∧
      (res.map (fun c => c.InvoiceCount)).sum = (s.invoices.length : Int) := by
  obtain ⟨hnd, hkeys⟩ := fp_grouped_keys rt s
  have hperm0 := fp_sortByRevenue_perm (mapOrder (fp.groupedCustomers rt s))
  have hperm : (fp.sortByRevenue (mapOrder (fp.groupedCustomers rt s))).Perm
      (fp.groupedCustomers rt s) := hperm0.trans (horder _)
  have hlen : (fp.sortByRevenue (mapOrder (fp.groupedCustomers rt s))).length
      = (s.invoices.map (fun inv => inv.CustomerID)).dedup.length := by
    rw [hperm.length_eq, ← List.length_map (fp.groupedCustomers rt s) (fun c => c.CustomerID)]
    apply List.Perm.length_eq
    rw [List.perm_ext_iff_of_nodup hnd (List.nodup_dedup _)]
    intro id
    rw [hkeys, List.mem_dedup]
  have hres : fp.AnalyticsRepository.GetTopCustomers mapOrder rt s limit
      = .ok (fp.sortByRevenue (mapOrder (fp.groupedCustomers rt s))) := by
    unfold fp.AnalyticsRepository.GetTopCustomers
    have hno : ¬ (limit > 0 ∧
        ((fp.sortByRevenue (mapOrder (fp.groupedCustomers rt s))).length : Int) > limit) := by
      rintro ⟨_, h⟩
      rw [hlen] at h
      omega
    simp only [hrt, Bool.false_eq_true, if_false, hno]
  refine ⟨_, hres, ?_, ?_, ?_, ?_, ?_⟩
  · exact (hperm.map _).nodup_iff.mpr hnd
  · intro id
    rw [(hperm.map (fun c => c.CustomerID)).mem_iff]
    exact hkeys id
  · intro c hc
    exact fp_grouped_record rt s c (hperm.subset hc)
  · intro c hc h
    exact fp_grouped_names rt s c (hperm.subset hc) h
  · rw [(hperm.map (fun c => c.InvoiceCount)).sum_eq]
    exact fp_grouped_count_sum rt s

/-- C20 (as amended) on `fp.exGroupStore` with limit 10: two customers, three
invoices. -/
theorem top_customers_float64_grouping_witness :
    ∃ res, fp.AnalyticsRepository.GetTopCustomers id exRemote fp.exGroupStore 10 = .ok res ∧
      (res.map (fun c => c.CustomerID)).Nodup ∧
      (∀ id, id ∈ res.map (fun c => c.CustomerID)
        ↔ id ∈ fp.exGroupStore.invoices.map (fun inv => inv.CustomerID)) ∧
      (∀ c ∈ res,
        c.TotalRevenue
          = fp.sum ((fp.exGroupStore.invoices.filter
              (fun inv => inv.CustomerID = c.CustomerID)).map (fun inv => inv.Total)) ∧
        c.InvoiceCount
          = ((fp.exGroupStore.invoices.filter
              (fun inv => inv.CustomerID = c.CustomerID)).length : Int)) ∧
      (∀ c ∈ res,
        (exRemote.customerLookupFails c.CustomerID = true ∨
          ∀ r ∈ fp.exGroupStore.customers, r.ID ≠ c.CustomerID) →
        c.CustomerName = "" ∧ c.CustomerEmail = "") ∧
      (res.map (fun c => c.InvoiceCount)).sum = (fp.exGroupStore.invoices.length : Int) :=
  top_customers_float64_grouping id exRemote fp.exGroupStore 10 (fun l => List.Perm.refl l) rfl
    (by decide)

/-- C20 fails on the revenues: for customer `c-1` with one invoice of 0.1 and
customer `c-2` with invoices of 0.1 and 0.4 the records hold 0.5 and 0.1; their
`float64` sum is 0.6 while the `float64` sum of the three totals is
0.6000000000000001, and the revenue 0.5 is not the exact sum of 0.1 and 0.4. -/
theorem top_customer_revenues_round :
    (fp.AnalyticsRepository.GetTopCustomers id exRemote fp.exGroupStore 10).toOption.map
        (fun res => res.map (fun c => (c.CustomerID, c.TotalRevenue)))
      = some [("c-2", fp.dec 5 1), ("c-1", fp.dec 1 1)] ∧
    fp.sum [fp.dec 5 1, fp.dec 1 1] = fp.dec 6 1 ∧
    fp.sum (fp.exGroupStore.invoices.map (fun inv => inv.Total))
      = fp.dec 6000000000000001 16 ∧
    float64.eq (fp.dec 6 1) (fp.dec 6000000000000001 16) = false ∧
    (fp.dec 5 1).toRat ≠ (fp.dec 1 1).toRat + (fp.dec 4 1).toRat := by
  have h1 : fp.dec 1 1 = .finite false 7205759403792794 (-56) := by decide
  have h4 : fp.dec 4 1 = .finite false 7205759403792794 (-54) := by decide
  have h5 : fp.dec 5 1 = .finite false 4503599627370496 (-53) := by decide
  refine ⟨by decide, by decide, by decide, by decide, ?_⟩
  rw [h1, h4, h5]; norm_num [float64.toRat]

/-- C8 (as amended). On a server whose database client is configured, for every
amount string that scans to a finite amount and every non-empty currency code
`c`, `convertCurrency` with from = to = `c` answers 200 with `converted_amount`
equal to the amount and `rate` exactly 1.0, whatever the remote store does and
whatever the currency-rate table holds, also when it has no row for (`c`, `c`). -/
theorem convert_same_currency_finite (srv : Server) (sscanf : String → Option float64)
    (rt : Remote) (s : fp.Store) (amountStr c : String) (amount : float64)
    (hdb : srv.dbConfigured = true) (hstr : amountStr ≠ "") (hc : c ≠ "")
    (hscan : sscanf amountStr = some amount) (hfin : amount.isFinite = true) :
    Server.convertCurrency srv sscanf rt s amountStr c c
      = .json 200 (some { from_ := c, to_ := c, amount := amount, converted_amount := amount,
                          rate := float64.ofInt 1 }) ∧
    (float64.ofInt 1).toRat = 1 ∧
    (∀ (rt2 : Remote) (s2 : fp.Store),
      Server.convertCurrency srv sscanf rt2 s2 amountStr c c
        = Server.convertCurrency srv sscanf rt s amountStr c c) ∧
    Server.convertCurrency srv sscanf rt { s with currency_rates := [] } amountStr c c
      = Server.convertCurrency srv sscanf rt s amountStr c c := by
  have hone : (float64.ofInt 1).isFinite = true := by decide
  have key : ∀ (rt2 : Remote) (s2 : fp.Store),
      Server.convertCurrency srv sscanf rt2 s2 amountStr c c
        = .json 200 (some { from_ := c, to_ := c, amount := amount,
                            converted_amount := amount, rate := float64.ofInt 1 }) := by
    intro rt2 s2
    have hv : ¬ (amountStr = "" ∨ c = "" ∨ c = "") := by
      rintro (h | h | h)
      · exact hstr h
      · exact hc h
      · exact hc h
    unfold Server.convertCurrency encodeAnswer
    simp only [hdb, not_true_eq_false, if_false, hv, hscan, if_true, hfin, hone, and_self]
  refine ⟨key rt s, ?_, fun rt2 s2 => (key rt2 s2).trans (key rt s).symm,
    (key rt _).trans (key rt s).symm⟩
  have h1 : float64.ofInt 1 = .finite false 4503599627370496 (-52) := by decide
  rw [h1]; norm_num [float64.toRat]

/-- C8 (as amended) for the amount 12.5 in USD, on a store that holds a row for
(USD, USD) with rate 2. -/
theorem convert_same_currency_finite_witness :
    Server.convertCurrency { dbConfigured := true } exScan exRemote fp.exRateStore
        "12.5" "USD" "USD"
      = .json 200 (some { from_ := "USD", to_ := "USD", amount := fp.dec 125 1,
                          converted_amount := fp.dec 125 1, rate := float64.ofInt 1 }) ∧
    (float64.ofInt 1).toRat = 1 ∧
    (∀ (rt2 : Remote) (s2 : fp.Store),
      Server.convertCurrency { dbConfigured := true } exScan rt2 s2 "12.5" "USD" "USD"
        = Server.convertCurrency { dbConfigured := true } exScan exRemote fp.exRateStore
            "12.5" "USD" "USD") ∧
    Server.convertCurrency { dbConfigured := true } exScan exRemote
        { fp.exRateStore with currency_rates := [] } "12.5" "USD" "USD"
      = Server.convertCurrency { dbConfigured := true } exScan exRemote fp.exRateStore
          "12.5" "USD" "USD" :=
  convert_same_currency_finite { dbConfigured := true } exScan exRemote fp.exRateStore
    "12.5" "USD" (fp.dec 125 1) rfl (by decide) (by decide) rfl (by decide)

/-- C8 fails without a configured database client, where the answer is 500
whatever the parameters, and for the parsable amount `NaN`, where the answer is
200 with an empty body: no `converted_amount` and no `rate`. -/
theorem convert_same_currency_no_answer :
    Server.convertCurrency { dbConfigured := false } exScan exRemote fp.exRateStore
        "100" "USD" "USD"
      = .error "Database not configured" 500 ∧
    exScan "NaN" = some .nan ∧
    Server.convertCurrency { dbConfigured := true } exScan exRemote fp.exRateStore
        "NaN" "USD" "USD"
      = .json 200 none := by
  refine ⟨by decide, rfl, by decide⟩

/-- The quotient rounded by `divHalfEven` is within one half of the exact
quotient. -/
theorem divHalfEven_near (N D : Nat) (hD : 0 < D) :
    |((divHalfEven N D : Nat) : ℚ) - (N : ℚ) / (D : ℚ)| ≤ 1 / 2 := by
  have hDq : (0 : ℚ) < (D : ℚ) := by exact_mod_cast hD
  have hsplit : (N : ℚ) = (D : ℚ) * ((N / D : Nat) : ℚ) + ((N % D : Nat) : ℚ) := by
    exact_mod_cast (Nat.div_add_mod N D).symm
  have hr : ((N % D : Nat) : ℚ) < (D : ℚ) := by exact_mod_cast Nat.mod_lt N hD
  have hr0 : (0 : ℚ) ≤ ((N % D : Nat) : ℚ) := by positivity
  have hquot : (N : ℚ) / (D : ℚ) = ((N / D : Nat) : ℚ) + ((N % D : Nat) : ℚ) / (D : ℚ) := by
    have hD0 : (D : ℚ) ≠ 0 := ne_of_gt hDq
    have hsimp : ∀ a b : ℚ, ((D : ℚ) * a + b) / (D : ℚ) = a + b / (D : ℚ) := by
      intro a b
      field_simp
      ring
    have hq' : ((N : ℚ)) / (D : ℚ)
        = ((D : ℚ) * ((N / D : Nat) : ℚ) + ((N % D : Nat) : ℚ)) / (D : ℚ) := by
      rw [← hsplit]
    exact hq'.trans (hsimp _ _)
  unfold divHalfEven
  simp only
  by_cases hup : 2 * (N % D) > D ∨ (2 * (N % D) = D ∧ (N / D) % 2 = 1)
  · simp only [hup, if_true]
    have h2 : (D : ℚ) ≤ 2 * ((N % D : Nat) : ℚ) := by
      rcases hup with h | h
      · exact_mod_cast le_of_lt h
      · exact_mod_cast le_of_eq h.1.symm
    rw [hquot]
    push_cast
    have e : ((N / D : Nat) : ℚ) + 1 - (((N / D : Nat) : ℚ) + ((N % D : Nat) : ℚ) / (D : ℚ))
        = 1 - ((N % D : Nat) : ℚ) / (D : ℚ) := by ring
    rw [e, abs_le]
    constructor
    · have : ((N % D : Nat) : ℚ) / (D : ℚ) ≤ 1 := by
        rw [div_le_one hDq]; exact le_of_lt hr
      linarith
    · have : (1 : ℚ) / 2 ≤ ((N % D : Nat) : ℚ) / (D : ℚ) := by
        rw [le_div_iff₀ hDq]; linarith
      linarith
  · simp only [hup, if_false]
    have h2 : 2 * ((N % D : Nat) : ℚ) ≤ (D : ℚ) := by
      have : 2 * (N % D) ≤ D := by
        by_contra hc
        exact hup (Or.inl (not_le.mp hc))
      exact_mod_cast this
    rw [hquot]
    have e : ((N / D : Nat) : ℚ) - (((N / D : Nat) : ℚ) + ((N % D : Nat) : ℚ) / (D : ℚ))
        = - (((N % D : Nat) : ℚ) / (D : ℚ)) := by ring
    rw [e, abs_neg, abs_le]
    constructor
    · have : (0 : ℚ) ≤ ((N % D : Nat) : ℚ) / (D : ℚ) := div_nonneg hr0 (le_of_lt hDq)
      linarith
    · rw [div_le_iff₀ hDq]; linarith

/-- The fraction of `m * 2^e` has a positive denominator and the value `m * 2^e`. -/
theorem float64.fraction_value (m : Nat) (e : Int) :
    0 < (float64.fraction m e).2 ∧
    ((float64.fraction m e).1 : ℚ) / ((float64.fraction m e).2 : ℚ) = (m : ℚ) * (2 : ℚ) ^ e := by
  unfold float64.fraction
  by_cases h : e ≥ 0
  · simp only [h, if_true]
    refine ⟨Nat.one_pos, ?_⟩
    push_cast
    rw [div_one, ← zpow_natCast, Int.toNat_of_nonneg h]
  · simp only [h, if_false]
    have hneg : 0 ≤ -e := by omega
    refine ⟨Nat.pow_pos (by decide), ?_⟩
    push_cast
    rw [← zpow_natCast, Int.toNat_of_nonneg hneg, zpow_neg, div_eq_mul_inv, inv_inv]

/-- The digits of a fixed-point rendering are a nearest integer to the absolute
value times `10^prec`. -/
theorem float64.decimalDigits_near (prec m : Nat) (e : Int) :
    |((float64.decimalDigits prec m e : Nat) : ℚ) - (m : ℚ) * (2 : ℚ) ^ e * 10 ^ prec|
      ≤ 1 / 2 := by
  obtain ⟨hpos, hval⟩ := float64.fraction_value (m * 10 ^ prec) e
  have h := divHalfEven_near (float64.fraction (m * 10 ^ prec) e).1
    (float64.fraction (m * 10 ^ prec) e).2 hpos
  rw [hval] at h
  unfold float64.decimalDigits
  have e2 : ((m * 10 ^ prec : Nat) : ℚ) * (2 : ℚ) ^ e = (m : ℚ) * (2 : ℚ) ^ e * 10 ^ prec := by
    push_cast; ring
  rw [← e2]
  exact h

/-- The absolute exact value of a finite `float64`, and when it is below zero. -/
theorem float64.toRat_finite (neg : Bool) (m : Nat) (e : Int) :
    |(float64.finite neg m e).toRat| = (m : ℚ) * (2 : ℚ) ^ e ∧
    ((float64.finite neg m e).toRat < 0 ↔ neg = true ∧ m ≠ 0) := by
  have hp : (0 : ℚ) < (2 : ℚ) ^ e := by positivity
  have hm : (0 : ℚ) ≤ (m : ℚ) := by positivity
  have hv : (0 : ℚ) ≤ (m : ℚ) * (2 : ℚ) ^ e := mul_nonneg hm (le_of_lt hp)
  unfold float64.toRat
  cases neg
  · simp only [Bool.false_eq_true, if_false, one_mul, false_and, iff_false, not_lt]
    exact ⟨abs_of_nonneg hv, hv⟩
  · simp only [if_true, true_and]
    constructor
    · rw [show (-1 : ℚ) * (m : ℚ) * (2 : ℚ) ^ e = -((m : ℚ) * (2 : ℚ) ^ e) by ring, abs_neg]
      exact abs_of_nonneg hv
    · constructor
      · intro h hm0
        rw [hm0] at h
        simp at h
      · intro hm0
        have hmpos : (0 : ℚ) < (m : ℚ) := by
          exact_mod_cast Nat.pos_of_ne_zero hm0
        have : (0 : ℚ) < (m : ℚ) * (2 : ℚ) ^ e := mul_pos hmpos hp
        linarith

theorem groupRev_mem : ∀ (l : List Char) (x : Char), x ∈ groupRev l → x ∈ l ∨ x = ','
  | [], x, h => by simp [groupRev] at h
  | [a], x, h => by left; simpa [groupRev] using h
  | [a, b], x, h => by left; simpa [groupRev] using h
  | [a, b, c], x, h => by left; simpa [groupRev] using h
  | a :: b :: c :: d :: rest, x, h => by
    simp only [groupRev, List.mem_cons] at h
    rcases h with h | h | h | h | h
    · left; simp [h]
    · left; simp [h]
    · left; simp [h]
    · right; exact h
    · rcases groupRev_mem (d :: rest) x h with h' | h'
      · left
        simp only [List.mem_cons] at h' ⊢
        tauto
      · right; exact h'

theorem dropWhile_no_point (body rest : List Char)
    (h : ∀ c ∈ body, (c != '.') = true) :
    (body ++ rest).dropWhile (fun c => c != '.') = rest.dropWhile (fun c => c != '.') := by
  induction body with
  | nil => rfl
  | cons c cs ih =>
    have hc := h c (List.mem_cons_self _ _)
    simp only [List.cons_append, List.dropWhile_cons, hc, if_true]
    exact ih (fun d hd => h d (List.mem_cons_of_mem _ hd))

/-- A sign and a grouped integer part hold no decimal point. -/
theorem grouped_no_point (sign : Bool) (n : Nat) :
    ∀ c ∈ ((if sign then "-" else "")
        ++ String.mk (groupThousands (Nat.repr n).toList)).toList, (c != '.') = true := by
  intro c hc
  simp only [String.toList, String.data_append, List.mem_append] at hc
  rcases hc with h | h
  · cases sign
    · simp at h
    · have : c = '-' := by simpa using h
      subst this; rfl
  · unfold groupThousands at h
    rw [List.mem_reverse] at h
    rcases groupRev_mem _ c h with h' | h'
    · rw [List.mem_reverse] at h'
      have hdig := repr_isDigit n c h'
      by_contra hne
      have : c = '.' := by simpa using hne
      subst this
      exact absurd hdig (by decide)
    · subst h'; rfl

/-- A text without a point has no fractional digit; followed by a point and a
number below `10^prec` padded to `prec` digits it has exactly `prec`. -/
theorem fractionDigits_fixed (body : String) (prec n : Nat)
    (hbody : ∀ c ∈ body.toList, (c != '.') = true) (hn : n < 10 ^ prec) :
    fractionDigits body = 0 ∧
    (prec ≠ 0 →
      fractionDigits (body ++ "." ++ String.mk (List.leftpad prec '0' (Nat.repr n).toList))
        = prec) := by
  constructor
  · unfold fractionDigits
    have h := dropWhile_no_point body.toList [] hbody
    simp only [List.append_nil] at h
    rw [h]
    rfl
  · intro hp
    unfold fractionDigits
    have e : (body ++ "." ++ String.mk (List.leftpad prec '0' (Nat.repr n).toList)).toList
        = body.toList ++ ('.' :: List.leftpad prec '0' (Nat.repr n).toList) := by
      simp [String.toList, String.data_append]
    rw [e, dropWhile_no_point _ _ hbody]
    have hd : (('.' :: List.leftpad prec '0' (Nat.repr n).toList).dropWhile
          (fun c => c != '.'))
        = '.' :: List.leftpad prec '0' (Nat.repr n).toList := by
      simp [List.dropWhile_cons]
    rw [hd]
    simp only [List.leftpad_length]
    have hlen : (Nat.repr n).toList.length ≤ prec :=
      Nat.repr_length _ prec (Nat.pos_of_ne_zero hp) hn
    omega

/-- C9 (as amended). For every finite amount and every currency code,
`FormatCurrency` renders the amount rounded to the nearest integer, with no
fractional digit, when the code is one of IDR, JPY, CNY, and rounded to the
nearest hundredth, with exactly two fractional digits, for every other code: the
text is the sign of an amount below zero, the integer part in groups of three,
and for the other codes a point and two digits. -/
theorem format_currency_finite_digits (amount : float64) (currencyCode : String)
    (hfin : amount.isFinite = true) :
    (currencyCode ∈ ["IDR", "JPY", "CNY"] →
      fractionDigits (FormatCurrency amount currencyCode) = 0 ∧
      ∃ n : Nat, |(n : ℚ) - abs amount.toRat| ≤ 1 / 2 ∧
        FormatCurrency amount currencyCode
          = (if amount.toRat < 0 then "-" else "")
            ++ String.mk (groupThousands (Nat.repr n).toList)) ∧
    (currencyCode ∉ ["IDR", "JPY", "CNY"] →
      fractionDigits (FormatCurrency amount currencyCode) = 2 ∧
      ∃ n : Nat, |(n : ℚ) - abs amount.toRat * 100| ≤ 1 / 2 ∧
        FormatCurrency amount currencyCode
          = (if amount.toRat < 0 then "-" else "")
            ++ String.mk (groupThousands (Nat.repr (n / 100)).toList)
            ++ "." ++ String.mk (List.leftpad 2 '0' (Nat.repr (n % 100)).toList)) := by
  cases amount with
  | nan => simp [float64.isFinite] at hfin
  | inf a => simp [float64.isFinite] at hfin
  | finite neg m e =>
    obtain ⟨habs, hneg⟩ := float64.toRat_finite neg m e
    have hsign : (if (float64.finite neg m e).toRat < 0 then "-" else "")
        = (if (neg = true ∧ m ≠ 0) then "-" else "") := by
      by_cases h : neg = true ∧ m ≠ 0
      · rw [if_pos (hneg.mpr h), if_pos h]
      · rw [if_neg (fun hh => h (hneg.mp hh)), if_neg h]
    have hsignB : (if (neg = true ∧ m ≠ 0) then "-" else "")
        = (if (decide (neg = true ∧ m ≠ 0)) then "-" else "") := by
      by_cases h : neg = true ∧ m ≠ 0 <;> simp [h]
    constructor
    · intro hcode
      have hform : FormatCurrency (.finite neg m e) currencyCode
          = (if (neg = true ∧ m ≠ 0) then "-" else "")
            ++ String.mk (groupThousands
                (Nat.repr (float64.decimalDigits 0 m e)).toList) := by
        unfold FormatCurrency printerSprintf sprintfFixed
        simp only [hcode, if_true, pow_zero, Nat.div_one]
      refine ⟨?_, float64.decimalDigits 0 m e, ?_, ?_⟩
      · rw [hform, hsignB]
        exact (fractionDigits_fixed _ 0 0 (grouped_no_point _ _) (by decide)).1
      · have h := float64.decimalDigits_near 0 m e
        rw [habs]
        simpa using h
      · rw [hform, hsign]
    · intro hcode
      have h2 : (2 : Nat) ≠ 0 := by decide
      have hfmt : ¬ ("%.2f" = "%.0f") := by decide
      have hform : FormatCurrency (.finite neg m e) currencyCode
          = (if (neg = true ∧ m ≠ 0) then "-" else "")
            ++ String.mk (groupThousands
                (Nat.repr (float64.decimalDigits 2 m e / 100)).toList)
            ++ "." ++ String.mk (List.leftpad 2 '0'
                (Nat.repr (float64.decimalDigits 2 m e % 100)).toList) := by
        unfold FormatCurrency printerSprintf sprintfFixed
        simp only [hcode, if_false, hfmt, if_true, h2]
        norm_num
      refine ⟨?_, float64.decimalDigits 2 m e, ?_, ?_⟩
      · rw [hform, hsignB]
        exact (fractionDigits_fixed _ 2 _ (grouped_no_point _ _)
          (Nat.mod_lt _ (by decide))).2 (by decide)
      · have h := float64.decimalDigits_near 2 m e
        rw [habs]
        norm_num at h ⊢
        exact h
      · rw [hform, hsign]

/-- C9 (as amended) at 1234567.891 in USD and in IDR. -/
theorem format_currency_finite_digits_witness :
    FormatCurrency (fp.dec 1234567891 3) "USD" = "1,234,567.89" ∧
    FormatCurrency (fp.dec 1234567891 3) "IDR" = "1,234,568" ∧
    (fractionDigits (FormatCurrency (fp.dec 1234567891 3) "USD") = 2 ∧
      ∃ n : Nat, |(n : ℚ) - abs (fp.dec 1234567891 3).toRat * 100| ≤ 1 / 2 ∧
        FormatCurrency (fp.dec 1234567891 3) "USD"
          = (if (fp.dec 1234567891 3).toRat < 0 then "-" else "")
            ++ String.mk (groupThousands (Nat.repr (n / 100)).toList)
            ++ "." ++ String.mk (List.leftpad 2 '0' (Nat.repr (n % 100)).toList)) ∧
    (fractionDigits (FormatCurrency (fp.dec 1234567891 3) "IDR") = 0 ∧
      ∃ n : Nat, |(n : ℚ) - abs (fp.dec 1234567891 3).toRat| ≤ 1 / 2 ∧
        FormatCurrency (fp.dec 1234567891 3) "IDR"
          = (if (fp.dec 1234567891 3).toRat < 0 then "-" else "")
            ++ String.mk (groupThousands (Nat.repr n).toList)) :=
  ⟨by decide, by decide,
   (format_currency_finite_digits (fp.dec 1234567891 3) "USD" (by decide)).2 (by decide),
   (format_currency_finite_digits (fp.dec 1234567891 3) "IDR" (by decide)).1 (by decide)⟩

set_option exponentiation.threshold 1100 in
set_option maxRecDepth 8000 in
/-- C9 fails for the amounts that are not finite: a NaN is rendered `NaN` and an
infinity `∞`, without fractional digits, also for a code outside the no-decimal
set. -/
theorem format_currency_not_finite :
    FormatCurrency .nan "USD" = "NaN" ∧ fractionDigits (FormatCurrency .nan "USD") = 0 ∧
    FormatCurrency (.inf false) "USD" = "∞" ∧
    fractionDigits (FormatCurrency (.inf false) "USD") = 0 ∧
    FormatCurrency (float64.max * float64.ofInt 10) "EUR" = "∞" := by
  refine ⟨by decide, by decide, by decide, by decide, by decide⟩

theorem itemRows_texts (items : List invoice.Item) :
    ∀ state : List TextCell × Bool,
      (items.foldl itemRow state).1.map (fun c => c.Text)
        = state.1.map (fun c => c.Text)
          ++ (items.map (fun item =>
              [item.Description, sprintfD item.Quantity, sprintfDollar item.UnitPrice,
                sprintfDollar (float64.ofInt item.Quantity * item.UnitPrice)])).flatten := by
  induction items with
  | nil => intro state; simp
  | cons item rest ih =>
    intro state
    rw [List.foldl_cons, ih]
    simp [itemRow, gofpdf.CellFormat]

/-- The text of `fmt.Sprintf("$%.2f", ·)` on a finite amount: the dollar sign,
the sign, the integer digits, a point and two digits. -/
theorem sprintfDollar_finite (neg : Bool) (m : Nat) (e : Int) :
    sprintfDollar (.finite neg m e)
      = "$" ++ (if neg then "-" else "") ++ Nat.repr (float64.decimalDigits 2 m e / 100)
        ++ "." ++ String.mk (List.leftpad 2 '0'
            (Nat.repr (float64.decimalDigits 2 m e % 100)).toList) := by
  unfold sprintfDollar fmtFixed
  have h2 : (2 : Nat) ≠ 0 := by decide
  simp only [h2, if_false]
  norm_num
  simp [String.append_assoc]

/-- A dollar sign, a sign and the digits of a number hold no decimal point. -/
theorem dollar_body_no_point (neg : Bool) (n : Nat) :
    ∀ c ∈ ("$" ++ (if neg then "-" else "") ++ Nat.repr n).toList, (c != '.') = true := by
  intro c hc
  simp only [String.toList, String.data_append, List.mem_append] at hc
  rcases hc with (h | h) | h
  · have : c = '$' := by simpa using h
    subst this; rfl
  · cases neg
    · simp at h
    · have : c = '-' := by simpa using h
      subst this; rfl
  · have hdig := repr_isDigit n c h
    by_contra hne
    have : c = '.' := by simpa using hne
    subst this
    exact absurd hdig (by decide)

/-- C23 (as amended). The text cells drawn by `addItemsTable` and
`addTotalsSection` do not depend on the invoice's currency: changing only
`Currency` leaves both outputs the same. The cells of the items table are the
headers and, per item, description, quantity, and `fmt.Sprintf("$%.2f", ·)` of
the unit price and of `float64(quantity) * unit_price`; the cells of the totals
section hold `fmt.Sprintf("$%.2f", ·)` of subtotal, tax amount, discount (after a
minus sign) and total. For every finite amount that text is the dollar sign, the
sign, and the amount rounded to the nearest hundredth with exactly two
fractional digits. -/
theorem pdf_money_in_dollars (pdf : List TextCell) (inv : invoice.Invoice)
    (currency : String) :
    addItemsTable pdf ({ inv with Currency := currency }).Items = addItemsTable pdf inv.Items ∧
    addTotalsSection pdf { inv with Currency := currency } = addTotalsSection pdf inv ∧
    (addItemsTable pdf inv.Items).map (fun c => c.Text)
      = pdf.map (fun c => c.Text) ++ ["DESCRIPTION", "QTY", "UNIT PRICE", "AMOUNT"]
        ++ (inv.Items.map (fun item =>
            [item.Description, sprintfD item.Quantity, sprintfDollar item.UnitPrice,
              sprintfDollar (float64.ofInt item.Quantity * item.UnitPrice)])).flatten ∧
    (addTotalsSection pdf inv).map (fun c => c.Text)
      = pdf.map (fun c => c.Text)
        ++ ["", "Subtotal:", sprintfDollar (drawnSubtotal inv),
            "", "Tax (" ++ fmtFixed 1 inv.Tax ++ "%):", sprintfDollar (drawnTax inv)]
        ++ (if float64.gt inv.Discount 0 then ["", "Discount:", "-" ++ sprintfDollar inv.Discount]
            else [])
        ++ ["", "TOTAL:", sprintfDollar (drawnTotal inv)] ∧
    ∀ amount : float64, amount.isFinite = true →
      (sprintfDollar amount).toList.head? = some '$' ∧
      fractionDigits (sprintfDollar amount) = 2 ∧
      ∃ n : Nat, |(n : ℚ) - abs amount.toRat * 100| ≤ 1 / 2 ∧
        sprintfDollar amount
          = "$" ++ (if amount.signbit then "-" else "") ++ Nat.repr (n / 100)
            ++ "." ++ String.mk (List.leftpad 2 '0' (Nat.repr (n % 100)).toList) := by
  refine ⟨rfl, rfl, ?_, ?_, ?_⟩
  · unfold addItemsTable
    rw [itemRows_texts]
    simp only [gofpdf.CellFormat, List.map_append, List.map_cons, List.map_nil,
      List.append_assoc]
    rfl
  · unfold addTotalsSection drawnTotal drawnTax drawnSubtotal
    by_cases hd : float64.gt inv.Discount 0 = true
    · simp only [hd, if_true, gofpdf.Cell, gofpdf.CellFormat, List.map_append, List.map_cons,
        List.map_nil, List.append_assoc, List.cons_append, List.nil_append]
    · simp only [hd, if_false, gofpdf.Cell, gofpdf.CellFormat, List.map_append, List.map_cons,
        List.map_nil, List.append_assoc, List.cons_append, List.nil_append,
        Bool.false_eq_true]
  · intro amount hfin
    cases amount with
    | nan => simp [float64.isFinite] at hfin
    | inf a => simp [float64.isFinite] at hfin
    | finite neg m e =>
      obtain ⟨habs, _⟩ := float64.toRat_finite neg m e
      have hform := sprintfDollar_finite neg m e
      refine ⟨?_, ?_, float64.decimalDigits 2 m e, ?_, ?_⟩
      · rw [hform]
        simp [String.toList, String.data_append]
      · rw [hform]
        exact (fractionDigits_fixed _ 2 _ (dollar_body_no_point neg _)
          (Nat.mod_lt _ (by decide))).2 (by decide)
      · have h := float64.decimalDigits_near 2 m e
        rw [habs]
        norm_num at h ⊢
        exact h
      · rw [hform]
        rfl

set_option maxRecDepth 8000 in
/-- C23 (as amended) on `exPdfInvoice`, an invoice in rupiah whose totals are
drawn in dollars, and for the amount 27.5. -/
theorem pdf_money_in_dollars_witness :
    (addTotalsSection [] exPdfInvoice).map (fun c => c.Text)
      = ["", "Subtotal:", "$27.50", "", "Tax (10.0%):", "$2.75", "", "Discount:", "-$5.00",
         "", "TOTAL:", "$25.25"] ∧
    (addItemsTable [] exPdfInvoice.Items).map (fun c => c.Text)
      = ["DESCRIPTION", "QTY", "UNIT PRICE", "AMOUNT", "a", "2", "$10.00", "$20.00",
         "b", "3", "$2.50", "$7.50"] ∧
    addItemsTable [] ({ exPdfInvoice with Currency := "USD" }).Items
      = addItemsTable [] exPdfInvoice.Items ∧
    addTotalsSection [] { exPdfInvoice with Currency := "USD" }
      = addTotalsSection [] exPdfInvoice ∧
    ((sprintfDollar (fp.dec 275 1)).toList.head? = some '$' ∧
      fractionDigits (sprintfDollar (fp.dec 275 1)) = 2 ∧
      ∃ n : Nat, |(n : ℚ) - abs (fp.dec 275 1).toRat * 100| ≤ 1 / 2 ∧
        sprintfDollar (fp.dec 275 1)
          = "$" ++ (if (fp.dec 275 1).signbit then "-" else "") ++ Nat.repr (n / 100)
            ++ "." ++ String.mk (List.leftpad 2 '0' (Nat.repr (n % 100)).toList)) :=
  ⟨by decide, by decide,
   (pdf_money_in_dollars [] exPdfInvoice "USD").1,
   (pdf_money_in_dollars [] exPdfInvoice "USD").2.1,
   (pdf_money_in_dollars [] exPdfInvoice "USD").2.2.2.2 (fp.dec 275 1) (by decide)⟩

set_option exponentiation.threshold 1100 in
set_option maxRecDepth 8000 in
/-- C23 fails for amounts that are not finite: for an item of quantity 2 at the
largest finite unit price the line amount is drawn as `$+Inf`, without decimals.
A negative zero, which is finite, is drawn `$-0.00`, with its sign and two
decimals. -/
theorem pdf_amount_without_decimals :
    ((addItemsTable [] [{ Description := "a", Quantity := 2, UnitPrice := float64.max }]).map
        (fun c => c.Text)).getLast? = some "$+Inf" ∧
    fractionDigits "$+Inf" = 0 ∧
    sprintfDollar (float64.ofInt 0 * float64.ofInt (-1)) = "$-0.00" := by
  refine ⟨by decide, by decide, by decide⟩

end InvoiceSys
